import Mathlib

/-!
# ccdbg: address remapping and the hardware breakpoint table

A shallow embedding of `MemRemap::target` / `MemRemap::flat`
(`src/debug-core/memremap.h`) and of the breakpoint routines of
`src/ec2drv/ec2drv.c`, followed by the theorems about them.

Machine integers are natural numbers; a 32-bit value is a `Nat` below `2^32`,
and stores into narrower fields reduce modulo the field width.
-/

namespace MemRemap

/-- Modelled from the spec: `types.h`, which declares `ADDR` and
`INVALID_ADDR`, is not among the sources. The window table above
`MemRemap::target` lists `0xFFFFFFFF` as the invalid address, the reserved
sentinel of the specification. -/
def INVALID_ADDR : Nat := 0xFFFFFFFF

/-- Modelled from the spec: `types.h` is not among the sources; the invalid
flat address is the same reserved 32-bit sentinel. -/
def INVALID_FLAT_ADDR : Nat := 0xFFFFFFFF

/-- `MemRemap::target(flat_addr, area)`: the returned offset together with the
value of the reference parameter `area` after the call (it is left as it was
on the invalid path). -/
def target (flat_addr : Nat) (area : Char) : Nat × Char :=
  if flat_addr < 0x20000000 then
    (flat_addr, 'c')
  else if flat_addr < 0x2FFFFFFF then
    (flat_addr &&& 0x0FFFFFFF, 'x')
  else if flat_addr ≥ 0x40000000 ∧ flat_addr ≤ 0x400000FF then
    (flat_addr &&& 0xFF, 'd')
  else if flat_addr ≥ 0x40000100 ∧ flat_addr ≤ 0x400001FF then
    (flat_addr &&& 0xFF, 'i')
  else if flat_addr ≥ 0x80000080 ∧ flat_addr ≤ 0x80000FFF then
    (flat_addr &&& 0xFF, 's')
  else
    (INVALID_ADDR, area)

/-- `MemRemap::flat(target_addr, area)`; the result is a `uint32_t`. -/
def flat (target_addr : Nat) (area : Char) : Nat :=
  let a := area.toLower
  if a = 'c' then target_addr % 2 ^ 32
  else if a = 'x' then (target_addr ||| 0x20000000) % 2 ^ 32
  else if a = 'd' then (target_addr ||| 0x40000000) % 2 ^ 32
  else if a = 'i' then (target_addr ||| 0x40000100) % 2 ^ 32
  else if a = 's' then (target_addr ||| 0x80000000) % 2 ^ 32
  else INVALID_FLAT_ADDR

/-- The offsets the claim calls valid for an area letter. -/
def validOffset (a : Char) (o : Nat) : Prop :=
  (a = 'c' ∧ o < 0x20000000) ∨ (a = 'x' ∧ o ≤ 0xFFFF) ∨ (a = 'd' ∧ o ≤ 0xFF) ∨
  (a = 'i' ∧ o ≤ 0xFF) ∨ (a = 's' ∧ 0x80 ≤ o ∧ o ≤ 0xFF)

/-- The window table documented above `MemRemap::target`, as the claim reads
it: the area letter of a flat address, `none` outside every window. -/
def documentedArea (f : Nat) : Option Char :=
  if f < 0x20000000 then some 'c'
  else if 0x20000000 ≤ f ∧ f ≤ 0x2FFFFFFF then some 'x'
  else if 0x40000000 ≤ f ∧ f ≤ 0x400000FF then some 'd'
  else if 0x40000100 ≤ f ∧ f ≤ 0x400001FF then some 'i'
  else if 0x80000080 ≤ f ∧ f ≤ 0x800000FF then some 's'
  else none

end MemRemap

namespace EC2

/-- Modelled from the spec: `ec2drv.h` is not among the sources. The debug
interface selected for the session: the 2-wire interface (C2), the JTAG-like
interface, or not yet detected (AUTO). -/
inductive EC2_MODE where
  | AUTO
  | JTAG
  | C2
  deriving DecidableEq, Repr

/-- Modelled from the spec: `ec2drv.h` is not among the sources. The part of
`EC2DRV` the breakpoint routines use: the interface mode, the four 16-bit
breakpoint addresses `bpaddr[0..3]` (a map from slot index to address) and the
active mask `bp_flags`, one bit per slot, kept in a byte. -/
structure EC2DRV where
  mode : EC2_MODE
  bpaddr : Nat → Nat
  bp_flags : Nat

/-- The debug probe as the driver sees it: given every command written so far
(oldest first, the current one last), the bytes it sends back, or `none` when
nothing arrives before the read times out. -/
abbrev Probe := List (List Nat) → Option (List Nat)

/-- The commands written to the port so far, oldest first. -/
abbrev Wire := List (List Nat)

/-- The result of `read_port(obj, buf, len)`: the `len` bytes read when the
probe delivers at least that many, failure otherwise. What the call leaves in
the caller's buffer when the reply stays short is given by `read_port_buf`. -/
def read_port (reply : Option (List Nat)) (len : Nat) : Option (List Nat) :=
  match reply with
  | none => none
  | some rx => if len ≤ rx.length then some (rx.take len) else none

/-- `trx(obj, txbuf, txlen, rxexpect, rxlen)`: write the command, read `rxlen`
bytes and compare them with the expected reply. -/
def trx (probe : Probe) (w : Wire) (txbuf rxexpect : List Nat) : Bool × Wire :=
  let w1 := w ++ [txbuf]
  match read_port (probe w1) rxexpect.length with
  | some rxbuf => (rxbuf == rxexpect, w1)
  | none => (false, w1)

/-- The C logical negation `!v` of an integer: 1 when `v` is zero, else 0. -/
def lnot (v : Nat) : Nat := if v = 0 then 1 else 0

/-- `isBPSet(obj, bpid)`: `(obj->bp_flags >> bpid) & 0x01`. -/
def isBPSet (obj : EC2DRV) (bpid : Nat) : Bool :=
  (obj.bp_flags >>> bpid) &&& 0x01 != 0

/-- `getNextBPIdx(obj)`: the first `i` in 0..3 whose test
`!( (obj->bp_flags)>>i)&0x01` is nonzero; `none` stands for -1. In C the
negation binds tighter than the bitwise and, so the test is
`(!(bp_flags >> i)) & 0x01`. -/
def getNextBPIdx (obj : EC2DRV) : Option Nat :=
  (List.range 4).find? fun i => lnot (obj.bp_flags >>> i) &&& 0x01 != 0

/-- `getBP(obj, addr)`: the first slot in 0..3 that holds `addr` and is active;
`none` stands for -1. -/
def getBP (obj : EC2DRV) (addr : Nat) : Option Nat :=
  (List.range 4).find? fun i =>
    obj.bpaddr i == addr && ((obj.bp_flags >>> i) &&& 0x01 != 0)

/-- One `(register, low-or-high byte)` write of `write_breakpoints_c2`. -/
def c2cmd (reg val : Nat) : List Nat := [0x29, reg % 256, 0x01, val % 256]

/-- `bpregloc[]` of `write_breakpoints_c2`. -/
def bpregloc (i : Nat) : Nat := [0x85, 0xab, 0xce, 0xd2].getD i 0

/-- The body of the loop of `write_breakpoints_c2` for slot `i`. -/
def write_bp_c2_slot (probe : Probe) (obj : EC2DRV) (w : Wire) (i : Nat) : Wire :=
  if isBPSet obj i then
    let w1 := (trx probe w (c2cmd (bpregloc i) (obj.bpaddr i &&& 0xff)) [0x0d]).2
    (trx probe w1 (c2cmd (bpregloc i + 1) ((obj.bpaddr i >>> 8) ||| 0x80)) [0x0d]).2
  else w

/-- `write_breakpoints_c2(obj)`: four preamble writes, then the low and high
address byte of every active slot; no reply is looked at. -/
def write_breakpoints_c2 (probe : Probe) (obj : EC2DRV) (w : Wire) : Wire :=
  let w1 := (trx probe w [0x29, 0x86, 0x01, 0x00] [0x0d]).2
  let w2 := (trx probe w1 [0x29, 0xac, 0x01, 0x00] [0x0d]).2
  let w3 := (trx probe w2 [0x29, 0xcf, 0x01, 0x00] [0x0d]).2
  let w4 := (trx probe w3 [0x29, 0xd3, 0x01, 0x00] [0x0d]).2
  (List.range 4).foldl (write_bp_c2_slot probe obj) w4

/-- `setBpMask(obj, bp, active)`: update the local mask first, then tell the
probe. The result is the return value, the driver state and the wire log. -/
def setBpMask (probe : Probe) (obj : EC2DRV) (w : Wire) (bp : Nat) (active : Bool) :
    Bool × EC2DRV × Wire :=
  let obj1 : EC2DRV :=
    if active then { obj with bp_flags := (obj.bp_flags ||| (1 <<< bp)) % 256 }
    else { obj with bp_flags := obj.bp_flags &&& (0xFF ^^^ ((1 <<< bp) % 256)) }
  match obj1.mode with
  | EC2_MODE.JTAG =>
    let r := trx probe w [0x0D, 0x05, 0x86, 0x10, obj1.bp_flags % 256, 0x00, 0x00] [0x0D]
    (r.1, obj1, r.2)
  | EC2_MODE.C2 => (true, obj1, write_breakpoints_c2 probe obj1 w)
  | EC2_MODE.AUTO => (false, obj1, w)

/-- `ec2_clear_all_bp(obj)`: `setBpMask(obj, bp, FALSE)` for bp = 0..3, return
values dropped. -/
def ec2_clear_all_bp (probe : Probe) (obj : EC2DRV) (w : Wire) : EC2DRV × Wire :=
  (List.range 4).foldl
    (fun (st : EC2DRV × Wire) bp => (setBpMask probe st.1 st.2 bp false).2) (obj, w)

/-- `ec2_addBreakpoint(obj, addr)`; `addr` is a `uint16_t`. -/
def ec2_addBreakpoint (probe : Probe) (obj : EC2DRV) (w : Wire) (addr : Nat) :
    Bool × EC2DRV × Wire :=
  match getBP obj addr with
  | none =>
    match getNextBPIdx obj with
    | some bp =>
      match obj.mode with
      | EC2_MODE.JTAG =>
        let obj1 : EC2DRV := { obj with bpaddr := Function.update obj.bpaddr bp addr }
        let r := trx probe w
          [0x0D, 0x05, (0x90 + bp) % 256, 0x10, addr &&& 0xFF, (addr >>> 8) &&& 0xFF, 0x00]
          [0x0D]
        if !r.1 then (false, obj1, r.2)
        else setBpMask probe obj1 r.2 bp true
      | EC2_MODE.C2 =>
        let obj1 : EC2DRV := { obj with bpaddr := Function.update obj.bpaddr bp addr }
        setBpMask probe obj1 w bp true
      | EC2_MODE.AUTO => (true, obj, w)
    | none => (false, obj, w)
  | some _ => (false, obj, w)

/-- `ec2_removeBreakpoint(obj, addr)`. -/
def ec2_removeBreakpoint (probe : Probe) (obj : EC2DRV) (w : Wire) (addr : Nat) :
    Bool × EC2DRV × Wire :=
  match getBP obj addr with
  | some bp => setBpMask probe obj w bp false
  | none => (false, obj, w)

/-- A probe that answers every command with the single byte 0x0D. -/
def ackProbe : Probe := fun _ => some [0x0D]

/-- The table with no slot active and every stored address zero. -/
def emptyTable (m : EC2_MODE) : EC2DRV := { mode := m, bpaddr := fun _ => 0, bp_flags := 0 }

/-- Address `addr` is held by an active slot. -/
def Held (obj : EC2DRV) (addr : Nat) : Prop :=
  ∃ i, i < 4 ∧ isBPSet obj i = true ∧ obj.bpaddr i = addr

/-- All four slots are active. -/
def Full (obj : EC2DRV) : Prop := ∀ i, i < 4 → isBPSet obj i = true

/-- No two active slots hold the same address. -/
def Distinct (obj : EC2DRV) : Prop :=
  ∀ i j, i < 4 → j < 4 → isBPSet obj i = true → isBPSet obj j = true →
    obj.bpaddr i = obj.bpaddr j → i = j

/-- The addresses held by active slots, in slot order. -/
def activeAddrs (obj : EC2DRV) : List Nat :=
  ((List.range 4).filter (isBPSet obj)).map obj.bpaddr

/-- One call on the breakpoint table. -/
inductive Op where
  | add (addr : Nat)
  | remove (addr : Nat)
  | clear

/-- Perform one call, dropping its return value. -/
def step (probe : Probe) (st : EC2DRV × Wire) : Op → EC2DRV × Wire
  | Op.add a => (ec2_addBreakpoint probe st.1 st.2 a).2
  | Op.remove a => (ec2_removeBreakpoint probe st.1 st.2 a).2
  | Op.clear => ec2_clear_all_bp probe st.1 st.2

/-- Perform a sequence of calls from left to right. -/
def runOps (probe : Probe) (st : EC2DRV × Wire) (ops : List Op) : EC2DRV × Wire :=
  ops.foldl (step probe) st

/-- Scenario C of the specification. -/
def scenarioC : List Op := [Op.add 0x1234, Op.add 0x1235, Op.remove 0x1234, Op.add 0x1236]

/-- The first three calls of Scenario C: they leave slot 0 free below the
active slot 1. -/
def scenarioCStart : List Op := [Op.add 0x1234, Op.add 0x1235, Op.remove 0x1234]

/-- Fill the four slots, then remove the first three breakpoints: only slot 3
stays active. -/
def fillThenFree : List Op :=
  [Op.add 1, Op.add 2, Op.add 3, Op.add 4, Op.remove 1, Op.remove 2, Op.remove 3]

/-- The driver state with slot `bp` set to `addr` and marked active, as
`ec2_addBreakpoint` leaves it on success. -/
def withSlot (obj : EC2DRV) (bp addr : Nat) : EC2DRV :=
  { obj with bpaddr := Function.update obj.bpaddr bp addr,
             bp_flags := (obj.bp_flags ||| (1 <<< bp)) % 256 }

/-- The driver state with the mask bit of slot `bp` cleared, as `setBpMask`
leaves it when called with `active` false. -/
def withoutSlot (obj : EC2DRV) (bp : Nat) : EC2DRV :=
  { obj with bp_flags := obj.bp_flags &&& (0xFF ^^^ ((1 <<< bp) % 256)) }

/-- A probe that never answers: every read times out. -/
def silentProbe : Probe := fun _ => none

/-- Conversion of an integer to `char`. Whether plain `char` is signed is left
to the platform by C, so it is a parameter: signed on x86 Linux, the platform
of the serial and USB code, unsigned on others. -/
def toChar (charSigned : Bool) (v : Int) : Int :=
  if charSigned ∧ v % 256 ≥ 128 then v % 256 - 256 else v % 256

/-- Conversion of an integer to `unsigned int` (32 bits). -/
def toU32 (v : Int) : Int := v % 2 ^ 32

/-- Conversion of an integer to `int` (32 bits, two's complement). -/
def toI32 (v : Int) : Int :=
  if v % 2 ^ 32 ≥ 2 ^ 31 then v % 2 ^ 32 - 2 ^ 32 else v % 2 ^ 32

/-- The arguments of one call `ec2_write_xdata_page(obj, buf+ofs, page, start,
len)` or `ec2_read_xdata_page(obj, buf+ofs, page, start, len)`: `page` and
`start` as the `unsigned char` parameters receive them. -/
structure XSeg where
  page : Int
  start : Int
  len : Int
  ofs : Int
  deriving DecidableEq, Repr

/-- The page loop shared by `ec2_write_xdata` and `ec2_read_xdata` in JTAG
mode, `n` iterations from `page`: `pg_start_addr`, `pg_end_addr` and `ofs` are
`unsigned int`, `blen` and `page` are `int`; `page<<8` is `page * 256`. -/
def xdata_page_loop (start_addr len start_page last_page : Int) :
    Nat → Int → Int → List XSeg
  | 0, _, _ => []
  | n + 1, page, ofs =>
    let pg_start_addr := toU32 (if page = start_page then start_addr % 256 else 0x00)
    let pg_end_addr := toU32 (if page = last_page then (start_addr + len - 1) - page * 256
      else 0xff)
    let blen := toI32 (toU32 (pg_end_addr - pg_start_addr + 1))
    { page := page % 256, start := pg_start_addr % 256, len := blen, ofs := ofs } ::
      xdata_page_loop start_addr len start_page last_page n (page + 1) (toU32 (ofs + blen))

/-- The calls of the per-page routine made by the JTAG branch of
`ec2_write_xdata` (and, with the same code, of `ec2_read_xdata`), in order;
`none` when the `assert` on the range fails. `start_page` and `last_page` are
`char` variables, the loop runs while `page <= last_page`. -/
def xdata_jtag_calls (charSigned : Bool) (start_addr len : Int) : Option (List XSeg) :=
  let start_page := toChar charSigned ((start_addr / 256) % 256)
  let last_page := toChar charSigned (((start_addr + len - 1) / 256) % 256)
  if start_addr ≥ 0 ∧ start_addr ≤ 0xFFFF ∧ start_addr + len ≤ 0x10000 then
    some (xdata_page_loop start_addr len start_page last_page
      (last_page - start_page + 1).toNat start_page 0)
  else none

/-- `write_port(obj, buf, len)`: the bytes go out as one write. -/
def write_port (w : Wire) (buf : List Nat) : Wire := w ++ [buf]

/-- `read_port_ch(obj)`: one byte read as a `char` and returned as an `int`, or
-1 when the read fails. -/
def read_port_ch (charSigned : Bool) (reply : Option (List Nat)) : Int :=
  match read_port reply 1 with
  | some [b] => toChar charSigned b
  | _ => -1

/-- Overwrite `dst` from position `pos` with the bytes `src` (a successful
`read_port` into `buf + pos`). -/
def storeAt (dst : List Nat) (pos : Nat) (src : List Nat) : List Nat :=
  dst.take pos ++ src ++ dst.drop (pos + src.length)

/-- What `read_usb` finds in the receive buffer it allocates, before anything
is received: it depends on the commands written so far and is indexed from
`rxbuf + 1`, the first byte after the length byte. -/
abbrev Heap := List (List Nat) → Nat → Nat

/-- The bytes a `read_port(obj, buf, len)` stores at `buf`. On the serial probe
each byte is stored as it arrives, so a short reply leaves its bytes and a
reply that does not come leaves nothing. On the USB probe `read_usb` copies
`len` bytes of its receive buffer whatever was received: the bytes of the
reply, then what the buffer held before (`garbage`). -/
def rx_bytes (ec3 : Bool) (garbage : Nat → Nat) (reply : Option (List Nat)) (len : Nat) :
    List Nat :=
  let rx := (reply.getD []).take len
  if ec3 then rx ++ (List.range (len - rx.length)).map fun j => garbage (rx.length + j)
  else rx

/-- `read_port(obj, buf + pos, len)` into a buffer of the caller: the result
and the buffer afterwards. The serial read returns TRUE when all `len` bytes
have arrived (never for `len = 0`), `read_usb` when anything was received. -/
def read_port_buf (ec3 : Bool) (garbage : Nat → Nat) (reply : Option (List Nat)) (len : Nat)
    (dst : List Nat) (pos : Nat) : Bool × List Nat :=
  (if ec3 then reply.isSome else decide (0 < len ∧ len ≤ (reply.getD []).length),
    storeAt dst pos (rx_bytes ec3 garbage reply len))

/-- One iteration of the block loop of `ec2_read_xdata_page` at
`i = 12 * k`: the command is `06 02 (i & 0xFF) n`. -/
def read_xdata_page_block (probe : Probe) (len : Nat) (st : List Nat × Wire) (k : Nat) :
    List Nat × Wire :=
  let i := 0x0C * k
  let n := if len - i ≥ 0x0C then 0x0C else len - i
  let w1 := write_port st.2 [0x06, 0x02, i &&& 0xFF, n]
  match read_port (probe w1) n with
  | some rx => (storeAt st.1 i rx, w1)
  | none => (st.1, w1)

/-- `ec2_read_xdata_page(obj, buf, page, start, len)`; `isF020` says whether
the device name is "C8051F020". The loop `for( i=0; i<len; i+=0x0C )` runs
`(len + 11) / 12` times. The result is the buffer and the wire log, `none` when
the `assert` fails. -/
def ec2_read_xdata_page (isF020 : Bool) (probe : Probe) (w : Wire) (page start len : Nat) :
    Option (List Nat × Wire) :=
  if start + len ≤ 0x100 then
    let w1 := (trx probe w (if isF020 then [0x03, 0x02, 0x2D, 0x01] else [0x03, 0x02, 0x2E, 0x01])
      [0x0D]).2
    let w2 := (trx probe w1 [0x03, 0x02, if isF020 then 0x32 else 0x31, page % 256] [0x0D]).2
    some ((List.range ((len + 11) / 12)).foldl (read_xdata_page_block probe len)
      (List.replicate len 0xff, w2))
  else none

/-- The block commands `06 02 addr n` among the commands on the wire. -/
def blockReads (w : Wire) : Wire := w.filter fun c => c.take 2 == [0x06, 0x02]

/-- The loop of `ec2_write_xdata_c2_emif`: `addr`, `cnt` and `block_len` are
`uint16_t`, `len` is an `int`; `ec3` says whether the adaptor is the USB one.
`buf` is the memory the caller's pointer points to, indexed from 0. `none`
when the fuel runs out before the loop ends. -/
def emif_write_loop (charSigned : Bool) (probe : Probe) (ec3 : Bool) (buf : Nat → Nat)
    (len : Int) : Nat → Nat → Nat → Bool → Wire → Option (Bool × Wire)
  | 0, _, _, _, _ => none
  | fuel + 1, addr, cnt, ok, w =>
    if (cnt : Int) < len then
      let block_len_max : Nat := if ec3 then 0x3C else 0x0C
      let block_len : Nat :=
        if len - cnt > block_len_max then block_len_max else ((len - cnt) % 65536).toNat
      let cmd : List Nat :=
        [0x3f, addr &&& 0xff, (addr &&& 0xff00) >>> 8, block_len % 256] ++
          (List.range block_len).map fun j => buf (addr + j)
      let w1 :=
        if block_len = 0x3c then
          write_port (write_port w (cmd.take 0x3f)) ((cmd.drop (4 + 0x3b)).take 1)
        else write_port w (cmd.take (block_len + 4))
      let ok1 := ok || (read_port_ch charSigned (probe w1) == 0x0d)
      emif_write_loop charSigned probe ec3 buf len fuel ((addr + block_len) % 65536)
        ((cnt + block_len) % 65536) ok1 w1
    else some (ok, w)

/-- `ec2_write_xdata_c2_emif(obj, buf, start_addr, len)`, called in 2-wire mode
on a device with an external bus; `ok` starts as TRUE. -/
def ec2_write_xdata_c2_emif (charSigned : Bool) (probe : Probe) (ec3 : Bool) (w : Wire)
    (buf : Nat → Nat) (start_addr len : Int) (fuel : Nat) : Option (Bool × Wire) :=
  emif_write_loop charSigned probe ec3 buf len fuel (start_addr % 65536).toNat 0 true w

/-- How a call of the driver ends: it returns a value, or the process stops
inside it, at a failed `assert` or at a store through a null pointer. In both
cases `w` holds the commands written up to that point. -/
inductive Outcome (α : Type) where
  | ret (val : α) (w : Wire)
  | abort (w : Wire)
  deriving DecidableEq, Repr

/-- `SFR_PAGE_REG`, the SFR page selection register. -/
def SFR_PAGE_REG : Nat := 0x84

/-- `sfr_fixup(addr)`: PSW and ACC are reached through other addresses. -/
def sfr_fixup (addr : Nat) : Nat :=
  if addr = 0xD0 then 0x23 else if addr = 0xE0 then 0x22 else addr

/-- One iteration of the block loop of `ec2_read_ram_sfr` at `i = blk * k`;
`hdr` holds the command bytes in front of the address. The result of the read
is not looked at. -/
def read_ram_sfr_block (ec3 : Bool) (heap : Heap) (probe : Probe) (hdr : List Nat)
    (blk start_addr len : Nat) (st : List Nat × Wire) (k : Nat) : List Nat × Wire :=
  let i := blk * k
  let n := if len - i ≥ blk then blk else len - i
  let w1 := write_port st.2 (hdr ++ [(start_addr + i) % 256, n])
  ((read_port_buf ec3 (heap w1) (probe w1) n st.1 i).2, w1)

/-- `ec2_read_ram_sfr(obj, buf, start_addr, len, sfr)`: `buf` is the content of
the caller's buffer before the call, `ec3` says whether the adaptor is the USB
one. The loops `for( i = 0; i<len; i+=blk )` run `(len + blk - 1) / blk` times.
The process stops when the `assert` on the range fails. -/
def ec2_read_ram_sfr (mode : EC2_MODE) (ec3 : Bool) (heap : Heap) (probe : Probe) (w : Wire)
    (buf : List Nat) (start_addr len : Nat) (sfr : Bool) : Outcome (List Nat) :=
  if start_addr + len ≤ 0x100 then
    match mode with
    | EC2_MODE.JTAG =>
      let r := (List.range ((len + 11) / 12)).foldl
        (read_ram_sfr_block ec3 heap probe [if sfr then 0x02 else 0x06, 0x02] 0x0C start_addr
          len)
        (storeAt buf 0 (List.replicate len 0xff), w)
      Outcome.ret r.1 r.2
    | EC2_MODE.C2 =>
      let block_len : Nat := if ec3 then 0x3b else 0x0c
      let r := (List.range ((len + block_len - 1) / block_len)).foldl
        (read_ram_sfr_block ec3 heap probe [if sfr then 0x28 else 0x2A] block_len start_addr
          len)
        (storeAt buf 0 (List.replicate len 0xff), w)
      Outcome.ret r.1 r.2
    | EC2_MODE.AUTO => Outcome.ret buf w
  else Outcome.abort w

/-- `ec2_read_sfr(obj, buf, addr)`: one byte read into `buf[0]`. -/
def ec2_read_sfr (mode : EC2_MODE) (ec3 : Bool) (heap : Heap) (probe : Probe) (w : Wire)
    (buf : List Nat) (addr : Nat) : Outcome (List Nat) :=
  if addr ≥ 0x80 then ec2_read_ram_sfr mode ec3 heap probe w buf (sfr_fixup addr) 1 true
  else Outcome.abort w

/-- `ec2_write_sfr(obj, value, addr)`; the reply is not looked at. -/
def ec2_write_sfr (mode : EC2_MODE) (probe : Probe) (w : Wire) (value addr : Nat) :
    Outcome Unit :=
  if addr ≥ 0x80 then
    match mode with
    | EC2_MODE.JTAG =>
      Outcome.ret () (trx probe w [0x03, 0x02, sfr_fixup addr, value % 256] [0x0D]).2
    | EC2_MODE.C2 =>
      Outcome.ret () (trx probe w [0x29, sfr_fixup addr, 0x01, value % 256] [0x0D]).2
    | EC2_MODE.AUTO => Outcome.ret () w
  else Outcome.abort w

/-- `ec2_read_raw_sfr(obj, addr, ok)`: `okPtr` says whether the pointer `ok` is
non-null, `value0` is what the uninitialised local `value` holds. Both
branches store through `ok` without testing it. The result is the value
returned and the value stored in `*ok`. -/
def ec2_read_raw_sfr (mode : EC2_MODE) (ec3 : Bool) (heap : Heap) (probe : Probe) (w : Wire)
    (addr : Nat) (okPtr : Bool) (value0 : Nat) : Outcome (Nat × Bool) :=
  if addr ≥ 0x80 then
    match ec2_read_sfr mode ec3 heap probe w [value0] addr with
    | Outcome.ret buf w1 =>
      if okPtr then Outcome.ret (buf.getD 0 value0, true) w1 else Outcome.abort w1
    | Outcome.abort w1 => Outcome.abort w1
  else
    if okPtr then Outcome.ret (0, false) w else Outcome.abort w

/-- `ec2_write_raw_sfr(obj, addr, value)`. -/
def ec2_write_raw_sfr (mode : EC2_MODE) (probe : Probe) (w : Wire) (addr value : Nat) :
    Outcome Bool :=
  if addr ≥ 0x80 then
    match ec2_write_sfr mode probe w value addr with
    | Outcome.ret _ w1 => Outcome.ret true w1
    | Outcome.abort w1 => Outcome.abort w1
  else Outcome.ret false w

/-- `ec2_read_paged_sfr(obj, page, addr, ok)`: `has_paged_sfr` is the flag of
the device descriptor. The page register is read with a null `ok` pointer
(`ec2_read_raw_sfr( obj, SFR_PAGE_REG, 0 )`). The result is the value returned
and the value stored in `*ok`. -/
def ec2_read_paged_sfr (mode : EC2_MODE) (ec3 has_paged_sfr : Bool) (heap : Heap)
    (probe : Probe) (w : Wire) (_page addr : Nat) (okPtr : Bool) (value0 : Nat) :
    Outcome (Nat × Bool) :=
  let saved : Outcome Nat :=
    if has_paged_sfr then
      match ec2_read_raw_sfr mode ec3 heap probe w SFR_PAGE_REG false value0 with
      | Outcome.ret r w1 => Outcome.ret r.1 w1
      | Outcome.abort w1 => Outcome.abort w1
    else Outcome.ret value0 w
  match saved with
  | Outcome.abort w1 => Outcome.abort w1
  | Outcome.ret cur_page w1 =>
    match ec2_read_raw_sfr mode ec3 heap probe w1 addr okPtr value0 with
    | Outcome.abort w2 => Outcome.abort w2
    | Outcome.ret value w2 =>
      if has_paged_sfr then
        match ec2_write_raw_sfr mode probe w2 SFR_PAGE_REG cur_page with
        | Outcome.ret _ w3 => Outcome.ret value w3
        | Outcome.abort w3 => Outcome.abort w3
      else Outcome.ret value w2

/-- `ec2_write_paged_sfr(obj, page, addr, value)`. -/
def ec2_write_paged_sfr (mode : EC2_MODE) (ec3 has_paged_sfr : Bool) (heap : Heap)
    (probe : Probe) (w : Wire) (_page addr value : Nat) (value0 : Nat) : Outcome Bool :=
  let saved : Outcome Nat :=
    if has_paged_sfr then
      match ec2_read_raw_sfr mode ec3 heap probe w SFR_PAGE_REG false value0 with
      | Outcome.ret r w1 => Outcome.ret r.1 w1
      | Outcome.abort w1 => Outcome.abort w1
    else Outcome.ret value0 w
  match saved with
  | Outcome.abort w1 => Outcome.abort w1
  | Outcome.ret cur_page w1 =>
    match ec2_write_raw_sfr mode probe w1 addr value with
    | Outcome.abort w2 => Outcome.abort w2
    | Outcome.ret result w2 =>
      if has_paged_sfr then
        match ec2_write_raw_sfr mode probe w2 SFR_PAGE_REG cur_page with
        | Outcome.ret _ w3 => Outcome.ret result w3
        | Outcome.abort w3 => Outcome.abort w3
      else Outcome.ret result w2

/-- `ec2_write_flash_auto_erase(obj, buf, start_addr, len)`. The two routines
it calls, `ec2_erase_flash_sector(obj, sect_addr)` and
`ec2_write_flash(obj, buf, start_addr, len)`, are parameters acting on a state
`σ`, so that the definition can be read at the level of calls as well as at the
level of wire commands. The variables are `int`s, `x>>9` is the arithmetic
shift, `x<<9` is `x * 512`, and the arithmetic is taken without overflow. The
return value is always TRUE. -/
def ec2_write_flash_auto_erase {σ : Type} (ec2_erase_flash_sector : σ → Int → σ)
    (ec2_write_flash : σ → Int → Int → σ) (s : σ) (start_addr len : Int) : Bool × σ :=
  let first_sector := start_addr >>> (9 : Nat)
  let end_addr := start_addr + len - 1
  let last_sector := end_addr >>> (9 : Nat)
  let sector_cnt := last_sector - first_sector + 1
  let s1 := (List.range sector_cnt.toNat).foldl
    (fun s (i : Nat) => ec2_erase_flash_sector s ((first_sector + i) * 512)) s
  (true, ec2_write_flash s1 start_addr len)

/-- The sub-range of `[start_addr, start_addr+len)` that lies in the 256-byte
page `page`, as the claim describes a segment: it starts at the larger of
`start_addr` and the page base and ends at the smaller of `start_addr+len` and
the next page base; `ofs` is its distance from `start_addr`. -/
def pageSegment (start_addr len page : Int) : XSeg :=
  let a := if start_addr ≤ page * 256 then page * 256 else start_addr
  let b := if start_addr + len ≤ (page + 1) * 256 then start_addr + len else (page + 1) * 256
  { page := page, start := a - page * 256, len := b - a, ofs := a - start_addr }

/-- The segments of every page from the one holding `start_addr` to the one
holding `start_addr+len-1`, in ascending order. -/
def pageSegments (start_addr len : Int) : List XSeg :=
  (List.range ((start_addr + len - 1) / 256 - start_addr / 256 + 1).toNat).map
    fun (k : Nat) => pageSegment start_addr len (start_addr / 256 + k)

/-- Conversion of an integer to `int16_t`. -/
def toI16 (v : Int) : Int :=
  if v % 65536 ≥ 32768 then v % 65536 - 65536 else v % 65536

/-- `set_flash_addr_jtag(obj, addr)`: the parameter is an `int16_t`; the
command carries `addr & 0xFF` and `(addr >> 8) & 0xFF`. -/
def set_flash_addr_jtag (probe : Probe) (w : Wire) (addr : Int) : Wire :=
  let a := toI16 addr
  (trx probe w [0x0D, 0x05, 0x84, 0x10, (a % 256).toNat, ((a / 256) % 256).toNat, 0x00]
    [0x0D]).2

/-- `ec2_erase_flash_sector(obj, sect_addr)`; no reply is looked at. In JTAG
mode the process stops when the `assert` on the address fails. -/
def ec2_erase_flash_sector (mode : EC2_MODE) (probe : Probe) (w : Wire) (sect_addr : Int) :
    Outcome Unit :=
  match mode with
  | EC2_MODE.JTAG =>
    if sect_addr ≥ 0 ∧ sect_addr ≤ 0xFFFF then
      let sect : Nat := sect_addr.toNat &&& 0xFE00
      let w1 := (trx probe w [0x02, 0x02, 0xB6, 0x01] [0x80]).2
      let w2 := (trx probe w1 [0x02, 0x02, 0xB2, 0x01] [0x14]).2
      let w3 := (trx probe w2 [0x03, 0x02, 0xB2, 0x04] [0x0D]).2
      let w4 := (trx probe w3 [0x0B, 0x02, 0x04, 0x00] [0x0D]).2
      let w5 := (trx probe w4 [0x0D, 0x05, 0x82, 0x08, 0x20, 0x00, 0x00] [0x0D]).2
      let w6 := set_flash_addr_jtag probe w5 sect
      let w7 := (trx probe w6 [0x0F, 0x01, 0xA5] [0x0D]).2
      let w8 := (trx probe w7 [0x0B, 0x02, 0x01, 0x00] [0x0D]).2
      let w9 := (trx probe w8 [0x03, 0x02, 0xB6, 0x80] [0x0D]).2
      Outcome.ret () (trx probe w9 [0x03, 0x02, 0xB2, 0x14] [0x0D]).2
    else Outcome.abort w
  | EC2_MODE.C2 =>
    Outcome.ret () (trx probe w [0x30, ((sect_addr >>> (9 : Nat)) % 256).toNat] [0x0d]).2
  | EC2_MODE.AUTO => Outcome.ret () w

/-- Chunk `k` of `ec2_write_flash_c2`, sent at `i = 8 * k`: the command
`2F addrL addrH n data`; `buf` is the memory the caller's pointer points to. -/
def flash_c2_chunk (buf : Nat → Nat) (start_addr len k : Nat) : List Nat :=
  let i := 8 * k
  let addr := start_addr + i
  let n := if len - i < 8 then len - i else 8
  [0x2f, addr &&& 0xff, (addr >>> 8) &&& 0xff, n] ++ (List.range n).map fun j => buf (i + j)

/-- The loop of `ec2_write_flash_c2` over the chunk numbers still to send: it
returns FALSE at the first chunk whose round trip fails. -/
def write_flash_c2_loop (probe : Probe) (buf : Nat → Nat) (start_addr len : Nat) :
    List Nat → Wire → Bool × Wire
  | [], w => (true, w)
  | k :: ks, w =>
    let r := trx probe w (flash_c2_chunk buf start_addr len k) [0x0d]
    if !r.1 then (false, r.2) else write_flash_c2_loop probe buf start_addr len ks r.2

/-- `ec2_write_flash_c2(obj, buf, start_addr, len)` for the documented
non-negative `start_addr` and `len`: the loop `for( i=0; i<len; i+=8 )` runs
over the chunks `0 .. (len + 7) / 8 - 1`. -/
def ec2_write_flash_c2 (probe : Probe) (w : Wire) (buf : Nat → Nat) (start_addr len : Nat) :
    Bool × Wire :=
  write_flash_c2_loop probe buf start_addr len (List.range ((len + 7) / 8)) w

/-- `ec2_read_pc(obj)`: `buf0` is what the uninitialised `buf[2]` holds; the
result is `(buf[1]<<8) | buf[0]` as a `uint16_t`. -/
def ec2_read_pc (mode : EC2_MODE) (probe : Probe) (w : Wire) (buf0 : Nat × Nat) : Nat × Wire :=
  let w1 :=
    match mode with
    | EC2_MODE.JTAG => write_port w [0x02, 0x02, 0x20, 0x02]
    | EC2_MODE.C2 => write_port w [0x28, 0x20, 0x02]
    | EC2_MODE.AUTO => w
  let buf : Nat × Nat :=
    match mode with
    | EC2_MODE.AUTO => buf0
    | _ =>
      match read_port (probe w1) 2 with
      | some [b0, b1] => (b0, b1)
      | _ => buf0
  (((buf.2 <<< 8) ||| buf.1) % 65536, w1)

/-- `ec2_set_pc(obj, addr)`; `addr` is a `uint16_t`, the replies are dropped. -/
def ec2_set_pc (mode : EC2_MODE) (probe : Probe) (w : Wire) (addr : Nat) : Wire :=
  match mode with
  | EC2_MODE.JTAG =>
    let w1 := (trx probe w [0x03, 0x02, 0x20, addr &&& 0xFF] [0x0D]).2
    (trx probe w1 [0x03, 0x02, 0x21, (addr >>> 8) &&& 0xFF] [0x0D]).2
  | EC2_MODE.C2 =>
    let w1 := (trx probe w [0x29, 0x20, 0x01, addr &&& 0xff] [0x0d]).2
    (trx probe w1 [0x29, 0x21, 0x01, (addr >>> 8) % 256] [0x0d]).2
  | EC2_MODE.AUTO => w

/-- `ec2_target_halt_poll(obj)`: the poll command of the mode is written and
one byte is read; TRUE when it is 0x01. In any other mode nothing is written,
so the probe has nothing to answer: the read times out and the result is
FALSE. -/
def ec2_target_halt_poll (charSigned : Bool) (mode : EC2_MODE) (probe : Probe) (w : Wire) :
    Bool × Wire :=
  match mode with
  | EC2_MODE.JTAG =>
    let w1 := write_port w [0x13, 0x00]
    (read_port_ch charSigned (probe w1) == 0x01, w1)
  | EC2_MODE.C2 =>
    let w1 := write_port w [0x27]
    (read_port_ch charSigned (probe w1) == 0x01, w1)
  | EC2_MODE.AUTO => (read_port_ch charSigned none == 0x01, w)

/-- The retry loop of `ec2_target_halt`, `n` polls left. -/
def halt_poll_loop (charSigned : Bool) (mode : EC2_MODE) (probe : Probe) :
    Nat → Wire → Bool × Wire
  | 0, w => (false, w)
  | n + 1, w =>
    let r := ec2_target_halt_poll charSigned mode probe w
    if r.1 then (true, r.2) else halt_poll_loop charSigned mode probe n r.2

/-- `ec2_target_halt(obj)`: the halt command, then up to 8 polls. -/
def ec2_target_halt (charSigned : Bool) (mode : EC2_MODE) (probe : Probe) (w : Wire) :
    Bool × Wire :=
  match mode with
  | EC2_MODE.JTAG =>
    let r := trx probe w [0x0B, 0x02, 0x01, 0x00] [0x0d]
    if !r.1 then (false, r.2) else halt_poll_loop charSigned mode probe 8 r.2
  | EC2_MODE.C2 =>
    let r := trx probe w [0x25] [0x0d]
    if !r.1 then (false, r.2) else halt_poll_loop charSigned mode probe 8 r.2
  | EC2_MODE.AUTO => (false, w)

/-- `ec2_write_flash_auto_keep(obj, buf, start_addr, len)`. The three routines
it calls are parameters acting on a state `σ`: `ec2_read_flash` also gives the
content of `tbuf` after the read, `ec2_write_flash` receives the image and
gives the value it returns. The variables are `int`s taken without overflow,
`x>>9` is the arithmetic shift and `x<<9` is `x * 512`; `buf` and the images are
memory indexed from 0. A sector is erased when the scan of its 0x200 bytes
meets a byte other than 0xFF. -/
def ec2_write_flash_auto_keep {σ : Type} (ec2_read_flash : σ → Int → Int → σ × (Nat → Nat))
    (ec2_erase_flash_sector : σ → Int → σ)
    (ec2_write_flash : σ → (Nat → Nat) → Int → Int → Bool × σ)
    (s : σ) (buf : Nat → Nat) (start_addr len : Int) : Bool × σ :=
  let first_sector := start_addr >>> (9 : Nat)
  let first_sec_addr := first_sector * 512
  let end_addr := start_addr + len - 1
  let last_sector := end_addr >>> (9 : Nat)
  let sector_cnt := last_sector - first_sector + 1
  let r := ec2_read_flash s first_sec_addr (sector_cnt * 0x200)
  let tbuf := r.2
  let s2 := (List.range sector_cnt.toNat).foldl
    (fun s (i : Nat) =>
      if (List.range 0x200).any (fun j => tbuf (i * 0x200 + j) % 256 != 0xFF) then
        ec2_erase_flash_sector s (first_sec_addr + i * 0x200)
      else s) r.1
  let merged : Nat → Nat := fun k =>
    if start_addr - first_sec_addr ≤ k ∧ (k : Int) < start_addr - first_sec_addr + len then
      buf (k - (start_addr - first_sec_addr)).toNat
    else tbuf k
  ec2_write_flash s2 merged first_sec_addr (sector_cnt * 0x200)

/-- A call made by `ec2_write_flash_auto_keep`. -/
inductive KeepCall where
  | read_flash (start_addr len : Int)
  | erase_sector (sect_addr : Int)
  | write_flash (image : Nat → Nat) (start_addr len : Int)

/-- Values of the session field `dbg_adaptor`, the probe generation: the serial
EC2 or the USB EC3. -/
inductive DBG_ADAPTOR where
  | EC2
  | EC3
  deriving DecidableEq, Repr

/-- What the driver does to the port besides writing commands and reading
replies. -/
inductive PortEv where
  | open_port (ok : Bool)
  | close_port
  | usb_close
  deriving DecidableEq, Repr

/-- The part of the session that connecting and disconnecting touch: the
interface mode, the probe generation, the commands written so far and the log
of port events. -/
structure Link where
  mode : EC2_MODE
  dbg_adaptor : DBG_ADAPTOR
  w : Wire
  log : List PortEv
  deriving DecidableEq, Repr

/-- What `ec2_connect` sees of the machine: whether the port name starts with
"USB", whether such a name is "USB" alone or goes on with ':', and what the
`k`-th call of `open_port` returns (counted from 0). -/
structure Host where
  usbName : Bool
  usbForm : Bool
  open_port : Nat → Bool

/-- How a routine that may call `exit(-1)` ends: it returns `val`, or the
process exits. -/
inductive Exec (α : Type) where
  | ret (val : α) (l : Link)
  | exit (l : Link)
  deriving DecidableEq, Repr

/-- Conversion of an integer to `uint16_t`. -/
def toU16 (v : Int) : Int := v % 65536

/-- The number of `open_port` calls in a log. -/
def opens (log : List PortEv) : Nat :=
  (log.filter fun e => match e with
    | PortEv.open_port _ => true
    | _ => false).length

/-- `device_id(obj)`: `buf0` is what the uninitialised `char buf[6]` holds, a
failed read leaves it as it is. The bytes are `char`s, so they are promoted
with their sign before `buf[0]<<8 | buf[1]` is cut to 16 bits; `x<<8` is
`x * 256` and `Int.lor` is the bitwise or of two's complement integers. -/
def device_id (charSigned : Bool) (mode : EC2_MODE) (probe : Probe) (w : Wire)
    (buf0 : List Nat) : Int × Wire :=
  match mode with
  | EC2_MODE.C2 =>
    let w1 := write_port w [0x22]
    let buf :=
      match read_port (probe w1) 2 with
      | some rx => storeAt buf0 0 rx
      | none => buf0
    (toU16 (Int.lor (toChar charSigned (buf.getD 0 0) * 256) (toChar charSigned (buf.getD 1 0))), w1)
  | EC2_MODE.JTAG =>
    let w1 := write_port w [0x0A, 0x00]
    let buf :=
      match read_port (probe w1) 6 with
      | some rx => storeAt buf0 0 rx
      | none => buf0
    (toU16 (Int.lor (toChar charSigned (buf.getD 2 0) * 256) 0), w1)
  | EC2_MODE.AUTO => (0, w)

/-- `unique_device_id(obj)`: `buf0` is what the uninitialised buffer holds. -/
def unique_device_id (charSigned : Bool) (mode : EC2_MODE) (probe : Probe) (w : Wire)
    (buf0 : List Nat) : Int × Wire :=
  match mode with
  | EC2_MODE.C2 =>
    let w1 := write_port w [0x23]
    let buf :=
      match read_port (probe w1) 3 with
      | some rx => storeAt buf0 0 rx
      | none => buf0
    let w2 := (trx probe w1 [0x2E, 0x00, 0x00, 0x01] [0x02, 0x0D]).2
    let w3 := (trx probe w2 [0x2E, 0xFF, 0x3D, 0x01] [0x78]).2
    (toU16 (toChar charSigned (buf.getD 1 0)), w3)
  | EC2_MODE.JTAG =>
    let w1 := (trx probe w [0x0b, 0x02, 0x02, 0x00] [0x0D]).2
    let w2 := (ec2_target_halt charSigned mode probe w1).2
    let w3 := (trx probe w2 [0x10, 0x00] [0x07, 0x0D]).2
    let w4 := write_port w3 [0x0C, 0x02, 0x80, 0x12]
    let buf :=
      match read_port (probe w4) 4 with
      | some rx => storeAt buf0 0 rx
      | none => buf0
    (toU16 (toChar charSigned (buf.getD 2 0)), w4)
  | EC2_MODE.AUTO => (toU16 (-1), w)

/-- The round trips of `ec2_target_reset` in JTAG mode, each a command and
the reply it expects. -/
def target_reset_jtag_cmds : List (List Nat × List Nat) :=
  [([0x04], [0x0D]),
   ([0x1A, 0x06, 0x00, 0x00, 0x00, 0x00, 0x00, 0x00], [0x0D]),
   ([0x0B, 0x02, 0x02, 0x00], [0x0D]),
   ([0x14, 0x02, 0x10, 0x00], [0x04]),
   ([0x16, 0x02, 0x01, 0x20], [0x01, 0x00]),
   ([0x14, 0x02, 0x10, 0x00], [0x04]),
   ([0x16, 0x02, 0x81, 0x20], [0x01, 0x00]),
   ([0x14, 0x02, 0x10, 0x00], [0x04]),
   ([0x16, 0x02, 0x81, 0x30], [0x01, 0x00]),
   ([0x15, 0x02, 0x08, 0x00], [0x04]),
   ([0x16, 0x01, 0xE0], [0x00]),
   ([0x0B, 0x02, 0x01, 0x00], [0x0D]),
   ([0x13, 0x00], [0x01]),
   ([0x03, 0x02, 0x00, 0x00], [0x0D])]

/-- `ec2_target_reset(obj)`: in JTAG mode fourteen round trips whose results
are and-ed into `r`; nothing is sent in C2 mode. -/
def ec2_target_reset (mode : EC2_MODE) (probe : Probe) (w : Wire) : Bool × Wire :=
  match mode with
  | EC2_MODE.JTAG =>
    target_reset_jtag_cmds.foldl
      (fun (st : Bool × Wire) c =>
        let t := trx probe st.2 c.1 c.2
        (st.1 && t.1, t.2)) (true, w)
  | _ => (true, w)

/-- `ec2_disconnect(obj)`: the EC3 gets the command 0x21 and its USB handle is
closed (the USB calls are taken to return 0, so both asserts pass); for the
EC2 the port is closed. -/
def ec2_disconnect (probe : Probe) (l : Link) : Link :=
  match l.dbg_adaptor with
  | DBG_ADAPTOR.EC3 =>
    { l with w := (trx probe l.w [0x21] [0x0d]).2, log := l.log ++ [PortEv.usb_close] }
  | DBG_ADAPTOR.EC2 => { l with log := l.log ++ [PortEv.close_port] }

/-- The adaptor handshake that opens both `ec2_connect` and
`ec2_connect_jtag`: the first failing round trip ends it with FALSE. -/
def adaptor_handshake (a : DBG_ADAPTOR) (probe : Probe) (w : Wire) : Bool × Wire :=
  match a with
  | DBG_ADAPTOR.EC2 =>
    let r1 := trx probe w [0x55] [0x5A]
    if !r1.1 then (false, r1.2) else
    let r2 := trx probe r1.2 [0x00, 0x00, 0x00] [0x03]
    if !r2.1 then (false, r2.2) else
    let r3 := trx probe r2.2 [0x01, 0x03, 0x00] [0x00]
    if !r3.1 then (false, r3.2) else (true, r3.2)
  | DBG_ADAPTOR.EC3 =>
    let r1 := trx probe w [0x00, 0x00, 0x00] [0x02]
    if !r1.1 then (false, r1.2) else
    let r2 := trx probe r1.2 [0x01, 0x0c, 0x00] [0x00]
    if !r2.1 then (false, r2.2) else (true, r2.2)

/-- `ec2_connect_jtag(obj, port)`: handshake, version query, target reset and
unique id query; only a failed handshake gives FALSE. -/
def ec2_connect_jtag (charSigned : Bool) (probe : Probe) (buf0 : List Nat) (l : Link) :
    Bool × Link :=
  let h := adaptor_handshake l.dbg_adaptor probe l.w
  if !h.1 then (false, { l with w := h.2 }) else
  let w1 := write_port h.2 [0x06, 0x00, 0x00]
  let r := ec2_target_reset l.mode probe w1
  let u := unique_device_id charSigned l.mode probe r.2 buf0
  (true, { l with w := u.2 })

/-- `ec2_connect(obj, port)`. The call in the AUTO branch is to `ec2_connect`
itself, so the function takes fuel: `none` says the fuel ran out. The device
descriptor chosen by `getDevice` and `getDeviceUnique` is not part of `Link`. -/
def ec2_connect : Nat → Host → Bool → Probe → List Nat → Link → Option (Exec Bool)
  | 0, _, _, _, _, _ => none
  | fuel + 1, host, charSigned, probe, buf0, l =>
    let l1 : Link :=
      { l with dbg_adaptor := if host.usbName then DBG_ADAPTOR.EC3 else DBG_ADAPTOR.EC2 }
    if host.usbName && !host.usbForm then some (Exec.ret false l1) else
    let ok := host.open_port (opens l1.log)
    let l2 : Link := { l1 with log := l1.log ++ [PortEv.open_port ok] }
    if !ok then some (Exec.ret false l2) else
    if l2.mode = EC2_MODE.JTAG then
      let r := ec2_connect_jtag charSigned probe buf0 l2
      some (Exec.ret r.1 r.2)
    else
    let h := adaptor_handshake l2.dbg_adaptor probe l2.w
    if !h.1 then some (Exec.ret false { l2 with w := h.2 }) else
    let w1 := write_port h.2 [0x06, 0x00, 0x00]
    if l2.mode = EC2_MODE.AUTO then
      let w2 := (trx probe w1 [0x20] [0x0D]).2
      let id := device_id charSigned EC2_MODE.C2 probe w2 buf0
      if id.1 = 0xffff then
        let l3 := ec2_disconnect probe { l2 with mode := EC2_MODE.JTAG, w := id.2 }
        match ec2_connect fuel host charSigned probe buf0 l3 with
        | none => none
        | some (Exec.exit l4) => some (Exec.exit l4)
        | some (Exec.ret _ l4) => some (Exec.ret true l4)
      else
        let u := unique_device_id charSigned EC2_MODE.C2 probe id.2 buf0
        let r := ec2_target_reset EC2_MODE.C2 probe u.2
        some (Exec.ret true { l2 with mode := EC2_MODE.C2, w := r.2 })
    else
      let w2 :=
        if l2.mode = EC2_MODE.JTAG then (trx probe w1 [0x04] [0x0D]).2
        else if l2.mode = EC2_MODE.C2 then (trx probe w1 [0x20] [0x0D]).2
        else w1
      let id := device_id charSigned l2.mode probe w2 buf0
      if id.1 = 0xFF00 ∨ id.1 = 0xFFFF then
        some (Exec.exit (ec2_disconnect probe { l2 with w := id.2 }))
      else
        let u := unique_device_id charSigned l2.mode probe id.2 buf0
        let r := ec2_target_reset l2.mode probe u.2
        some (Exec.ret true { l2 with w := r.2 })

/-- Values of the device descriptor field `lock_type`. -/
inductive FLASH_LOCK_TYPE where
  | FLT_SINGLE
  | FLT_SINGLE_ALT
  | FLT_RW
  | FLT_RW_ALT
  deriving DecidableEq, Repr

/-- The pair `ec2_disconnect(obj); ec2_connect(obj, obj->port);` in which the
result of `ec2_connect` is dropped. -/
def reconnect (fuel : Nat) (host : Host) (charSigned : Bool) (probe : Probe) (buf0 : List Nat)
    (l : Link) : Option (Exec Unit) :=
  match ec2_connect fuel host charSigned probe buf0 (ec2_disconnect probe l) with
  | none => none
  | some (Exec.exit l1) => some (Exec.exit l1)
  | some (Exec.ret _ l1) => some (Exec.ret () l1)

/-- `ec2_erase_flash(obj)`. `EC3val` is the integer value of the enumerator
`EC3`, which `ec2drv.h` (not among the sources) declares: the condition
`obj->dbg_adaptor=EC3` stores EC3 in the field and is true when that value is
not zero. `write_port(obj, "\x3C", 4)` sends four bytes from the address of a
literal that has two, 0x3C and the terminating 0: `lit 0` and `lit 1` are the
bytes that follow it in memory. `lock_type`, `lock` and `read_lock` are the
fields of the device descriptor `obj->dev`. -/
def ec2_erase_flash (EC3val : Nat) (fuel : Nat) (host : Host) (charSigned : Bool) (probe : Probe)
    (buf0 : List Nat) (lit : Nat → Nat) (lock_type : FLASH_LOCK_TYPE) (lock read_lock : Int)
    (l : Link) : Option (Exec Unit) :=
  match l.mode with
  | EC2_MODE.C2 =>
    let l1 : Link := { l with dbg_adaptor := DBG_ADAPTOR.EC3 }
    match (if EC3val ≠ 0 then reconnect fuel host charSigned probe buf0 l1
      else some (Exec.ret () l1)) with
    | some (Exec.ret _ l2) =>
      let l3 : Link :=
        { l2 with w := write_port l2.w [0x3C, 0x00, lit 0, lit 1], dbg_adaptor := DBG_ADAPTOR.EC3 }
      if EC3val ≠ 0 then reconnect fuel host charSigned probe buf0 l3
      else some (Exec.ret () l3)
    | r => r
  | EC2_MODE.JTAG =>
    match reconnect fuel host charSigned probe buf0 l with
    | some (Exec.ret _ l1) =>
      let w1 := (trx probe l1.w [0x0B, 0x02, 0x04, 0x00] [0x0D]).2
      let w2 := (trx probe w1 [0x0D, 0x05, 0x85, 0x08, 0x00, 0x00, 0x00] [0x0D]).2
      let w3 := (trx probe w2 [0x0D, 0x05, 0x82, 0x08, 0x20, 0x00, 0x00] [0x0D]).2
      let w4 :=
        if lock_type = FLASH_LOCK_TYPE.FLT_RW_ALT then set_flash_addr_jtag probe w3 lock else w3
      let w5 :=
        if lock_type = FLASH_LOCK_TYPE.FLT_RW ∨ lock_type = FLASH_LOCK_TYPE.FLT_RW_ALT then
          set_flash_addr_jtag probe w4 read_lock
        else set_flash_addr_jtag probe w4 lock
      let w6 := (trx probe w5 [0x0F, 0x01, 0xA5] [0x0D]).2
      reconnect fuel host charSigned probe buf0 { l1 with w := w6 }
    | r => r
  | EC2_MODE.AUTO => some (Exec.ret () l)

/-- A machine whose port is a serial device that always opens. -/
def serialHost : Host := { usbName := false, usbForm := false, open_port := fun _ => true }

/-- A serial machine whose port opens the first time only. -/
def serialHostOnce : Host :=
  { usbName := false, usbForm := false, open_port := fun k => k == 0 }

/-- A serial EC2 with a C2 target of device id 08, revision 01: it answers the
handshake, the version query, the mode selection and the id queries, and
nothing else. -/
def c2TargetProbe : Probe := fun w =>
  match w.getLast? with
  | some [0x55] => some [0x5A]
  | some [0x00, 0x00, 0x00] => some [0x03]
  | some [0x01, 0x03, 0x00] => some [0x00]
  | some [0x06, 0x00, 0x00] => some [0x12]
  | some [0x20] => some [0x0D]
  | some [0x22] => some [0x08, 0x01]
  | some [0x23] => some [0x07, 0x50, 0x0D]
  | some [0x2E, 0x00, 0x00, 0x01] => some [0x02, 0x0D]
  | _ => none

/-- A serial EC2 with no target: the C2 device id reads FF FF. With
`jtagHandshake` false it answers the handshake of the first connection only;
with `jtagHandshake` true it answers every handshake, and no JTAG query. -/
def noTargetProbe (jtagHandshake : Bool) : Probe := fun w =>
  match w.getLast? with
  | some [0x55] => if jtagHandshake || w.count [0x55] == 1 then some [0x5A] else none
  | some [0x00, 0x00, 0x00] => some [0x03]
  | some [0x01, 0x03, 0x00] => some [0x00]
  | some [0x06, 0x00, 0x00] => some [0x12]
  | some [0x20] => some [0x0D]
  | some [0x22] => some [0xFF, 0xFF]
  | _ => none

/-- A session in the given mode on a serial probe, before anything is sent. -/
def freshLink (mode : EC2_MODE) : Link :=
  { mode := mode, dbg_adaptor := DBG_ADAPTOR.EC2, w := [], log := [] }

/-- `ec2_step(obj)`: in JTAG mode the reply to the program counter read lands
in `char buf[2]` (`buf0` before the read) and the result is
`buf[0] | (buf[1]<<8)` on the promoted `char`s, cut to 16 bits; in 2-wire mode
the result is that of `ec2_read_pc`. -/
def ec2_step (charSigned : Bool) (mode : EC2_MODE) (probe : Probe) (w : Wire)
    (buf0 : Nat × Nat) : Int × Wire :=
  match mode with
  | EC2_MODE.JTAG =>
    let w1 := (trx probe w [0x09, 0x00] [0x0d]).2
    let w2 := (trx probe w1 [0x13, 0x00] [0x01]).2
    let w3 := write_port w2 [0x02, 0x02, 0x20, 0x02]
    let buf : Nat × Nat :=
      match read_port (probe w3) 2 with
      | some [b0, b1] => (b0, b1)
      | _ => buf0
    (toU16 (Int.lor (toChar charSigned buf.1) (toChar charSigned buf.2 * 256)), w3)
  | EC2_MODE.C2 =>
    let w1 := (trx probe w [0x26] [0x0d]).2
    let r := ec2_read_pc mode probe w1 buf0
    (r.1, r.2)
  | EC2_MODE.AUTO => (0, w)

/-- `ec2_read_ram(obj, buf, start_addr, len)`: `buf` is the memory from the
caller's pointer on (it may go on after the `len` bytes asked for) and `tmp0`
what the uninitialised `char tmp[4]` holds. After the block read come two
register reads into `tmp`, whose results are not looked at, and `memcpy(
&buf[0], &tmp[start_addr], 3-start_addr )` when `start_addr < 3`. -/
def ec2_read_ram (mode : EC2_MODE) (ec3 : Bool) (heap : Heap) (probe : Probe) (w : Wire)
    (buf : List Nat) (start_addr len : Nat) (tmp0 : List Nat) : Outcome (List Nat) :=
  match mode with
  | EC2_MODE.AUTO => Outcome.ret buf w
  | _ =>
    match ec2_read_ram_sfr mode ec3 heap probe w buf start_addr len false with
    | Outcome.abort w1 => Outcome.abort w1
    | Outcome.ret b w1 =>
      let w2 := write_port w1 (if mode = EC2_MODE.JTAG then [0x02, 0x02, 0x24, 0x02]
        else [0x28, 0x24, 0x02])
      let tmp1 := (read_port_buf ec3 (heap w2) (probe w2) 2 tmp0 0).2
      let w3 := write_port w2 (if mode = EC2_MODE.JTAG then [0x02, 0x02, 0x26, 0x02]
        else [0x28, 0x26, 0x02])
      let tmp2 := (read_port_buf ec3 (heap w3) (probe w3) 2 tmp1 2).2
      let b2 :=
        if start_addr < 3 then storeAt b 0 ((tmp2.drop start_addr).take (3 - start_addr))
        else b
      Outcome.ret b2 w3

/-- A probe with a 2-wire or JTAG target whose RAM holds 0x11 at address 0:
the block read of one byte at 0 is answered 11, the reads of the registers
0x24 and 0x26 are answered 21 22 and 23 24. -/
def ramProbe : Probe := fun w =>
  match w.getLast? with
  | some [0x2A, 0x00, 0x01] => some [0x11]
  | some [0x06, 0x02, 0x00, 0x01] => some [0x11]
  | some [0x28, 0x24, 0x02] => some [0x21, 0x22]
  | some [0x28, 0x26, 0x02] => some [0x23, 0x24]
  | some [0x02, 0x02, 0x24, 0x02] => some [0x21, 0x22]
  | some [0x02, 0x02, 0x26, 0x02] => some [0x23, 0x24]
  | _ => none

/-- One pass of the loop `for( ; i<len; i+=2 )` of `ec2_write_ram` in JTAG
mode: two bytes are written with one command 07; a single last byte is written
after `ec2_read_ram` has read two bytes into `cmd[3]`, `cmd[4]` (`cmd0` before
the read), from the byte itself or, at 0xFF, from the byte before it. -/
def write_ram_jtag_step (ec3 : Bool) (heap : Heap) (probe : Probe) (buf : Nat → Nat)
    (start_addr len : Nat) (cmd0 rtmp0 : List Nat) (st : Outcome Unit) (i : Nat) :
    Outcome Unit :=
  match st with
  | Outcome.ret _ w =>
    if len - i ≥ 2 then
      Outcome.ret ()
        (trx probe w [0x07, (start_addr + i) % 256, 0x02, buf i, buf (i + 1)] [0x0d]).2
    else if start_addr + i < 0xff then
      match ec2_read_ram EC2_MODE.JTAG ec3 heap probe w cmd0 (start_addr + i) 2 rtmp0 with
      | Outcome.abort w1 => Outcome.abort w1
      | Outcome.ret c w1 =>
        Outcome.ret ()
          (trx probe w1 ([0x07, (start_addr + i) % 256, 0x02] ++ (storeAt c 0 [buf i]).take 2)
            [0x0d]).2
    else
      match ec2_read_ram EC2_MODE.JTAG ec3 heap probe w cmd0 (start_addr + i - 1) 2 rtmp0 with
      | Outcome.abort w1 => Outcome.abort w1
      | Outcome.ret c w1 =>
        Outcome.ret ()
          (trx probe w1
            ([0x07, (start_addr + i - 1) % 256, 0x02] ++ (storeAt c 1 [buf i]).take 2) [0x0d]).2
  | Outcome.abort w => Outcome.abort w

/-- One pass of the loop `for( ; i<len; i+=2 )` of `ec2_write_ram` in 2-wire
mode: two bytes are written with one command 2B; for a single last byte
`ec2_read_ram` reads two bytes into `tmp` (`tmp0` before the read), from the
byte itself or, at 0xFF, from the byte before it, the byte is put in their
place and `ec2_write_ram`, here `wr`, is called for the two bytes. -/
def write_ram_c2_step (ec3 : Bool) (heap : Heap) (probe : Probe) (buf : Nat → Nat)
    (start_addr len : Nat) (tmp0 rtmp0 : List Nat)
    (wr : Wire → List Nat → Nat → Option (Outcome Bool))
    (st : Option (Outcome Unit)) (i : Nat) : Option (Outcome Unit) :=
  match st with
  | some (Outcome.ret _ w) =>
    if len - i ≥ 2 then
      some (Outcome.ret ()
        (trx probe w [0x2b, (start_addr + i) % 256, 0x02, buf i, buf (i + 1)] [0x0d]).2)
    else
      let a := if start_addr + i = 0xFF then start_addr + i - 1 else start_addr + i
      match ec2_read_ram EC2_MODE.C2 ec3 heap probe w tmp0 a 2 rtmp0 with
      | Outcome.abort w1 => some (Outcome.abort w1)
      | Outcome.ret tmp w1 =>
        let tmp2 :=
          if start_addr + i = 0xFF then storeAt tmp 1 [buf i] else storeAt tmp 0 [buf i]
        match wr w1 tmp2 a with
        | none => none
        | some (Outcome.abort w2) => some (Outcome.abort w2)
        | some (Outcome.ret _ w2) => some (Outcome.ret () w2)
  | s => s

/-- `ec2_write_ram(obj, buf, start_addr, len)`: `buf` is the memory from the
caller's pointer on; `tmp0` and `rtmp0` are what the uninitialised buffers of
this function and of `ec2_read_ram` hold. The first loop, over the bytes at
the addresses 0 to 2, runs `min(len, 3 - start_addr)` times (no time when
`start_addr >= 3`); the second runs with `i` going up from there in steps of 2.
In 2-wire mode the function calls itself, so it takes fuel: `none` says the
fuel ran out. The process stops when an `assert` fails. -/
def ec2_write_ram : Nat → EC2_MODE → Bool → Heap → Probe → Wire → (Nat → Nat) → Nat → Nat →
    List Nat → List Nat → Option (Outcome Bool)
  | 0, _, _, _, _, _, _, _, _, _, _ => none
  | fuel + 1, mode, ec3, heap, probe, w, buf, start_addr, len, tmp0, rtmp0 =>
    if start_addr ≤ 0xFF then
      let s := min len (3 - start_addr)
      match mode with
      | EC2_MODE.JTAG =>
        let w1 := (List.range s).foldl
          (fun w i => (trx probe w [0x03, 0x02, (0x24 + start_addr + i) % 256, buf i] [0x0D]).2) w
        match (List.range ((len - s + 1) / 2)).foldl
          (fun st j =>
            write_ram_jtag_step ec3 heap probe buf start_addr len tmp0 rtmp0 st (s + 2 * j))
          (Outcome.ret () w1) with
        | Outcome.ret _ w2 => some (Outcome.ret true w2)
        | Outcome.abort w2 => some (Outcome.abort w2)
      | EC2_MODE.C2 =>
        let w1 := (List.range s).foldl
          (fun w i => (trx probe w [0x29, (0x24 + start_addr + i) % 256, 0x01, buf i] [0x0D]).2) w
        match (List.range ((len - s + 1) / 2)).foldl
          (fun st j => write_ram_c2_step ec3 heap probe buf start_addr len tmp0 rtmp0
            (fun w2 b a =>
              ec2_write_ram fuel EC2_MODE.C2 ec3 heap probe w2 (fun k => b.getD k 0) a 2 tmp0
                rtmp0)
            st (s + 2 * j))
          (some (Outcome.ret () w1)) with
        | none => none
        | some (Outcome.ret _ w2) => some (Outcome.ret true w2)
        | some (Outcome.abort w2) => some (Outcome.abort w2)
      | EC2_MODE.AUTO => some (Outcome.ret true w)
    else some (Outcome.abort w)

/-- The commands the description of `ec2_write_ram` in 2-wire mode asks for,
after the commands `w` already sent: a register write 29 (0x24 + address) 01
value for each byte at an address below 3, a write 2B address 02 b0 b1 for each
following pair, and for a single last byte the read of its two-byte unit (the
block read 2A and the two register reads every `ec2_read_ram` makes) followed
by the write of the unit with that one byte replaced. The unit starts at the
byte itself, or at 0xFE when the byte is at 0xFF. Its content is what the block
read leaves in two bytes set to 0xFF 0xFF before: the bytes of the reply that
arrived and, on the USB adaptor, what the receive buffer held after them. -/
def write_ram_c2_expected (ec3 : Bool) (heap : Heap) (probe : Probe) (w : Wire)
    (buf : Nat → Nat) (start_addr len : Nat) : List (List Nat) :=
  let s := min len (3 - start_addr)
  let specials := (List.range s).map fun i => [0x29, 0x24 + start_addr + i, 0x01, buf i]
  let pairs := (List.range ((len - s) / 2)).map fun j =>
    [0x2b, start_addr + s + 2 * j, 0x02, buf (s + 2 * j), buf (s + 2 * j + 1)]
  let trailing :=
    if (len - s) % 2 = 1 then
      let a := start_addr + len - 1
      let u := if a = 0xFF then 0xFE else a
      let wr := w ++ specials ++ pairs ++ [[0x2A, u, 0x02]]
      let t := storeAt [0xff, 0xff] 0 (rx_bytes ec3 (heap wr) (probe wr) 2)
      [[0x2A, u, 0x02], [0x28, 0x24, 0x02], [0x28, 0x26, 0x02],
        if a = 0xFF then [0x2b, u, 0x02, t.getD 0 0, buf (len - 1)]
        else [0x2b, u, 0x02, buf (len - 1), t.getD 1 0]]
    else []
  specials ++ pairs ++ trailing

/-- The loop of `ec2_read_xdata_c2_emif`: `addr`, `cnt` and `block_len` are
`uint16_t`, `len` is an `int`; `ec3` says whether the adaptor is the USB one.
`buf` is the memory from the caller's pointer on; a reply that arrives is
stored at `buf + cnt`. `none` when the fuel runs out before the loop ends. -/
def emif_read_loop (probe : Probe) (ec3 : Bool) (len : Int) :
    Nat → Nat → Nat → List Nat → Wire → Option (List Nat × Wire)
  | 0, _, _, _, _ => none
  | fuel + 1, addr, cnt, buf, w =>
    if (cnt : Int) < len then
      let block_len_max : Nat := if ec3 then 0x3C else 0x0C
      let block_len : Nat :=
        if len - cnt > block_len_max then block_len_max else ((len - cnt) % 65536).toNat
      let w1 := write_port w [0x3e, addr &&& 0xff, (addr &&& 0xff00) >>> 8, block_len % 256]
      let buf1 :=
        match read_port (probe w1) block_len with
        | some rx => storeAt buf cnt rx
        | none => buf
      emif_read_loop probe ec3 len fuel ((addr + block_len) % 65536)
        ((cnt + block_len) % 65536) buf1 w1
    else some (buf, w)

/-- `ec2_read_xdata_c2_emif(obj, buf, start_addr, len)`, called in 2-wire mode
on a device with an external bus. -/
def ec2_read_xdata_c2_emif (probe : Probe) (ec3 : Bool) (w : Wire) (buf : List Nat)
    (start_addr len : Int) (fuel : Nat) : Option (List Nat × Wire) :=
  emif_read_loop probe ec3 len fuel (start_addr % 65536).toNat 0 buf w

/-- The variables of `ec2_write_flash_jtag` that change while it runs: the
16-bit `addr`, the number `ofs` of bytes by which `buf` has advanced, the wire
log, and, for each data command 12 sent so far, the value of `addr` when it was
built and its number of data bytes. The command itself carries no address, the
probe writes from the address loaded by `set_flash_addr_jtag` onwards. -/
structure JtagWrite where
  addr : Nat
  ofs : Nat
  w : Wire
  chunks : List (Nat × Nat)
  deriving DecidableEq, Repr

/-- How a run of the sector loop of `ec2_write_flash_jtag` stands: still in
order, or stopped at a `memcpy` of more than 12 bytes into `cmd + 4`, which
leaves the 16-byte array `cmd`. -/
inductive JtagRun where
  | ok (st : JtagWrite)
  | overflow (st : JtagWrite)
  deriving DecidableEq, Repr

/-- The claim's condition on a chunk with first address `c.1` and `c.2` data
bytes: first and last byte are in the same 512-byte sector. -/
def chunkInSector (c : Nat × Nat) : Prop := c.1 >>> 9 = (c.1 + c.2 - 1) >>> 9

instance (c : Nat × Nat) : Decidable (chunkInSector c) := by
  unfold chunkInSector; infer_instance

/-- The loop `while( sec_end_addr-addr > 0x0c )` of `ec2_write_flash_jtag`: a
command 12 02 0C 00 with 12 data bytes per pass. `none` when the fuel runs out
before the loop ends. -/
def write_flash_jtag_while (probe : Probe) (buf : Nat → Nat) (sec_end_addr : Nat) :
    Nat → JtagWrite → Option JtagWrite
  | 0, _ => none
  | fuel + 1, st =>
    if (sec_end_addr : Int) - st.addr > 0x0c then
      let cmd := [0x12, 0x02, 0x0C, 0x00] ++ (List.range 0x0c).map fun j => buf (st.ofs + j)
      write_flash_jtag_while probe buf sec_end_addr fuel
        { addr := (st.addr + 0x0c) % 65536, ofs := st.ofs + 0x0c,
          w := (trx probe st.w cmd [0x0d]).2, chunks := st.chunks ++ [(st.addr, 0x0c)] }
    else some st

/-- The body of the sector loop of `ec2_write_flash_jtag` for sector `i`:
the page preamble, the full 12-byte commands and the command for what is left,
whose length `cmd[2]` is a `char`. -/
def write_flash_jtag_sector (charSigned : Bool) (probe : Probe) (buf : Nat → Nat)
    (start_addr len first_sector sector_cnt : Int) (fuel : Nat) (st : JtagWrite) (i : Nat) :
    Option JtagRun :=
  let w1 := (trx probe st.w [0x0d, 0x05, 0x85, 0x08, 0x01, 0x00, 0x00] [0x0d]).2
  let w2 := (trx probe w1 [0x0d, 0x05, 0x82, 0x08, 0x20, 0x00, 0x00] [0x0d]).2
  let w3 := set_flash_addr_jtag probe w2 st.addr
  let w4 := (trx probe w3 [0x0f, 0x01, 0xa5] [0x0d]).2
  let w5 := (trx probe w4 [0x0d, 0x05, 0x82, 0x08, 0x02, 0x00, 0x00] [0x0d]).2
  let w6 := (trx probe w5 [0x0e, 0x00] [0xa5]).2
  let w7 := (trx probe w6 [0x0e, 0x00] [0xff]).2
  let w8 := (trx probe w7 [0x0d, 0x05, 0x82, 0x08, 0x10, 0x00, 0x00] [0x0d]).2
  let w9 := set_flash_addr_jtag probe w8 st.addr
  let sec_end_addr : Nat :=
    if (i : Int) = sector_cnt - 1 then ((start_addr + len) % 65536).toNat
    else ((first_sector * 512 + ((i : Int) + 1) * 0x200) % 65536).toNat
  match write_flash_jtag_while probe buf sec_end_addr fuel { st with w := w9 } with
  | none => none
  | some st1 =>
    let n := toChar charSigned ((sec_end_addr : Int) - st1.addr)
    if n > 0 then
      if n > 0x0c then some (JtagRun.overflow st1)
      else
        let cmd := [0x12, 0x02, n.toNat, 0x00] ++ (List.range n.toNat).map fun j => buf (st1.ofs + j)
        some (JtagRun.ok
          { addr := (st1.addr + n.toNat) % 65536, ofs := st1.ofs + n.toNat,
            w := (trx probe st1.w cmd [0x0d]).2, chunks := st1.chunks ++ [(st1.addr, n.toNat)] })
    else some (JtagRun.ok st1)

/-- The sector loop of `ec2_write_flash_jtag` over the values of `i` in the
list. -/
def write_flash_jtag_sectors (charSigned : Bool) (probe : Probe) (buf : Nat → Nat)
    (start_addr len first_sector sector_cnt : Int) (fuel : Nat) :
    List Nat → JtagWrite → Option JtagRun
  | [], st => some (JtagRun.ok st)
  | i :: rest, st =>
    match write_flash_jtag_sector charSigned probe buf start_addr len first_sector sector_cnt
        fuel st i with
    | some (JtagRun.ok st1) =>
      write_flash_jtag_sectors charSigned probe buf start_addr len first_sector sector_cnt fuel
        rest st1
    | r => r

/-- `ec2_write_flash_jtag(obj, buf, start_addr, len)`: the `int`s are taken
without overflow, `x>>9` is the arithmetic shift, `addr`, `sec_end_addr` and
`i` are `uint16_t`. `fuel` bounds the passes of each `while` loop; `none` when
it runs out, and also when `sector_cnt` exceeds 0xFFFF, which the 16-bit `i`
never reaches. `JtagRun.ok` stands for the return of TRUE, the only value the
function returns. -/
def ec2_write_flash_jtag (charSigned : Bool) (probe : Probe) (w : Wire) (buf : Nat → Nat)
    (start_addr len : Int) (fuel : Nat) : Option JtagRun :=
  let first_sector := start_addr >>> (9 : Nat)
  let end_addr := start_addr + len - 1
  let last_sector := end_addr >>> (9 : Nat)
  let sector_cnt := last_sector - first_sector + 1
  let w1 := (trx probe w [0x02, 0x02, 0xB6, 0x01] [0x80]).2
  let w2 := (trx probe w1 [0x02, 0x02, 0xB2, 0x01] [0x14]).2
  let w3 := (trx probe w2 [0x03, 0x02, 0xB2, 0x04] [0x0D]).2
  let w4 := (trx probe w3 [0x0B, 0x02, 0x04, 0x00] [0x0D]).2
  if sector_cnt > 0xFFFF then none
  else
    match write_flash_jtag_sectors charSigned probe buf start_addr len first_sector sector_cnt
        fuel (List.range sector_cnt.toNat)
        { addr := (start_addr % 65536).toNat, ofs := 0, w := w4, chunks := [] } with
    | some (JtagRun.ok st) =>
      let p1 := (trx probe st.w [0x0d, 0x05, 0x82, 0x08, 0x00, 0x00, 0x00] [0x0d]).2
      let p2 := (trx probe p1 [0x0b, 0x02, 0x01, 0x00] [0x0d]).2
      let p3 := (trx probe p2 [0x03, 0x02, 0xB6, 0x80] [0x0d]).2
      let p4 := (trx probe p3 [0x03, 0x02, 0xB2, 0x14] [0x0d]).2
      some (JtagRun.ok { st with w := p4 })
    | r => r

/-- What holds of the state of `ec2_write_flash_jtag` between two commands
when the write began at address `base`: every chunk sent has at least one byte
and lies in one sector, and `addr` and `buf` have advanced by the number of
bytes sent. -/
def JtagGood (base : Nat) (st : JtagWrite) : Prop :=
  (∀ c, c ∈ st.chunks → chunkInSector c ∧ 1 ≤ c.2) ∧
    (st.chunks.map Prod.snd).sum + base = st.addr ∧ st.ofs + base = st.addr

/-- The address command `0D 05 84 10 lo hi 00` that `ec2_read_flash` builds in
`acmd` from the `int addr`: `addr & 0xFF` and `(addr>>8) & 0xFF`. -/
def read_flash_acmd (addr : Int) : List Nat :=
  [0x0D, 0x05, 0x84, 0x10, (addr % 256).toNat, ((addr / 256) % 256).toNat, 0x00]

/-- One pass of the block loop of `ec2_read_flash` in JTAG mode, at
`i = 0x0C * k`: the address is written, then the read command `11 02 n 00`,
and up to `n` bytes are read to `buf + i`. The result of the read is not looked
at. -/
def read_flash_jtag_block (ec3 : Bool) (heap : Heap) (probe : Probe) (start_addr : Int)
    (len : Nat) (st : List Nat × Wire) (k : Nat) : List Nat × Wire :=
  let i := 0x0C * k
  let w1 := (trx probe st.2 (read_flash_acmd (start_addr + i)) [0x0D]).2
  let n := if len - i ≥ 0x0C then 0x0C else len - i
  let w2 := write_port w1 [0x11, 0x02, n, 0x00]
  ((read_port_buf ec3 (heap w2) (probe w2) n st.1 i).2, w2)

/-- One pass of the block loop of `ec2_read_flash` in 2-wire mode, at
`i = 0x0c * k`: the command `2E lo hi n`, and up to `n` bytes read to
`buf + i`. -/
def read_flash_c2_block (ec3 : Bool) (heap : Heap) (probe : Probe) (start_addr : Int)
    (len : Nat) (st : List Nat × Wire) (k : Nat) : List Nat × Wire :=
  let i := 0x0c * k
  let addr : Int := start_addr + i
  let n := if len - i > 0x0c then 0x0c else len - i
  let w1 := write_port st.2 [0x2E, (addr % 256).toNat, ((addr / 256) % 256).toNat, n]
  ((read_port_buf ec3 (heap w1) (probe w1) n st.1 i).2, w1)

/-- `ec2_read_flash(obj, buf, start_addr, len)` for the documented
non-negative `len`: `buf` is the content of the caller's buffer before the
call, the result is its content afterwards and the wire. The loops
`for( i=0; i<len; i+=0x0C )` run `(len + 11) / 12` times. The function returns
TRUE in every mode. -/
def ec2_read_flash (mode : EC2_MODE) (ec3 : Bool) (heap : Heap) (probe : Probe) (w : Wire)
    (buf : List Nat) (start_addr : Int) (len : Nat) : List Nat × Wire :=
  match mode with
  | EC2_MODE.JTAG =>
    let w1 := (trx probe w [0x02, 0x02, 0xB6, 0x01] [0x80]).2
    let w2 := (trx probe w1 [0x02, 0x02, 0xB2, 0x01] [0x14]).2
    let w3 := (trx probe w2 [0x03, 0x02, 0xB2, 0x04] [0x0D]).2
    let w4 := (trx probe w3 [0x0B, 0x02, 0x04, 0x00] [0x0D]).2
    let w5 := (trx probe w4 [0x0D, 0x05, 0x85, 0x08, 0x01, 0x00, 0x00] [0x0D]).2
    let w6 := (trx probe w5 (read_flash_acmd start_addr) [0x0D]).2
    let scratch : Bool := decide (start_addr ≥ 0x10000 ∧ start_addr ≤ 0x1007f)
    let start2 : Int := if scratch then start_addr - 0x10000 else start_addr
    let w7 :=
      (trx probe w6 [0x0D, 0x05, 0x82, 0x08, if scratch then 0x81 else 0x01, 0x00, 0x00]
        [0x0D]).2
    let r := (List.range ((len + 11) / 12)).foldl
      (read_flash_jtag_block ec3 heap probe start2 len)
      (storeAt buf 0 (List.replicate len 0xff), w7)
    let p1 := (trx probe r.2 [0x0D, 0x05, 0x82, 0x08, 0x00, 0x00, 0x00] [0x0D]).2
    let p2 := (trx probe p1 [0x0B, 0x02, 0x01, 0x00] [0x0D]).2
    let p3 := (trx probe p2 [0x03, 0x02, 0xB6, 0x80] [0x0D]).2
    (r.1, (trx probe p3 [0x03, 0x02, 0xB2, 0x14] [0x0D]).2)
  | EC2_MODE.C2 =>
    (List.range ((len + 11) / 12)).foldl (read_flash_c2_block ec3 heap probe start_addr len)
      (buf, w)
  | EC2_MODE.AUTO => (buf, w)

/-- `ec2_write_flash(obj, buf, start_addr, len)`: the 2-wire routine in 2-wire
mode, the JTAG routine in every other mode. The result is the value returned
and the wire. The 2-wire routine is modelled for the documented non-negative
`start_addr` and `len`. Where the JTAG routine copies more than 12 bytes into
`cmd + 4` the process is taken to stop; `none` when the fuel of the JTAG
routine runs out. -/
def ec2_write_flash (charSigned : Bool) (mode : EC2_MODE) (probe : Probe) (w : Wire)
    (buf : Nat → Nat) (start_addr len : Int) (fuel : Nat) : Option (Outcome Bool) :=
  match mode with
  | EC2_MODE.C2 =>
    let r := ec2_write_flash_c2 probe w buf start_addr.toNat len.toNat
    some (Outcome.ret r.1 r.2)
  | _ =>
    match ec2_write_flash_jtag charSigned probe w buf start_addr len fuel with
    | none => none
    | some (JtagRun.ok st) => some (Outcome.ret true st.w)
    | some (JtagRun.overflow st) => some (Outcome.abort st.w)

/-- The session while one of the flash write variants runs: the commands
written so far when the last routine called has returned, the commands written
up to the stop of the process otherwise; `none` when the fuel ran out. -/
abbrev FlashRun := Option (Outcome Unit)

/-- The call `ec2_erase_flash_sector(obj, sect_addr)` as a step of a flash
write variant: it is made only while the process runs. -/
def erase_sector_step (mode : EC2_MODE) (probe : Probe) (s : FlashRun) (sect_addr : Int) :
    FlashRun :=
  match s with
  | some (Outcome.ret _ w) => some (ec2_erase_flash_sector mode probe w sect_addr)
  | s => s

/-- The call `ec2_write_flash(obj, buf, start_addr, len)` as a step of a flash
write variant: the value it returns and the session afterwards. -/
def write_flash_step (charSigned : Bool) (mode : EC2_MODE) (probe : Probe) (fuel : Nat)
    (s : FlashRun) (buf : Nat → Nat) (start_addr len : Int) : Bool × FlashRun :=
  match s with
  | some (Outcome.ret _ w) =>
    match ec2_write_flash charSigned mode probe w buf start_addr len fuel with
    | none => (false, none)
    | some (Outcome.ret r w1) => (r, some (Outcome.ret () w1))
    | some (Outcome.abort w1) => (false, some (Outcome.abort w1))
  | s => (false, s)

/-- The call `ec2_read_flash(obj, tbuf, start_addr, len)` of
`ec2_write_flash_auto_keep` as a step: the session afterwards and the content
of `tbuf`, which held `tbuf0` before. The array has 0x10000 bytes; a read of
more is taken to stop the process. -/
def read_flash_step (mode : EC2_MODE) (ec3 : Bool) (heap : Heap) (probe : Probe)
    (tbuf0 : List Nat) (s : FlashRun) (start_addr len : Int) : FlashRun × (Nat → Nat) :=
  match s with
  | some (Outcome.ret _ w) =>
    if len ≤ 0x10000 then
      let r := ec2_read_flash mode ec3 heap probe w tbuf0 start_addr len.toNat
      (some (Outcome.ret () r.2), fun k => r.1.getD k 0)
    else (some (Outcome.abort w), fun k => tbuf0.getD k 0)
  | s => (s, fun k => tbuf0.getD k 0)

/-- `ec2_write_flash_auto_erase(obj, buf, start_addr, len)` with the routines
of the driver for the two it calls: the value returned, which counts when the
process has not stopped, and the session afterwards. -/
def write_flash_auto_erase_wire (charSigned : Bool) (mode : EC2_MODE) (probe : Probe) (w : Wire)
    (buf : Nat → Nat) (start_addr len : Int) (fuel : Nat) : Bool × FlashRun :=
  ec2_write_flash_auto_erase (erase_sector_step mode probe)
    (fun s a n => (write_flash_step charSigned mode probe fuel s buf a n).2)
    (some (Outcome.ret () w)) start_addr len

/-- `ec2_write_flash_auto_keep(obj, buf, start_addr, len)` with the routines of
the driver for the three it calls: `ec3` says whether the adaptor is the USB
one, `tbuf0` is what the uninitialised `tbuf` holds. The result is the value
returned, which counts when the process has not stopped, and the session
afterwards. -/
def write_flash_auto_keep_wire (charSigned : Bool) (mode : EC2_MODE) (ec3 : Bool) (heap : Heap)
    (probe : Probe) (w : Wire) (tbuf0 : List Nat) (buf : Nat → Nat) (start_addr len : Int)
    (fuel : Nat) : Bool × FlashRun :=
  ec2_write_flash_auto_keep (read_flash_step mode ec3 heap probe tbuf0)
    (erase_sector_step mode probe) (write_flash_step charSigned mode probe fuel)
    (some (Outcome.ret () w)) buf start_addr len

/-- A probe on a target whose flash is blank: a read command `11 02 n 00` or
`2E lo hi n` is answered with `n` bytes 0xFF, every other command with the
single byte 0x0D. -/
def blankFlashProbe : Probe := fun w =>
  match w.getLast? with
  | some [0x11, 0x02, n, 0x00] => some (List.replicate n 0xff)
  | some [0x2E, _, _, n] => some (List.replicate n 0xff)
  | _ => some [0x0D]

/-- The commands written in a session of a flash write variant, up to its end
or to the stop of the process; none is counted when the fuel ran out. -/
def sent : FlashRun → Wire
  | some (Outcome.ret _ w) => w
  | some (Outcome.abort w) => w
  | none => []

/-- The commands `ec2_read_flash` sends in JTAG mode for a read of `len` bytes
from `start_addr` outside the scratchpad, written out: the preamble, the first
address write, the flash control write, for each block the address and the read
command `11 02 n 00`, and the four closing commands. -/
def read_flash_jtag_cmds (start_addr : Int) (len : Nat) : List (List Nat) :=
  [[0x02, 0x02, 0xB6, 0x01], [0x02, 0x02, 0xB2, 0x01], [0x03, 0x02, 0xB2, 0x04],
    [0x0B, 0x02, 0x04, 0x00], [0x0D, 0x05, 0x85, 0x08, 0x01, 0x00, 0x00],
    read_flash_acmd start_addr, [0x0D, 0x05, 0x82, 0x08, 0x01, 0x00, 0x00]] ++
  ((List.range ((len + 11) / 12)).map fun (k : Nat) =>
    [read_flash_acmd (start_addr + (12 * k : Nat)),
      [0x11, 0x02, min 12 (len - 12 * k), 0x00]]).flatten ++
  [[0x0D, 0x05, 0x82, 0x08, 0x00, 0x00, 0x00], [0x0B, 0x02, 0x01, 0x00],
    [0x03, 0x02, 0xB6, 0x80], [0x03, 0x02, 0xB2, 0x14]]

end EC2

namespace Target

/-- One entry of the SFR page cache, `SFR_CACHE_PAGE`: the page number and the
128 cached bytes `buf[0..127]`, the registers 0x80..0xFF of that page. -/
structure SFR_CACHE_PAGE where
  page : Nat
  buf : Nat → Nat

/-- The list of cached pages, `SFR_PAGE_LIST`. -/
abbrev SFR_PAGE_LIST := List SFR_CACHE_PAGE

/-- The part of the class `target` the cache functions use: the member
`mCacheSfrPages`, and a log of the calls of the virtual
`read_sfr(addr, page, len, buf)` made so far (address, page, length). -/
structure target where
  mCacheSfrPages : SFR_PAGE_LIST
  reads : List (Nat × Nat × Nat)

/-- The virtual `read_sfr(addr, page, len, buf)` of the derived class: given
the log of target reads including the current one, the content of `buf` after
the call. -/
abbrev Hardware := List (Nat × Nat × Nat) → (Nat → Nat)

/-- `cache_get_sfr_page(page)`: the position of the first entry with that page
number; `none` stands for `mCacheSfrPages.end()`. -/
def cache_get_sfr_page : SFR_PAGE_LIST → Nat → Option Nat
  | [], _ => none
  | e :: rest, page =>
    if e.page = page then some 0 else (cache_get_sfr_page rest page).map (· + 1)

/-- Whether a `memcpy` of `len` bytes at `buf + off` stays inside the 128-byte
page buffer; a copy of no byte touches nothing. -/
def inPage (off : Int) (len : Nat) : Prop := len = 0 ∨ (0 ≤ off ∧ off + len ≤ 128)

instance (off : Int) (len : Nat) : Decidable (inPage off len) := by
  unfold inPage; infer_instance

/-- `memcpy(dst + off, src, len)` into a page buffer. -/
def copyIn (dst : Nat → Nat) (off : Int) (src : List Nat) (len : Nat) : Nat → Nat :=
  fun pos => if off ≤ pos ∧ (pos : Int) < off + len then src.getD (pos - off).toNat 0 else dst pos

/-- `memcpy(out, src + off, len)` from a page buffer. -/
def copyOut (src : Nat → Nat) (off : Int) (len : Nat) : List Nat :=
  (List.range len).map fun (k : Nat) => src (off + (k : Int)).toNat

/-- Replace the buffer of the entry at position `i`. -/
def setBuf : SFR_PAGE_LIST → Nat → (Nat → Nat) → SFR_PAGE_LIST
  | [], _, _ => []
  | e :: rest, 0, b => { e with buf := b } :: rest
  | e :: rest, i + 1, b => e :: setBuf rest i b

/-- The buffer of the entry at position `i`. -/
def bufAt (c : SFR_PAGE_LIST) (i : Nat) : Nat → Nat :=
  match c.get? i with
  | some e => e.buf
  | none => fun _ => 0

/-- `target::write_sfr(addr, page, len, buf)`: when the page is cached, copy
`len` bytes of `buf` to offset `addr - 0x80` of its buffer. `none` when the
copy leaves the 128-byte buffer. -/
def write_sfr (t : target) (addr page len : Nat) (buf : List Nat) : Option target :=
  match cache_get_sfr_page t.mCacheSfrPages page with
  | some i =>
    if inPage ((addr : Int) - 0x80) len then
      let b := copyIn (bufAt t.mCacheSfrPages i) ((addr : Int) - 0x80) buf len
      some { t with mCacheSfrPages := setBuf t.mCacheSfrPages i b }
    else none
  | none => some t

/-- `target::invalidate_cache()`. -/
def invalidate_cache (t : target) : target := { t with mCacheSfrPages := [] }

/-- `target::read_sfr_cache(addr, page, len, buf)`: the state afterwards and the
bytes copied to the caller, `none` when the copy leaves the 128-byte buffer. On
a miss the whole page is read from the target and appended to the list. -/
def read_sfr_cache (hw : Hardware) (t : target) (addr page len : Nat) :
    target × Option (List Nat) :=
  match cache_get_sfr_page t.mCacheSfrPages page with
  | none =>
    let reads1 := t.reads ++ [(0x80, page, 128)]
    let page_entry : SFR_CACHE_PAGE := { page := page, buf := hw reads1 }
    ({ mCacheSfrPages := t.mCacheSfrPages ++ [page_entry], reads := reads1 },
      if inPage ((addr : Int) - 0x80) len then
        some (copyOut page_entry.buf ((addr : Int) - 0x80) len)
      else none)
  | some i =>
    (t, if inPage ((addr : Int) - 0x80) len then
        some (copyOut (bufAt t.mCacheSfrPages i) ((addr : Int) - 0x80) len)
      else none)

/-- A call of the cache-aware read or write path. -/
inductive CacheOp where
  | read (addr page len : Nat)
  | write (addr page len : Nat) (buf : List Nat)

/-- Perform one call; `none` when a write leaves the page buffer. -/
def stepCache (hw : Hardware) (t : target) : CacheOp → Option target
  | CacheOp.read addr page len => some (read_sfr_cache hw t addr page len).1
  | CacheOp.write addr page len buf => write_sfr t addr page len buf

/-- Perform a sequence of calls from left to right. -/
def runCache (hw : Hardware) : target → List CacheOp → Option target
  | t, [] => some t
  | t, op :: ops =>
    match stepCache hw t op with
    | some t1 => runCache hw t1 ops
    | none => none

/-- No two entries of the cache carry the same page number. -/
def NoDupPages (t : target) : Prop := (t.mCacheSfrPages.map (·.page)).Nodup

/-- The positions of the page buffer that a `memcpy` of `len` bytes at
`buf + off` reads or writes. -/
def memcpyPositions (off : Int) (len : Nat) : List Int :=
  (List.range len).map fun (k : Nat) => off + (k : Int)

/-- A cache that holds page 0, all bytes zero. -/
def cachedPage0 : target :=
  { mCacheSfrPages := [{ page := 0, buf := fun _ => 0 }], reads := [] }

end Target

namespace MemRemap

theorem lor_high (k a b : Nat) (h : b < 2 ^ k) : b ||| 2 ^ k * a = 2 ^ k * a + b := by
  rw [Nat.lor_comm]
  exact (Nat.mul_add_lt_is_or h a).symm

theorem land_FF (n : Nat) : n &&& 0xFF = n % 256 :=
  Nat.and_pow_two_sub_one_eq_mod n 8

theorem land_0FFFFFFF (n : Nat) : n &&& 0x0FFFFFFF = n % 2 ^ 28 :=
  Nat.and_pow_two_sub_one_eq_mod n 28

theorem target_c (f : Nat) (a : Char) (h : f < 0x20000000) : target f a = (f, 'c') := by
  unfold target; rw [if_pos h]

theorem target_x (f : Nat) (a : Char) (h1 : 0x20000000 ≤ f) (h2 : f < 0x2FFFFFFF) :
    target f a = (f % 2 ^ 28, 'x') := by
  unfold target
  rw [if_neg (by omega), if_pos h2, land_0FFFFFFF]

theorem target_d (f : Nat) (a : Char) (h1 : 0x40000000 ≤ f) (h2 : f ≤ 0x400000FF) :
    target f a = (f % 256, 'd') := by
  unfold target
  rw [if_neg (by omega), if_neg (by omega), if_pos ⟨h1, h2⟩, land_FF]

theorem target_i (f : Nat) (a : Char) (h1 : 0x40000100 ≤ f) (h2 : f ≤ 0x400001FF) :
    target f a = (f % 256, 'i') := by
  unfold target
  rw [if_neg (by omega), if_neg (by omega), if_neg (by omega), if_pos ⟨h1, h2⟩, land_FF]

theorem target_s (f : Nat) (a : Char) (h1 : 0x80000080 ≤ f) (h2 : f ≤ 0x80000FFF) :
    target f a = (f % 256, 's') := by
  unfold target
  rw [if_neg (by omega), if_neg (by omega), if_neg (by omega), if_neg (by omega),
    if_pos ⟨h1, h2⟩, land_FF]

theorem target_invalid (f : Nat) (a : Char) (h1 : 0x2FFFFFFF ≤ f)
    (h2 : f < 0x40000000 ∨ 0x400001FF < f) (h3 : f < 0x80000080 ∨ 0x80000FFF < f) :
    target f a = (INVALID_ADDR, a) := by
  unfold target
  rw [if_neg (by omega), if_neg (by omega), if_neg (by omega), if_neg (by omega),
    if_neg (by omega)]

theorem flat_c (o : Nat) (h : o < 2 ^ 32) : flat o 'c' = o := by
  have e : flat o 'c' = o % 2 ^ 32 := by simp [flat]
  rw [e]; omega

theorem flat_x (o : Nat) (h : o < 2 ^ 29) : flat o 'x' = 0x20000000 + o := by
  have e : flat o 'x' = (o ||| 2 ^ 29 * 1) % 2 ^ 32 := by simp [flat]
  rw [e, lor_high 29 1 o h]; omega

theorem flat_d (o : Nat) (h : o < 2 ^ 30) : flat o 'd' = 0x40000000 + o := by
  have e : flat o 'd' = (o ||| 2 ^ 30 * 1) % 2 ^ 32 := by simp [flat]
  rw [e, lor_high 30 1 o h]; omega

theorem flat_i (o : Nat) (h : o < 2 ^ 8) : flat o 'i' = 0x40000100 + o := by
  have e : flat o 'i' = (o ||| 2 ^ 8 * 0x400001) % 2 ^ 32 := by simp [flat]
  rw [e, lor_high 8 0x400001 o h]; omega

theorem flat_s (o : Nat) (h : o < 2 ^ 31) : flat o 's' = 0x80000000 + o := by
  have e : flat o 's' = (o ||| 2 ^ 31 * 1) % 2 ^ 32 := by simp [flat]
  rw [e, lor_high 31 1 o h]; omega

/-- C1: for every area letter a in c, x, d, i, s and every offset o valid for
it, `target (flat o a)` returns the offset o and sets the area to a, whatever
the area variable held before the call. -/
theorem target_flat_roundtrip (a : Char) (o : Nat) (area0 : Char) (h : validOffset a o) :
    target (flat o a) area0 = (o, a) := by
  rcases h with ⟨rfl, h⟩ | ⟨rfl, h⟩ | ⟨rfl, h⟩ | ⟨rfl, h⟩ | ⟨rfl, h1, h2⟩
  · rw [flat_c o (by omega), target_c _ _ h]
  · rw [flat_x o (by omega), target_x _ _ (by omega) (by omega)]
    congr 1; omega
  · rw [flat_d o (by omega), target_d _ _ (by omega) (by omega)]
    congr 1; omega
  · rw [flat_i o (by omega), target_i _ _ (by omega) (by omega)]
    congr 1; omega
  · rw [flat_s o (by omega), target_s _ _ (by omega) (by omega)]
    congr 1; omega

theorem target_flat_roundtrip_witness :
    validOffset 's' 0x80 ∧ target (flat 0x80 's') 'c' = (0x80, 's') :=
  ⟨by simp [validOffset],
   target_flat_roundtrip 's' 0x80 'c' (by simp [validOffset])⟩

/-- C2 (evaluation at the failing input): the flat address 0x80000100 is not
mapped to `INVALID_ADDR`; `target` returns offset 0 in area s, and `flat` of
that offset and area is 0x80000000, not the address started from. -/
theorem flat_target_not_identity :
    target 0x80000100 'c' = (0, 's') ∧ (target 0x80000100 'c').1 ≠ INVALID_ADDR ∧
      flat (target 0x80000100 'c').1 (target 0x80000100 'c').2 = 0x80000000 ∧
      flat (target 0x80000100 'c').1 (target 0x80000100 'c').2 ≠ 0x80000100 := by
  have e : target 0x80000100 'c' = (0, 's') := by
    rw [target_s _ _ (by omega) (by omega)]
  rw [e]
  refine ⟨rfl, by simp [INVALID_ADDR], ?_, ?_⟩
  · show flat 0 's' = 0x80000000
    rw [flat_s 0 (by omega)]
  · show flat 0 's' ≠ 0x80000100
    rw [flat_s 0 (by omega)]; omega

/-- Inside the windows of the documented table the round trip does hold: a flat
address that the table places in an area, other than 0x2FFFFFFF, is given back
by `flat` applied to what `target` returned. -/
theorem flat_target_documented (f : Nat) (area0 : Char) (a : Char)
    (hd : documentedArea f = some a) (hx : f ≠ 0x2FFFFFFF) :
    flat (target f area0).1 (target f area0).2 = f := by
  unfold documentedArea at hd
  split_ifs at hd with h1 h2 h3 h4 h5
  · rw [target_c _ _ h1]; exact flat_c f (by omega)
  · rw [target_x _ _ (by omega) (by omega)]
    show flat (f % 2 ^ 28) 'x' = f
    rw [flat_x _ (by omega)]; omega
  · rw [target_d _ _ h3.1 h3.2]
    show flat (f % 256) 'd' = f
    rw [flat_d _ (by omega)]; omega
  · rw [target_i _ _ h4.1 h4.2]
    show flat (f % 256) 'i' = f
    rw [flat_i _ (by omega)]; omega
  · rw [target_s _ _ h5.1 (by omega)]
    show flat (f % 256) 's' = f
    rw [flat_s _ (by omega)]; omega

/-- C3 (evaluation at the failing inputs): 0x2FFFFFFF lies in the documented
xdata window but `target` returns `INVALID_ADDR` and leaves the area alone;
0x80000100 lies outside every documented window but `target` returns an SFR
offset with area s. -/
theorem target_differs_from_table :
    documentedArea 0x2FFFFFFF = some 'x' ∧ target 0x2FFFFFFF 'c' = (INVALID_ADDR, 'c') ∧
      documentedArea 0x80000100 = none ∧ target 0x80000100 'c' = (0, 's') := by
  refine ⟨by simp [documentedArea], ?_, by simp [documentedArea], ?_⟩
  · rw [target_invalid _ _ (by omega) (by omega) (by omega)]
  · rw [target_s _ _ (by omega) (by omega)]

/-- Everywhere else `target` follows the documented table: for a 32-bit flat
address other than 0x2FFFFFFF and outside 0x80000100-0x80000FFF, the area set
is the documented one, and the result is `INVALID_ADDR` with the area left
alone exactly outside the documented windows. -/
theorem target_follows_table (f : Nat) (area0 : Char) (hx : f ≠ 0x2FFFFFFF)
    (hs : f < 0x80000100 ∨ 0x80000FFF < f) :
    (∀ a, documentedArea f = some a → (target f area0).2 = a ∧
      (target f area0).1 ≠ INVALID_ADDR) ∧
    (documentedArea f = none → target f area0 = (INVALID_ADDR, area0)) := by
  unfold documentedArea
  split_ifs with h1 h2 h3 h4 h5
  · rw [target_c _ _ h1]
    refine ⟨fun a ha => ⟨Option.some.inj ha, ?_⟩, fun h => by simp at h⟩
    show f ≠ INVALID_ADDR
    unfold INVALID_ADDR; omega
  · rw [target_x _ _ (by omega) (by omega)]
    refine ⟨fun a ha => ⟨Option.some.inj ha, ?_⟩, fun h => by simp at h⟩
    show f % 2 ^ 28 ≠ INVALID_ADDR
    unfold INVALID_ADDR; omega
  · rw [target_d _ _ h3.1 h3.2]
    refine ⟨fun a ha => ⟨Option.some.inj ha, ?_⟩, fun h => by simp at h⟩
    show f % 256 ≠ INVALID_ADDR
    unfold INVALID_ADDR; omega
  · rw [target_i _ _ h4.1 h4.2]
    refine ⟨fun a ha => ⟨Option.some.inj ha, ?_⟩, fun h => by simp at h⟩
    show f % 256 ≠ INVALID_ADDR
    unfold INVALID_ADDR; omega
  · rw [target_s _ _ h5.1 (by omega)]
    refine ⟨fun a ha => ⟨Option.some.inj ha, ?_⟩, fun h => by simp at h⟩
    show f % 256 ≠ INVALID_ADDR
    unfold INVALID_ADDR; omega
  · refine ⟨fun a ha => by simp at ha, fun _ => ?_⟩
    exact target_invalid _ _ (by omega) (by omega) (by omega)

end MemRemap

namespace EC2

theorem isBPSet_eq_testBit (obj : EC2DRV) (i : Nat) : isBPSet obj i = obj.bp_flags.testBit i := by
  unfold isBPSet Nat.testBit
  rw [Nat.and_comm]

theorem lnot_test (v : Nat) : (lnot v &&& 0x01 != 0) = decide (v = 0) := by
  unfold lnot
  by_cases h : v = 0 <;> simp [h]

theorem getNextBPIdx_eq (obj : EC2DRV) :
    getNextBPIdx obj = (List.range 4).find? fun i => decide (obj.bp_flags >>> i = 0) := by
  unfold getNextBPIdx
  congr 1
  funext i
  exact lnot_test _

theorem testBit_set (f bp i : Nat) (hi : i < 8) :
    ((f ||| (1 <<< bp)) % 256).testBit i = (f.testBit i || decide (bp = i)) := by
  have e : (256 : Nat) = 2 ^ 8 := rfl
  rw [e, Nat.testBit_mod_two_pow, Nat.testBit_or, Nat.one_shiftLeft, Nat.testBit_two_pow]
  simp [hi]

theorem testBit_clear (f bp i : Nat) :
    (f &&& (0xFF ^^^ ((1 <<< bp) % 256))).testBit i =
      (f.testBit i && decide (i < 8) && !decide (bp = i)) := by
  have e : (256 : Nat) = 2 ^ 8 := rfl
  have e2 : (0xFF : Nat) = 2 ^ 8 - 1 := rfl
  rw [Nat.testBit_and, Nat.testBit_xor, e, Nat.testBit_mod_two_pow, e2,
    Nat.testBit_two_pow_sub_one, Nat.one_shiftLeft, Nat.testBit_two_pow]
  by_cases h1 : i < 8 <;> by_cases h2 : bp = i <;> simp [h1, h2]

theorem setBpMask_obj (probe : Probe) (obj : EC2DRV) (w : Wire) (bp : Nat) (active : Bool) :
    (setBpMask probe obj w bp active).2.1 =
      if active then { obj with bp_flags := (obj.bp_flags ||| (1 <<< bp)) % 256 }
      else { obj with bp_flags := obj.bp_flags &&& (0xFF ^^^ ((1 <<< bp) % 256)) } := by
  unfold setBpMask
  cases active <;> cases hm : obj.mode <;> simp [hm]

theorem getBP_none_iff (obj : EC2DRV) (addr : Nat) : getBP obj addr = none ↔ ¬ Held obj addr := by
  unfold getBP Held
  rw [List.find?_eq_none]
  constructor
  · rintro h ⟨i, hi, hs, ha⟩
    apply h i (List.mem_range.mpr hi)
    unfold isBPSet at hs
    rw [Bool.and_eq_true]
    exact ⟨beq_iff_eq.mpr ha, hs⟩
  · intro h i hi hp
    apply h
    refine ⟨i, List.mem_range.mp hi, ?_, ?_⟩
    · unfold isBPSet
      simp only [Bool.and_eq_true] at hp
      exact hp.2
    · simp only [Bool.and_eq_true, beq_iff_eq] at hp
      exact hp.1

theorem getBP_some (obj : EC2DRV) (addr bp : Nat) (h : getBP obj addr = some bp) :
    bp < 4 ∧ isBPSet obj bp = true ∧ obj.bpaddr bp = addr := by
  unfold getBP at h
  have hm := List.mem_of_find?_eq_some h
  have hp := List.find?_some h
  simp only [Bool.and_eq_true, beq_iff_eq] at hp
  exact ⟨List.mem_range.mp hm, hp.2, hp.1⟩

theorem getNextBPIdx_some (obj : EC2DRV) (bp : Nat) (h : getNextBPIdx obj = some bp) :
    bp < 4 ∧ obj.bp_flags >>> bp = 0 := by
  rw [getNextBPIdx_eq] at h
  have hm := List.mem_of_find?_eq_some h
  have hp := List.find?_some h
  exact ⟨List.mem_range.mp hm, of_decide_eq_true hp⟩

theorem not_set_of_shift_zero (obj : EC2DRV) (bp j : Nat) (h : obj.bp_flags >>> bp = 0)
    (hj : bp ≤ j) : isBPSet obj j = false := by
  rw [isBPSet_eq_testBit]
  have e : obj.bp_flags.testBit (bp + (j - bp)) = (obj.bp_flags >>> bp).testBit (j - bp) :=
    (Nat.testBit_shiftRight obj.bp_flags).symm
  rw [h, Nat.zero_testBit] at e
  rwa [Nat.add_sub_cancel' hj] at e

theorem getNextBPIdx_none_of_set3 (obj : EC2DRV) (h : isBPSet obj 3 = true) :
    getNextBPIdx obj = none := by
  cases hn : getNextBPIdx obj with
  | none => rfl
  | some bp =>
    obtain ⟨hlt, hz⟩ := getNextBPIdx_some obj bp hn
    have := not_set_of_shift_zero obj bp 3 hz (by omega)
    rw [h] at this
    cases this

/-- C6: when the address is already held by an active slot, or all four slots
are active, `ec2_addBreakpoint` returns failure, writes nothing to the probe
and leaves the driver state (mask and the four stored addresses) as it was. -/
theorem addBreakpoint_refused (probe : Probe) (obj : EC2DRV) (w : Wire) (addr : Nat)
    (h : Held obj addr ∨ Full obj) :
    ec2_addBreakpoint probe obj w addr = (false, obj, w) := by
  unfold ec2_addBreakpoint
  cases hg : getBP obj addr with
  | some bp => rfl
  | none =>
    rcases h with h | h
    · exact absurd h ((getBP_none_iff obj addr).mp hg)
    · simp only [getNextBPIdx_none_of_set3 obj (h 3 (by omega))]

theorem addBreakpoint_refused_witness :
    (Held { mode := EC2_MODE.C2, bpaddr := fun _ => 7, bp_flags := 1 } 7 ∨
        Full { mode := EC2_MODE.C2, bpaddr := fun _ => 7, bp_flags := 1 }) ∧
      ec2_addBreakpoint ackProbe { mode := EC2_MODE.C2, bpaddr := fun _ => 7, bp_flags := 1 }
          [] 7 =
        (false, { mode := EC2_MODE.C2, bpaddr := fun _ => 7, bp_flags := 1 }, []) :=
  ⟨Or.inl ⟨0, by decide, by decide, rfl⟩,
   addBreakpoint_refused ackProbe _ [] 7 (Or.inl ⟨0, by decide, by decide, rfl⟩)⟩

/-- C7 (counterexample): on the empty table no active slot holds 0x1234, yet
`ec2_removeBreakpoint` reports failure. -/
theorem remove_absent_reports_failure :
    ¬ Held (emptyTable EC2_MODE.JTAG) 0x1234 ∧
      (ec2_removeBreakpoint ackProbe (emptyTable EC2_MODE.JTAG) [] 0x1234).1 = false := by
  refine ⟨?_, by decide⟩
  rintro ⟨i, hi, hs, _⟩
  rw [isBPSet_eq_testBit] at hs
  simp [emptyTable] at hs

/-- C7 (amended): for every table state and every address that no active slot
holds, `ec2_removeBreakpoint` reports failure, writes nothing to the probe and
leaves the table unchanged. -/
theorem removeBreakpoint_absent (probe : Probe) (obj : EC2DRV) (w : Wire) (addr : Nat)
    (h : ¬ Held obj addr) :
    ec2_removeBreakpoint probe obj w addr = (false, obj, w) := by
  unfold ec2_removeBreakpoint
  rw [(getBP_none_iff obj addr).mpr h]

theorem removeBreakpoint_absent_witness :
    ¬ Held (emptyTable EC2_MODE.C2) 5 ∧
      ec2_removeBreakpoint ackProbe (emptyTable EC2_MODE.C2) [] 5 =
        (false, emptyTable EC2_MODE.C2, []) :=
  have h : ¬ Held (emptyTable EC2_MODE.C2) 5 := by
    rintro ⟨i, hi, hs, _⟩
    rw [isBPSet_eq_testBit] at hs
    simp [emptyTable] at hs
  ⟨h, removeBreakpoint_absent ackProbe (emptyTable EC2_MODE.C2) [] 5 h⟩

theorem clear_all_flags (probe : Probe) (obj : EC2DRV) (w : Wire) :
    (ec2_clear_all_bp probe obj w).1 =
      { obj with bp_flags :=
          obj.bp_flags &&& (0xFF ^^^ ((1 <<< 0) % 256)) &&& (0xFF ^^^ ((1 <<< 1) % 256)) &&&
            (0xFF ^^^ ((1 <<< 2) % 256)) &&& (0xFF ^^^ ((1 <<< 3) % 256)) } := by
  have e : List.range 4 = [0, 1, 2, 3] := by decide
  unfold ec2_clear_all_bp
  rw [e]
  simp only [List.foldl, setBpMask_obj]
  rfl

theorem clear_all_isBPSet (probe : Probe) (obj : EC2DRV) (w : Wire) (i : Nat) :
    isBPSet (ec2_clear_all_bp probe obj w).1 i =
      (isBPSet obj i && decide (i < 8) && decide (4 ≤ i)) := by
  rw [clear_all_flags, isBPSet_eq_testBit, isBPSet_eq_testBit]
  simp only [testBit_clear]
  by_cases h : obj.bp_flags.testBit i <;> by_cases h8 : i < 8 <;> by_cases h4 : 4 ≤ i <;>
    simp [h, h8, h4] <;> omega

/-- C8: after `ec2_clear_all_bp`, from any table state, in any interface mode
and whatever the probe replies, none of the four slots is active. -/
theorem clear_all_none_active (probe : Probe) (obj : EC2DRV) (w : Wire) :
    isBPSet (ec2_clear_all_bp probe obj w).1 0 = false ∧
      isBPSet (ec2_clear_all_bp probe obj w).1 1 = false ∧
      isBPSet (ec2_clear_all_bp probe obj w).1 2 = false ∧
      isBPSet (ec2_clear_all_bp probe obj w).1 3 = false := by
  simp [clear_all_isBPSet]

theorem trx_ack (w : Wire) (tx : List Nat) : trx ackProbe w tx [0x0D] = (true, w ++ [tx]) := by
  simp [trx, ackProbe, read_port]

theorem isBPSet_withSlot (obj : EC2DRV) (bp addr i : Nat) (hi : i < 4) :
    isBPSet (withSlot obj bp addr) i = (isBPSet obj i || decide (bp = i)) := by
  rw [isBPSet_eq_testBit, isBPSet_eq_testBit]
  exact testBit_set _ _ _ (by omega)

theorem isBPSet_withoutSlot (obj : EC2DRV) (bp i : Nat) :
    isBPSet (withoutSlot obj bp) i = (isBPSet obj i && decide (i < 8) && !decide (bp = i)) := by
  rw [isBPSet_eq_testBit, isBPSet_eq_testBit]
  exact testBit_clear _ _ _

theorem add_ack (obj : EC2DRV) (w : Wire) (addr bp : Nat) (hm : obj.mode ≠ EC2_MODE.AUTO)
    (hg : ¬ Held obj addr) (hn : getNextBPIdx obj = some bp) :
    (ec2_addBreakpoint ackProbe obj w addr).1 = true ∧
      (ec2_addBreakpoint ackProbe obj w addr).2.1 = withSlot obj bp addr := by
  unfold ec2_addBreakpoint
  rw [(getBP_none_iff obj addr).mpr hg, hn]
  cases hmode : obj.mode with
  | AUTO => exact absurd hmode hm
  | JTAG =>
    simp only [trx_ack, Bool.not_true, Bool.false_eq_true, if_false]
    refine ⟨?_, ?_⟩
    · simp [setBpMask, trx_ack]
    · rw [setBpMask_obj]; simp [withSlot, hmode]
  | C2 =>
    refine ⟨?_, ?_⟩
    · simp [setBpMask]
    · rw [setBpMask_obj]; simp [withSlot, hmode]

theorem remove_obj (probe : Probe) (obj : EC2DRV) (w : Wire) (addr bp : Nat)
    (hg : getBP obj addr = some bp) :
    (ec2_removeBreakpoint probe obj w addr).2.1 = withoutSlot obj bp := by
  unfold ec2_removeBreakpoint
  rw [hg]
  simp only [setBpMask_obj]
  simp [withoutSlot]

theorem getNextBPIdx_of_flags (obj : EC2DRV) (f k : Nat) (hf : obj.bp_flags = f)
    (hk : ((List.range 4).find? fun i => decide (f >>> i = 0)) = some k) :
    getNextBPIdx obj = some k := by
  rw [getNextBPIdx_eq, hf, hk]

theorem isBPSet_mk (m : EC2_MODE) (b : Nat → Nat) (f i : Nat) :
    isBPSet { mode := m, bpaddr := b, bp_flags := f } i = f.testBit i :=
  isBPSet_eq_testBit _ _

theorem scenarioC_final (m : EC2_MODE) (b : Nat → Nat) (w : Wire) (hm : m ≠ EC2_MODE.AUTO) :
    (runOps ackProbe ({ mode := m, bpaddr := b, bp_flags := 0 }, w) scenarioC).1 =
      { mode := m,
        bpaddr := Function.update (Function.update (Function.update b 0 0x1234) 1 0x1235)
          2 0x1236,
        bp_flags := 6 } := by
  have n1 : ¬ Held { mode := m, bpaddr := b, bp_flags := 0 } 0x1234 := by
    rintro ⟨i, hi, hs, ha⟩
    rw [isBPSet_mk, Nat.zero_testBit] at hs
    cases hs
  have n2 : ¬ Held (withSlot { mode := m, bpaddr := b, bp_flags := 0 } 0 0x1234) 0x1235 := by
    rintro ⟨i, hi, hs, ha⟩
    rw [isBPSet_withSlot _ _ _ _ hi, isBPSet_mk] at hs
    have hi0 : 0 = i := by simpa using hs
    subst hi0
    simp [withSlot] at ha
  have g3 : getBP (withSlot (withSlot { mode := m, bpaddr := b, bp_flags := 0 } 0 0x1234)
      1 0x1235) 0x1234 = some 0 := by
    have e : List.range 4 = [0, 1, 2, 3] := by decide
    simp [getBP, e, withSlot, Function.update]
  have n4 : ¬ Held (withoutSlot (withSlot (withSlot { mode := m, bpaddr := b, bp_flags := 0 }
      0 0x1234) 1 0x1235) 0) 0x1236 := by
    rintro ⟨i, hi, hs, ha⟩
    rw [isBPSet_withoutSlot, isBPSet_withSlot _ _ _ _ hi, isBPSet_withSlot _ _ _ _ hi,
      isBPSet_mk] at hs
    have hi1 : 1 = i := by
      simp only [Nat.zero_testBit, Bool.false_or, Bool.and_eq_true, Bool.or_eq_true,
        decide_eq_true_eq, Bool.not_eq_true', decide_eq_false_iff_not] at hs
      rcases hs.1.1 with h0 | h1
      · exact absurd h0 hs.2
      · exact h1
    subst hi1
    simp [withSlot, withoutSlot] at ha
  unfold runOps scenarioC
  simp only [List.foldl, step]
  rw [(add_ack _ w 0x1234 0 hm n1 (getNextBPIdx_of_flags _ 0 0 rfl (by decide))).2]
  generalize (ec2_addBreakpoint ackProbe _ w 0x1234).2.2 = w1
  rw [(add_ack _ w1 0x1235 1 hm n2
    (getNextBPIdx_of_flags _ 1 1 (by simp [withSlot]) (by decide))).2]
  generalize (ec2_addBreakpoint ackProbe _ w1 0x1235).2.2 = w2
  rw [remove_obj ackProbe _ w2 0x1234 0 g3]
  generalize (ec2_removeBreakpoint ackProbe _ w2 0x1234).2.2 = w3
  rw [(add_ack _ w3 0x1236 2 hm n4
    (getNextBPIdx_of_flags _ 2 2 (by simp [withSlot, withoutSlot]; decide) (by decide))).2]
  simp [withSlot, withoutSlot]
  decide

/-- C9: starting from an empty breakpoint table (mask zero, any stored
addresses) in JTAG or C2 mode with a probe that acknowledges every command,
the calls add(0x1234), add(0x1235), remove(0x1234), add(0x1236) end with the
set of addresses held by active slots equal to exactly 0x1235 and 0x1236. -/
theorem scenarioC_active_set (obj : EC2DRV) (w : Wire) (a : Nat)
    (hm : obj.mode ≠ EC2_MODE.AUTO) (he : obj.bp_flags = 0) :
    Held (runOps ackProbe (obj, w) scenarioC).1 a ↔ a = 0x1235 ∨ a = 0x1236 := by
  obtain ⟨m, b, f⟩ := obj
  simp only at hm he
  subst he
  rw [scenarioC_final m b w hm]
  constructor
  · rintro ⟨i, hi, hs, ha⟩
    rw [isBPSet_mk] at hs
    interval_cases i
    · exact absurd hs (by decide)
    · left; rw [← ha]; simp [Function.update]
    · right; rw [← ha]; simp [Function.update]
    · exact absurd hs (by decide)
  · rintro (rfl | rfl)
    · exact ⟨1, by omega, by rw [isBPSet_mk]; decide, by simp [Function.update]⟩
    · exact ⟨2, by omega, by rw [isBPSet_mk]; decide, by simp [Function.update]⟩

theorem scenarioC_active_set_witness :
    ((emptyTable EC2_MODE.JTAG).mode ≠ EC2_MODE.AUTO ∧ (emptyTable EC2_MODE.JTAG).bp_flags = 0) ∧
      (Held (runOps ackProbe (emptyTable EC2_MODE.JTAG, []) scenarioC).1 0x1236 ↔
        (0x1236 = 0x1235 ∨ 0x1236 = 0x1236)) :=
  ⟨⟨by decide, rfl⟩,
   scenarioC_active_set (emptyTable EC2_MODE.JTAG) [] 0x1236 (by decide) rfl⟩

theorem Distinct_of_fewer (o1 o2 : EC2DRV) (ha : o2.bpaddr = o1.bpaddr)
    (hs : ∀ i, i < 4 → isBPSet o2 i = true → isBPSet o1 i = true) (h : Distinct o1) :
    Distinct o2 := by
  intro i j hi hj hsi hsj he
  rw [ha] at he
  exact h i j hi hj (hs i hi hsi) (hs j hj hsj) he

theorem Distinct_withoutSlot (obj : EC2DRV) (bp : Nat) (h : Distinct obj) :
    Distinct (withoutSlot obj bp) := by
  refine Distinct_of_fewer obj _ rfl (fun i _ hs => ?_) h
  rw [isBPSet_withoutSlot] at hs
  simp only [Bool.and_eq_true] at hs
  exact hs.1.1

theorem Distinct_update (obj : EC2DRV) (bp addr : Nat) (hb : isBPSet obj bp = false)
    (h : Distinct obj) :
    Distinct { obj with bpaddr := Function.update obj.bpaddr bp addr } := by
  intro i j hi hj hsi hsj he
  have hsi0 : isBPSet obj i = true := hsi
  have hsj0 : isBPSet obj j = true := hsj
  have hib : i ≠ bp := fun e => by rw [e, hb] at hsi0; cases hsi0
  have hjb : j ≠ bp := fun e => by rw [e, hb] at hsj0; cases hsj0
  simp only [Function.update_noteq hib, Function.update_noteq hjb] at he
  exact h i j hi hj hsi0 hsj0 he

theorem Distinct_withSlot (obj : EC2DRV) (bp addr : Nat) (hg : ¬ Held obj addr)
    (h : Distinct obj) : Distinct (withSlot obj bp addr) := by
  intro i j hi hj hsi hsj he
  rw [isBPSet_withSlot _ _ _ _ hi] at hsi
  rw [isBPSet_withSlot _ _ _ _ hj] at hsj
  simp only [withSlot] at he
  by_cases hib : i = bp <;> by_cases hjb : j = bp
  · rw [hib, hjb]
  · exfalso
    have hsj0 : isBPSet obj j = true := by
      simpa [Ne.symm hjb] using hsj
    rw [hib, Function.update_same, Function.update_noteq hjb] at he
    exact hg ⟨j, hj, hsj0, he.symm⟩
  · exfalso
    have hsi0 : isBPSet obj i = true := by
      simpa [Ne.symm hib] using hsi
    rw [hjb, Function.update_same, Function.update_noteq hib] at he
    exact hg ⟨i, hi, hsi0, he⟩
  · have hsi0 : isBPSet obj i = true := by
      simpa [Ne.symm hib] using hsi
    have hsj0 : isBPSet obj j = true := by
      simpa [Ne.symm hjb] using hsj
    rw [Function.update_noteq hib, Function.update_noteq hjb] at he
    exact h i j hi hj hsi0 hsj0 he

theorem setBpMask_true_obj (probe : Probe) (obj : EC2DRV) (w : Wire) (bp addr : Nat) :
    (setBpMask probe { obj with bpaddr := Function.update obj.bpaddr bp addr } w bp true).2.1 =
      withSlot obj bp addr := by
  rw [setBpMask_obj]
  simp [withSlot]

theorem setBpMask_false_obj (probe : Probe) (obj : EC2DRV) (w : Wire) (bp : Nat) :
    (setBpMask probe obj w bp false).2.1 = withoutSlot obj bp := by
  rw [setBpMask_obj]
  simp [withoutSlot]

theorem Distinct_setBpMask_true (probe : Probe) (obj : EC2DRV) (w : Wire) (bp addr : Nat)
    (hg : ¬ Held obj addr) (h : Distinct obj) :
    Distinct (setBpMask probe { obj with bpaddr := Function.update obj.bpaddr bp addr }
      w bp true).2.1 := by
  rw [setBpMask_true_obj]
  exact Distinct_withSlot obj bp addr hg h

theorem Distinct_add (probe : Probe) (obj : EC2DRV) (w : Wire) (addr : Nat)
    (h : Distinct obj) : Distinct (ec2_addBreakpoint probe obj w addr).2.1 := by
  obtain ⟨m, b, f⟩ := obj
  unfold ec2_addBreakpoint
  cases hg : getBP { mode := m, bpaddr := b, bp_flags := f } addr with
  | some bp => exact h
  | none =>
    have hnh := (getBP_none_iff _ addr).mp hg
    cases hn : getNextBPIdx { mode := m, bpaddr := b, bp_flags := f } with
    | none => exact h
    | some bp =>
      obtain ⟨_, hz⟩ := getNextBPIdx_some _ bp hn
      have hb := not_set_of_shift_zero _ bp bp hz (Nat.le_refl _)
      cases m with
      | AUTO => exact h
      | JTAG =>
        simp only
        split
        · exact Distinct_update _ bp addr hb h
        · exact Distinct_setBpMask_true probe _ _ bp addr hnh h
      | C2 => exact Distinct_setBpMask_true probe _ _ bp addr hnh h

theorem Distinct_remove (probe : Probe) (obj : EC2DRV) (w : Wire) (addr : Nat)
    (h : Distinct obj) : Distinct (ec2_removeBreakpoint probe obj w addr).2.1 := by
  unfold ec2_removeBreakpoint
  cases hg : getBP obj addr with
  | none => exact h
  | some bp =>
    simp only
    rw [setBpMask_false_obj]
    exact Distinct_withoutSlot obj bp h

theorem Distinct_clear_all (probe : Probe) (obj : EC2DRV) (w : Wire) :
    Distinct (ec2_clear_all_bp probe obj w).1 := by
  intro i j hi hj hsi _ _
  rw [clear_all_isBPSet] at hsi
  simp only [Bool.and_eq_true, decide_eq_true_eq] at hsi
  omega

/-- C10: the predicate that no two active slots hold the same address is kept
by `ec2_addBreakpoint`, `ec2_removeBreakpoint` and `ec2_clear_all_bp`, for every
address, every interface mode and every probe behaviour. -/
theorem distinct_preserved (probe : Probe) (obj : EC2DRV) (w : Wire) (addr : Nat)
    (h : Distinct obj) :
    Distinct (ec2_addBreakpoint probe obj w addr).2.1 ∧
      Distinct (ec2_removeBreakpoint probe obj w addr).2.1 ∧
      Distinct (ec2_clear_all_bp probe obj w).1 :=
  ⟨Distinct_add probe obj w addr h, Distinct_remove probe obj w addr h,
    Distinct_clear_all probe obj w⟩

theorem distinct_preserved_witness :
    Distinct { mode := EC2_MODE.JTAG, bpaddr := fun i => i, bp_flags := 3 } ∧
      Distinct (ec2_addBreakpoint (fun _ => none)
        { mode := EC2_MODE.JTAG, bpaddr := fun i => i, bp_flags := 3 } [] 1).2.1 ∧
      Distinct (ec2_removeBreakpoint (fun _ => none)
        { mode := EC2_MODE.JTAG, bpaddr := fun i => i, bp_flags := 3 } [] 1).2.1 ∧
      Distinct (ec2_clear_all_bp (fun _ => none)
        { mode := EC2_MODE.JTAG, bpaddr := fun i => i, bp_flags := 3 } []).1 :=
  have h : Distinct { mode := EC2_MODE.JTAG, bpaddr := fun i => i, bp_flags := 3 } :=
    fun _ _ _ _ _ _ he => he
  ⟨h, distinct_preserved (fun _ => none) _ [] 1 h⟩

/-- C4 (evaluation at the failing input): after four adds and the removal of
the first three, only slot 3 is active (mask 0x08); the address 5 is held by no
active slot and three slots are free, yet `ec2_addBreakpoint` returns failure
although the probe acknowledges every command. -/
theorem addBreakpoint_fails_with_free_slots :
    (runOps ackProbe (emptyTable EC2_MODE.JTAG, []) fillThenFree).1.bp_flags = 0x08 ∧
      ¬ Held (runOps ackProbe (emptyTable EC2_MODE.JTAG, []) fillThenFree).1 5 ∧
      ¬ Full (runOps ackProbe (emptyTable EC2_MODE.JTAG, []) fillThenFree).1 ∧
      (ec2_addBreakpoint ackProbe
        (runOps ackProbe (emptyTable EC2_MODE.JTAG, []) fillThenFree).1
        (runOps ackProbe (emptyTable EC2_MODE.JTAG, []) fillThenFree).2 5).1 = false := by
  refine ⟨by decide, (getBP_none_iff _ _).mp (by decide), ?_, by decide⟩
  intro h
  exact absurd (h 0 (by omega)) (by decide)

/-- C5 (evaluation at the failing input): after add(0x1234), add(0x1235),
remove(0x1234) slot 0 is inactive and slot 1 active; the next add succeeds but
activates slot 2 and stores the address there, leaving the lower free slot 0
inactive. -/
theorem addBreakpoint_skips_lowest_free_slot :
    isBPSet (runOps ackProbe (emptyTable EC2_MODE.C2, []) scenarioCStart).1 0 = false ∧
      isBPSet (runOps ackProbe (emptyTable EC2_MODE.C2, []) scenarioCStart).1 2 = false ∧
      (ec2_addBreakpoint ackProbe
        (runOps ackProbe (emptyTable EC2_MODE.C2, []) scenarioCStart).1
        (runOps ackProbe (emptyTable EC2_MODE.C2, []) scenarioCStart).2 0x1236).1 = true ∧
      isBPSet (ec2_addBreakpoint ackProbe
        (runOps ackProbe (emptyTable EC2_MODE.C2, []) scenarioCStart).1
        (runOps ackProbe (emptyTable EC2_MODE.C2, []) scenarioCStart).2 0x1236).2.1 0 = false ∧
      isBPSet (ec2_addBreakpoint ackProbe
        (runOps ackProbe (emptyTable EC2_MODE.C2, []) scenarioCStart).1
        (runOps ackProbe (emptyTable EC2_MODE.C2, []) scenarioCStart).2 0x1236).2.1 2 = true ∧
      (ec2_addBreakpoint ackProbe
        (runOps ackProbe (emptyTable EC2_MODE.C2, []) scenarioCStart).1
        (runOps ackProbe (emptyTable EC2_MODE.C2, []) scenarioCStart).2 0x1236).2.1.bpaddr 2
        = 0x1236 := by
  refine ⟨by decide, by decide, by decide, by decide, by decide, by decide⟩

/-- What `getNextBPIdx` computes: it returns the least index in 0..3 from which
upward the mask has no bit set, so no slot at or above it is active; it is the
slot just above the highest set bit, not the lowest free slot. -/
theorem getNextBPIdx_eq_some_iff (obj : EC2DRV) (bp : Nat) :
    getNextBPIdx obj = some bp ↔
      bp < 4 ∧ obj.bp_flags >>> bp = 0 ∧ ∀ j, j < bp → obj.bp_flags >>> j ≠ 0 := by
  rw [getNextBPIdx_eq, List.find?_range_eq_some]
  simp only [decide_eq_true_eq, List.mem_range, Bool.not_eq_true', decide_eq_false_iff_not]
  constructor
  · rintro ⟨h1, h2, h3⟩
    exact ⟨h2, h1, h3⟩
  · rintro ⟨h1, h2, h3⟩
    exact ⟨h2, h1, h3⟩

theorem trx_snd (probe : Probe) (w : Wire) (tx rx : List Nat) :
    (trx probe w tx rx).2 = w ++ [tx] := by
  unfold trx
  simp only
  split <;> rfl

/-- C12 (evaluation at the failing inputs): with a signed `char`, for the
one-byte range at 0x8000 the page loop hands the per-page routine page 0x80,
offset 0 and length 0x10001 instead of length 1 (offset + length exceeds 0x100
and the lengths do not sum to `len`), and for the 32-byte range at 0x7FF0,
which crosses into page 0x80, it makes no call at all. -/
theorem xdata_pages_wrong_from_0x8000 :
    xdata_jtag_calls true 0x8000 1 =
        some [{ page := 0x80, start := 0, len := 0x10001, ofs := 0 }] ∧
      xdata_jtag_calls true 0x7FF0 0x20 = some [] := by
  decide

/-- C13 (evaluation at the failing input): reading one byte at offset 1 of page
0 sends the block command `06 02 00 01`, whose address byte is 0, not the
requested offset 1. -/
theorem read_xdata_page_wrong_offset :
    ec2_read_xdata_page false ackProbe [] 0 1 1 =
        some ([0x0D], [[0x03, 0x02, 0x2E, 0x01], [0x03, 0x02, 0x31, 0x00],
          [0x06, 0x02, 0x00, 0x01]]) := by
  decide

/-- The parameter `start` of `ec2_read_xdata_page` only takes part in the
`assert`: whenever the call is allowed, the commands sent and the bytes
returned are those of a read at offset 0 of the page. -/
theorem read_xdata_page_ignores_start (isF020 : Bool) (probe : Probe) (w : Wire)
    (page start len : Nat) (h : start + len ≤ 0x100) :
    ec2_read_xdata_page isF020 probe w page start len =
      ec2_read_xdata_page isF020 probe w page 0 len := by
  unfold ec2_read_xdata_page
  rw [if_pos h, if_pos (show 0 + len ≤ 0x100 by omega)]

/-- C14 (evaluation at the failing input): writing the one byte 0xAA to address
1 sends the block `3F 01 00 01 BB`: the data byte is taken from `buf[1]`, the
byte after the caller's data, not from `buf[0]`. -/
theorem emif_write_wrong_data :
    ec2_write_xdata_c2_emif true ackProbe false []
        (fun i => if i = 0 then 0xAA else 0xBB) 1 1 2 =
      some (true, [[0x3f, 0x01, 0x00, 0x01, 0xBB]]) := by
  decide

theorem emif_write_loop_ok (charSigned : Bool) (probe : Probe) (ec3 : Bool) (buf : Nat → Nat)
    (len : Int) (fuel addr cnt : Nat) (w : Wire) (r : Bool × Wire)
    (h : emif_write_loop charSigned probe ec3 buf len fuel addr cnt true w = some r) :
    r.1 = true := by
  induction fuel generalizing addr cnt w with
  | zero => simp [emif_write_loop] at h
  | succ n ih =>
    unfold emif_write_loop at h
    split at h
    · simp only [Bool.true_or] at h
      exact ih _ _ _ h
    · cases h
      rfl

/-- Whatever the probe replies and whenever the call returns, the value
`ec2_write_xdata_c2_emif` returns is TRUE. -/
theorem emif_write_always_true (charSigned : Bool) (probe : Probe) (ec3 : Bool) (w : Wire)
    (buf : Nat → Nat) (start_addr len : Int) (fuel : Nat) (r : Bool × Wire)
    (h : ec2_write_xdata_c2_emif charSigned probe ec3 w buf start_addr len fuel = some r) :
    r.1 = true :=
  emif_write_loop_ok charSigned probe ec3 buf len fuel _ _ w r h

/-- C15 (evaluation at the failing input): with a probe that never answers, a
one-byte external-bus write sends its single block, gets no 0x0D and still
returns TRUE. -/
theorem emif_write_true_without_reply :
    ec2_write_xdata_c2_emif true silentProbe false [] (fun _ => 0x55) 0 1 2 =
      some (true, [[0x3f, 0x00, 0x00, 0x01, 0x55]]) := by
  decide

theorem read_raw_sfr_null_ok (mode : EC2_MODE) (ec3 : Bool) (heap : Heap) (probe : Probe)
    (w : Wire) (addr value0 : Nat) :
    ∃ w1, ec2_read_raw_sfr mode ec3 heap probe w addr false value0 = Outcome.abort w1 := by
  unfold ec2_read_raw_sfr
  split
  · cases ec2_read_sfr mode ec3 heap probe w [value0] addr with
    | ret buf w1 => exact ⟨w1, by simp⟩
    | abort w1 => exact ⟨w1, rfl⟩
  · exact ⟨w, by simp⟩

/-- On a device with paged SFRs neither `ec2_read_paged_sfr` nor
`ec2_write_paged_sfr` ever returns: the process stops in the read of the page
register, which stores through the null `ok` pointer. -/
theorem paged_sfr_never_returns (mode : EC2_MODE) (ec3 : Bool) (heap : Heap) (probe : Probe)
    (w : Wire) (page addr value value0 : Nat) (okPtr : Bool) :
    (∃ w1, ec2_read_paged_sfr mode ec3 true heap probe w page addr okPtr value0 =
        Outcome.abort w1) ∧
      ∃ w1, ec2_write_paged_sfr mode ec3 true heap probe w page addr value value0 =
        Outcome.abort w1 := by
  obtain ⟨w1, h1⟩ := read_raw_sfr_null_ok mode ec3 heap probe w SFR_PAGE_REG value0
  refine ⟨⟨w1, ?_⟩, ⟨w1, ?_⟩⟩
  · unfold ec2_read_paged_sfr
    simp [h1]
  · unfold ec2_write_paged_sfr
    simp [h1]

/-- On a device without paged SFRs the paged calls are the raw access to `addr`
alone: nothing is read from or written to the page register. -/
theorem unpaged_sfr_is_raw_access (mode : EC2_MODE) (ec3 : Bool) (heap : Heap) (probe : Probe)
    (w : Wire) (page addr value value0 : Nat) (okPtr : Bool) :
    ec2_read_paged_sfr mode ec3 false heap probe w page addr okPtr value0 =
        ec2_read_raw_sfr mode ec3 heap probe w addr okPtr value0 ∧
      ec2_write_paged_sfr mode ec3 false heap probe w page addr value value0 =
        ec2_write_raw_sfr mode probe w addr value := by
  constructor
  · unfold ec2_read_paged_sfr
    cases h : ec2_read_raw_sfr mode ec3 heap probe w addr okPtr value0 <;> simp [h]
  · unfold ec2_write_paged_sfr
    cases h : ec2_write_raw_sfr mode probe w addr value <;> simp [h]

/-- C16 (evaluation at the failing input): on a device with paged SFRs, in JTAG
mode with a probe that answers every read, `ec2_read_paged_sfr` and
`ec2_write_paged_sfr` of register 0x90 write the read of the page register
`02 02 84 01` and then stop at the store through the null `ok` pointer: the
access to 0x90 and the restoring write to 0x84 are never sent. -/
theorem paged_sfr_stops_after_page_read (heap : Heap) :
    ec2_read_paged_sfr EC2_MODE.JTAG false true heap (fun _ => some [0x00]) [] 0 0x90 true 0 =
        Outcome.abort [[0x02, 0x02, 0x84, 0x01]] ∧
      ec2_write_paged_sfr EC2_MODE.JTAG false true heap (fun _ => some [0x00]) [] 0 0x90 0x55 0 =
        Outcome.abort [[0x02, 0x02, 0x84, 0x01]] :=
  ⟨rfl, rfl⟩

/-- C17 (what the code does instead): the parameter `page` takes no part in
`ec2_read_paged_sfr` and `ec2_write_paged_sfr`; two calls that differ only in
`page` send the same commands and end the same way, so the page register is
never written with `page`. -/
theorem paged_sfr_ignores_page (mode : EC2_MODE) (ec3 has_paged_sfr : Bool) (heap : Heap)
    (probe : Probe) (w : Wire) (page page2 addr value value0 : Nat) (okPtr : Bool) :
    ec2_read_paged_sfr mode ec3 has_paged_sfr heap probe w page addr okPtr value0 =
        ec2_read_paged_sfr mode ec3 has_paged_sfr heap probe w page2 addr okPtr value0 ∧
      ec2_write_paged_sfr mode ec3 has_paged_sfr heap probe w page addr value value0 =
        ec2_write_paged_sfr mode ec3 has_paged_sfr heap probe w page2 addr value value0 :=
  ⟨rfl, rfl⟩

theorem shiftRight9 (m : Int) : m >>> (9 : Nat) = m / 512 := by
  rw [Int.shiftRight_eq_div_pow]
  rfl

theorem xdata_page_loop_eq (start_addr len : Int) (h0 : 0 ≤ start_addr) (h1 : 1 ≤ len)
    (h2 : start_addr + len ≤ 0x10000) (n : Nat) (page ofs : Int)
    (hp : start_addr / 256 ≤ page) (hn : page + n = (start_addr + len - 1) / 256 + 1)
    (ho : ofs = (if start_addr + len ≤ page * 256 then start_addr + len
      else if start_addr ≤ page * 256 then page * 256 else start_addr) - start_addr) :
    xdata_page_loop start_addr len (start_addr / 256) ((start_addr + len - 1) / 256) n page ofs =
      (List.range n).map fun (k : Nat) => pageSegment start_addr len (page + k) := by
  induction n generalizing page ofs with
  | zero => rfl
  | succ n ih =>
    rw [List.range_succ_eq_map, List.map_cons, List.map_map]
    unfold xdata_page_loop
    simp only [toU32, toI32]
    have hstep : ∀ k : Nat, page + ((k + 1 : Nat) : Int) = page + 1 + (k : Int) := by
      intro k; push_cast; ring
    congr 1
    · unfold pageSegment
      simp only [Nat.cast_zero, add_zero, XSeg.mk.injEq]
      subst ho
      refine ⟨by omega, ?_, ?_, ?_⟩
      · split_ifs <;> omega
      · split_ifs <;> omega
      · split_ifs <;> omega
    · rw [ih (page + 1) _ (by omega) (by push_cast at hn; omega) ?_]
      · apply List.map_congr_left
        intro k _
        show pageSegment start_addr len (page + 1 + (k : Int)) = _
        rw [Function.comp_apply, hstep]
      · subst ho
        split_ifs <;> omega

/-- Where the page numbers survive the conversion to `char`, that is with an
unsigned `char` or for ranges that end at or below 0x8000, the calls of the
per-page routine are the in-page segments of the range in ascending order. -/
theorem xdata_pages_ok (charSigned : Bool) (start_addr len : Int) (h0 : 0 ≤ start_addr)
    (h1 : 1 ≤ len) (h2 : start_addr + len ≤ 0x10000)
    (h3 : charSigned = false ∨ start_addr + len ≤ 0x8000) :
    xdata_jtag_calls charSigned start_addr len = some (pageSegments start_addr len) := by
  have e1 : toChar charSigned ((start_addr / 256) % 256) = start_addr / 256 := by
    unfold toChar
    rcases h3 with h3 | h3
    · simp only [h3, Bool.false_eq_true, false_and, if_false]; omega
    · rw [if_neg (by omega)]; omega
  have e2 : toChar charSigned (((start_addr + len - 1) / 256) % 256) =
      (start_addr + len - 1) / 256 := by
    unfold toChar
    rcases h3 with h3 | h3
    · simp only [h3, Bool.false_eq_true, false_and, if_false]; omega
    · rw [if_neg (by omega)]; omega
  unfold xdata_jtag_calls pageSegments
  simp only [e1, e2]
  rw [if_pos ⟨h0, by omega, h2⟩]
  congr 1
  exact xdata_page_loop_eq start_addr len h0 h1 h2 _ _ 0 (le_refl _) (by omega)
    (by split_ifs <;> omega)

theorem pageSegment_sum (start_addr len : Int) (h1 : 1 ≤ len) (m : Nat)
    (hm : start_addr / 256 + m ≤ (start_addr + len - 1) / 256 + 1) :
    ((List.range m).map fun (k : Nat) =>
        (pageSegment start_addr len (start_addr / 256 + k)).len).sum =
      (if start_addr + len ≤ (start_addr / 256 + m) * 256 then start_addr + len
        else if start_addr ≤ (start_addr / 256 + m) * 256 then (start_addr / 256 + m) * 256
        else start_addr) - start_addr := by
  induction m with
  | zero =>
    simp only [List.range_zero, List.map_nil, List.sum_nil, Nat.cast_zero, add_zero]
    split_ifs <;> omega
  | succ m ih =>
    rw [List.range_succ, List.map_append, List.sum_append, ih (by push_cast at hm; omega)]
    simp only [List.map_cons, List.map_nil, List.sum_cons, List.sum_nil, add_zero, pageSegment]
    push_cast
    push_cast at hm
    split_ifs <;> omega

/-- The segments of `pageSegments` are what the claim asks for: each lies in
the page it names (offset + length at most 0x100, page = address >> 8), inside
the requested range, and the lengths sum to `len`. -/
theorem pageSegments_props (start_addr len : Int) (h1 : 1 ≤ len) :
    (∀ s ∈ pageSegments start_addr len,
      0 ≤ s.start ∧ 1 ≤ s.len ∧ s.start + s.len ≤ 0x100 ∧
        (s.page * 256 + s.start) / 256 = s.page ∧ start_addr ≤ s.page * 256 + s.start ∧
        s.page * 256 + s.start + s.len ≤ start_addr + len) ∧
      ((pageSegments start_addr len).map (·.len)).sum = len := by
  constructor
  · intro s hs
    unfold pageSegments at hs
    rw [List.mem_map] at hs
    obtain ⟨k, hk, rfl⟩ := hs
    rw [List.mem_range] at hk
    unfold pageSegment
    simp only
    split_ifs <;> omega
  · unfold pageSegments
    rw [List.map_map]
    have h := pageSegment_sum start_addr len h1
      ((start_addr + len - 1) / 256 - start_addr / 256 + 1).toNat (by omega)
    have e : ((fun (x : XSeg) => x.len) ∘ fun (k : Nat) =>
        pageSegment start_addr len (start_addr / 256 + k)) =
        fun (k : Nat) => (pageSegment start_addr len (start_addr / 256 + k)).len := rfl
    rw [e, h]
    split_ifs <;> omega

theorem land_FE00 (a : Nat) (h : a < 65536) : a &&& 0xFE00 = 512 * (a / 512) := by
  apply Nat.eq_of_testBit_eq
  intro i
  have e1 : (0xFE00 : Nat) = 2 ^ 9 * (2 ^ 7 - 1) := by decide
  have e2 : (512 : Nat) = 2 ^ 9 := by decide
  rw [Nat.testBit_and, e1, e2, Nat.testBit_mul_pow_two, Nat.testBit_mul_pow_two,
    Nat.testBit_two_pow_sub_one, ← Nat.shiftRight_eq_div_pow, Nat.testBit_shiftRight]
  by_cases h9 : 9 ≤ i
  · by_cases h16 : i < 16
    · have : i - 9 < 7 := by omega
      simp [h9, this, Nat.add_sub_cancel' h9, Nat.sub_add_cancel h9]
    · have hb : a.testBit i = false := by
        apply Nat.testBit_lt_two_pow
        calc a < 2 ^ 16 := h
          _ ≤ 2 ^ i := Nat.pow_le_pow_right (by decide) (by omega)
      have : ¬ i - 9 < 7 := by omega
      simp [h9, this, hb, Nat.sub_add_cancel h9]
  · simp [h9]

theorem set_flash_addr_sector (probe : Probe) (w : Wire) (q : Nat) (hq : q < 128) :
    set_flash_addr_jtag probe w ((512 * q : Nat) : Int) =
      w ++ [[0x0D, 0x05, 0x84, 0x10, 0x00, 2 * q, 0x00]] := by
  unfold set_flash_addr_jtag toI16
  rw [trx_snd]
  have e1 : ((if (((512 * q : Nat) : Int)) % 65536 ≥ 32768 then ((512 * q : Nat) : Int) % 65536 - 65536
      else ((512 * q : Nat) : Int) % 65536) % 256).toNat = 0 := by
    push_cast
    split_ifs <;> omega
  have e2 : ((if (((512 * q : Nat) : Int)) % 65536 ≥ 32768 then ((512 * q : Nat) : Int) % 65536 - 65536
      else ((512 * q : Nat) : Int) % 65536) / 256 % 256).toNat = 2 * q := by
    push_cast
    split_ifs <;> omega
  simp only [e1, e2]

/-- The nine commands `ec2_erase_flash_sector` sends in JTAG mode around the
load of the flash address register with the base of sector `q`. -/
theorem erase_sector_jtag (probe : Probe) (w : Wire) (a : Int) (h0 : 0 ≤ a) (h1 : a ≤ 0xFFFF) :
    ec2_erase_flash_sector EC2_MODE.JTAG probe w a =
      Outcome.ret () (w ++ [[0x02, 0x02, 0xB6, 0x01], [0x02, 0x02, 0xB2, 0x01],
        [0x03, 0x02, 0xB2, 0x04], [0x0B, 0x02, 0x04, 0x00],
        [0x0D, 0x05, 0x82, 0x08, 0x20, 0x00, 0x00],
        [0x0D, 0x05, 0x84, 0x10, 0x00, 2 * (a / 512).toNat, 0x00],
        [0x0F, 0x01, 0xA5], [0x0B, 0x02, 0x01, 0x00], [0x03, 0x02, 0xB6, 0x80],
        [0x03, 0x02, 0xB2, 0x14]]) := by
  unfold ec2_erase_flash_sector
  simp only
  rw [if_pos ⟨h0, h1⟩]
  have e : a.toNat &&& 0xFE00 = 512 * (a / 512).toNat := by
    rw [land_FE00 _ (by omega)]
    congr 1
    omega
  simp only [e, trx_snd, set_flash_addr_sector probe _ (a / 512).toNat (by omega)]
  simp

theorem erase_sector_c2 (probe : Probe) (w : Wire) (a : Int) (h0 : 0 ≤ a) (h1 : a ≤ 0xFFFF) :
    ec2_erase_flash_sector EC2_MODE.C2 probe w a =
      Outcome.ret () (w ++ [[0x30, (a / 512).toNat]]) := by
  unfold ec2_erase_flash_sector
  simp only [trx_snd, shiftRight9]
  have e : (a / 512 % 256).toNat = (a / 512).toNat := by
    congr 1
    omega
  rw [e]

/-- C23: for every address a in 0..0xFFFF `ec2_erase_flash_sector(a)` targets
the 512-byte-aligned sector that contains a. In JTAG mode the flash address
register is loaded with a & 0xFE00, the base 512 * (a / 512) of that sector
(low byte 0, high byte 2 * (a / 512)); in 2-wire mode the command is 0x30
followed by the sector number a >> 9; so two addresses of one sector give the
same command sequence, whatever the probe replies. -/
theorem erase_sector_targets (probe : Probe) (w : Wire) (a : Int) (h0 : 0 ≤ a)
    (h1 : a ≤ 0xFFFF) :
    (((a.toNat &&& 0xFE00 : Nat) : Int) = 512 * (a / 512) ∧ 512 * (a / 512) ≤ a ∧
      a < 512 * (a / 512) + 512) ∧
    ec2_erase_flash_sector EC2_MODE.JTAG probe w a =
      Outcome.ret () (w ++ [[0x02, 0x02, 0xB6, 0x01], [0x02, 0x02, 0xB2, 0x01],
        [0x03, 0x02, 0xB2, 0x04], [0x0B, 0x02, 0x04, 0x00],
        [0x0D, 0x05, 0x82, 0x08, 0x20, 0x00, 0x00],
        [0x0D, 0x05, 0x84, 0x10, 0x00, 2 * (a / 512).toNat, 0x00],
        [0x0F, 0x01, 0xA5], [0x0B, 0x02, 0x01, 0x00], [0x03, 0x02, 0xB6, 0x80],
        [0x03, 0x02, 0xB2, 0x14]]) ∧
    ec2_erase_flash_sector EC2_MODE.C2 probe w a =
      Outcome.ret () (w ++ [[0x30, (a / 512).toNat]]) ∧
    ∀ (mode : EC2_MODE) (probe2 : Probe) (b : Int), 0 ≤ b → b ≤ 0xFFFF → a / 512 = b / 512 →
      ec2_erase_flash_sector mode probe w a = ec2_erase_flash_sector mode probe2 w b := by
  refine ⟨⟨?_, by omega, by omega⟩, erase_sector_jtag probe w a h0 h1,
    erase_sector_c2 probe w a h0 h1, ?_⟩
  · rw [land_FE00 _ (by omega)]
    push_cast
    omega
  · intro mode probe2 b hb0 hb1 hab
    cases mode with
    | AUTO => rfl
    | JTAG => rw [erase_sector_jtag probe w a h0 h1, erase_sector_jtag probe2 w b hb0 hb1, hab]
    | C2 => rw [erase_sector_c2 probe w a h0 h1, erase_sector_c2 probe2 w b hb0 hb1, hab]

theorem erase_sector_targets_witness :
    ((0 : Int) ≤ 0x1567 ∧ (0x1567 : Int) ≤ 0xFFFF) ∧
      ec2_erase_flash_sector EC2_MODE.C2 ackProbe [] 0x1567 =
        Outcome.ret () ([] ++ [[0x30, ((0x1567 : Int) / 512).toNat]]) :=
  ⟨⟨by decide, by decide⟩,
   (erase_sector_targets ackProbe [] 0x1567 (by decide) (by decide)).2.2.1⟩

theorem flash_c2_chunk_eq (buf : Nat → Nat) (start_addr len k : Nat) :
    flash_c2_chunk buf start_addr len k =
      [0x2f, (start_addr + 8 * k) % 256, (start_addr + 8 * k) / 256 % 256, min 8 (len - 8 * k)] ++
        (List.range (min 8 (len - 8 * k))).map fun j => buf (8 * k + j) := by
  unfold flash_c2_chunk
  have e : (if len - 8 * k < 8 then len - 8 * k else 8) = min 8 (len - 8 * k) := by
    split_ifs <;> omega
  simp only [e, MemRemap.land_FF, Nat.shiftRight_eq_div_pow]

theorem pc_join (a : Nat) (h : a < 65536) : (((a / 256) <<< 8) ||| (a % 256)) % 65536 = a := by
  have e : (a / 256) <<< 8 = 2 ^ 8 * (a / 256) := by
    rw [Nat.shiftLeft_eq, Nat.mul_comm]
  rw [e, ← Nat.mul_add_lt_is_or (Nat.mod_lt a (by decide))]
  omega

/-- C30: for every 16-bit address a and both interface modes, `ec2_set_pc(a)`
sends the low byte a % 256 to register 0x20 and the high byte a / 256 to
register 0x21, and `ec2_read_pc`, when its read of register 0x20 is answered
with these two bytes, returns a. -/
theorem set_pc_read_pc (probe probe2 : Probe) (w w2 : Wire) (a : Nat) (buf0 : Nat × Nat)
    (h : a < 65536) :
    ec2_set_pc EC2_MODE.JTAG probe w a =
        w ++ [[0x03, 0x02, 0x20, a % 256], [0x03, 0x02, 0x21, a / 256]] ∧
      ec2_set_pc EC2_MODE.C2 probe w a =
        w ++ [[0x29, 0x20, 0x01, a % 256], [0x29, 0x21, 0x01, a / 256]] ∧
      (probe2 (w2 ++ [[0x02, 0x02, 0x20, 0x02]]) = some [a % 256, a / 256] →
        ec2_read_pc EC2_MODE.JTAG probe2 w2 buf0 = (a, w2 ++ [[0x02, 0x02, 0x20, 0x02]])) ∧
      (probe2 (w2 ++ [[0x28, 0x20, 0x02]]) = some [a % 256, a / 256] →
        ec2_read_pc EC2_MODE.C2 probe2 w2 buf0 = (a, w2 ++ [[0x28, 0x20, 0x02]])) := by
  have e1 : a &&& 0xFF = a % 256 := MemRemap.land_FF a
  have e2 : (a >>> 8) &&& 0xFF = a / 256 := by
    rw [MemRemap.land_FF, Nat.shiftRight_eq_div_pow]
    have : a / 2 ^ 8 = a / 256 := rfl
    omega
  have e3 : (a >>> 8) % 256 = a / 256 := by
    rw [Nat.shiftRight_eq_div_pow]
    have : a / 2 ^ 8 = a / 256 := rfl
    omega
  refine ⟨?_, ?_, ?_, ?_⟩
  · unfold ec2_set_pc
    simp only [trx_snd, e1, e2, List.append_assoc, List.cons_append, List.nil_append]
  · unfold ec2_set_pc
    simp only [trx_snd, e1, e3, List.append_assoc, List.cons_append, List.nil_append]
  · intro hp
    unfold ec2_read_pc
    simp only [write_port, hp, read_port]
    simp [pc_join a h]
  · intro hp
    unfold ec2_read_pc
    simp only [write_port, hp, read_port]
    simp [pc_join a h]

theorem set_pc_read_pc_witness :
    (0x1234 : Nat) < 65536 ∧
      ec2_set_pc EC2_MODE.C2 ackProbe [] 0x1234 =
        [] ++ [[0x29, 0x20, 0x01, 0x1234 % 256], [0x29, 0x21, 0x01, 0x1234 / 256]] :=
  ⟨by decide, (set_pc_read_pc ackProbe ackProbe [] [] 0x1234 (0, 0) (by decide)).2.1⟩

/-- C22: for `len ≥ 1` and `start_addr + len ≤ 0x10000` the raw write called by
`ec2_write_flash_auto_keep` gets the address `B = (start_addr>>9)*512` of the
first spanned sector, the length 512 times the number `cnt` of spanned sectors
and an image that at offset `k` is `buf[k - (start_addr - B)]` inside the
caller's range and the byte read back otherwise; what the raw write returns is
what the call returns. There is at least one sector; the `cnt` sectors from `B`
cover the range, fit in 64 KiB and the last one is touched. -/
theorem auto_keep_image {σ : Type} (rd : σ → Int → Int → σ × (Nat → Nat)) (er : σ → Int → σ)
    (wr : σ → (Nat → Nat) → Int → Int → Bool × σ) (s : σ) (buf : Nat → Nat)
    (start_addr len : Int) (h0 : 0 ≤ start_addr) (hl : 1 ≤ len)
    (hb : start_addr + len ≤ 0x10000) :
    ∃ (s2 : σ) (cnt : Int),
      ec2_write_flash_auto_keep rd er wr s buf start_addr len =
        wr s2
          (fun k =>
            if start_addr - (start_addr >>> (9 : Nat)) * 512 ≤ k ∧
                (k : Int) < start_addr - (start_addr >>> (9 : Nat)) * 512 + len then
              buf (k - (start_addr - (start_addr >>> (9 : Nat)) * 512)).toNat
            else (rd s ((start_addr >>> (9 : Nat)) * 512) (cnt * 512)).2 k)
          ((start_addr >>> (9 : Nat)) * 512) (cnt * 512) ∧
      1 ≤ cnt ∧ 0 ≤ (start_addr >>> (9 : Nat)) * 512 ∧
      (start_addr >>> (9 : Nat)) * 512 ≤ start_addr ∧
      start_addr < (start_addr >>> (9 : Nat)) * 512 + 512 ∧
      (start_addr >>> (9 : Nat)) * 512 + (cnt - 1) * 512 < start_addr + len ∧
      start_addr + len ≤ (start_addr >>> (9 : Nat)) * 512 + cnt * 512 ∧
      (start_addr >>> (9 : Nat)) * 512 + cnt * 512 ≤ 0x10000 := by
  unfold ec2_write_flash_auto_keep
  simp only [shiftRight9]
  refine ⟨_, (start_addr + len - 1) / 512 - start_addr / 512 + 1, rfl, ?_⟩
  omega

theorem auto_keep_image_witness :
    ∃ (s2 : List KeepCall) (cnt : Int),
      ec2_write_flash_auto_keep (fun l a n => (l ++ [KeepCall.read_flash a n], fun _ => 0))
          (fun l a => l ++ [KeepCall.erase_sector a])
          (fun l img a n => (true, l ++ [KeepCall.write_flash img a n])) [] (fun _ => 7)
          0x300 0x400 =
        (fun l img a n => (true, l ++ [KeepCall.write_flash img a n])) s2
          (fun k =>
            if (0x300 : Int) - ((0x300 : Int) >>> (9 : Nat)) * 512 ≤ k ∧
                (k : Int) < 0x300 - ((0x300 : Int) >>> (9 : Nat)) * 512 + 0x400 then
              (fun _ => 7) (k - ((0x300 : Int) - ((0x300 : Int) >>> (9 : Nat)) * 512)).toNat
            else ((fun (l : List KeepCall) a n => (l ++ [KeepCall.read_flash a n], fun (_ : Nat) => 0))
              [] (((0x300 : Int) >>> (9 : Nat)) * 512) (cnt * 512)).2 k)
          (((0x300 : Int) >>> (9 : Nat)) * 512) (cnt * 512) ∧
      1 ≤ cnt ∧ 0 ≤ ((0x300 : Int) >>> (9 : Nat)) * 512 ∧
      ((0x300 : Int) >>> (9 : Nat)) * 512 ≤ 0x300 ∧
      (0x300 : Int) < ((0x300 : Int) >>> (9 : Nat)) * 512 + 512 ∧
      ((0x300 : Int) >>> (9 : Nat)) * 512 + (cnt - 1) * 512 < 0x300 + 0x400 ∧
      (0x300 : Int) + 0x400 ≤ ((0x300 : Int) >>> (9 : Nat)) * 512 + cnt * 512 ∧
      ((0x300 : Int) >>> (9 : Nat)) * 512 + cnt * 512 ≤ 0x10000 :=
  auto_keep_image (fun l a n => (l ++ [KeepCall.read_flash a n], fun _ => 0))
    (fun l a => l ++ [KeepCall.erase_sector a])
    (fun l img a n => (true, l ++ [KeepCall.write_flash img a n])) [] (fun _ => 7)
    0x300 0x400 (by decide) (by decide) (by decide)

/-- C25: in 2-wire mode `ec2_erase_flash` hands `write_port` a command of four
bytes, 0x3C, the 0 that ends the literal and the two bytes after it, not the
single byte 0x3C. When the value of `EC3` is zero this is the only command
sent; when it is 1, a serial probe with a 2-wire target gets it between two
reconnections and the one-byte command 0x3C is never sent. -/
theorem erase_flash_c2_sends_four_bytes :
    (∀ fuel host charSigned probe buf0 lit lock_type lock read_lock a w log,
      ec2_erase_flash 0 fuel host charSigned probe buf0 lit lock_type lock read_lock
          { mode := EC2_MODE.C2, dbg_adaptor := a, w := w, log := log } =
        some (Exec.ret ()
          { mode := EC2_MODE.C2, dbg_adaptor := DBG_ADAPTOR.EC3,
            w := w ++ [[0x3C, 0x00, lit 0, lit 1]], log := log })) ∧
    ec2_erase_flash 1 1 serialHost true c2TargetProbe [0, 0, 0, 0, 0, 0]
        (fun k => if k = 0 then 5 else 7) FLASH_LOCK_TYPE.FLT_SINGLE 0 0
        { mode := EC2_MODE.C2, dbg_adaptor := DBG_ADAPTOR.EC2, w := [],
          log := [PortEv.open_port true] } =
      some (Exec.ret ()
        { mode := EC2_MODE.C2, dbg_adaptor := DBG_ADAPTOR.EC2,
          w := [[0x21], [0x55], [0, 0, 0], [1, 3, 0], [6, 0, 0], [0x20], [0x22], [0x23],
                [0x2E, 0, 0, 1], [0x2E, 0xFF, 0x3D, 1],
                [0x3C, 0, 5, 7],
                [0x21], [0x55], [0, 0, 0], [1, 3, 0], [6, 0, 0], [0x20], [0x22], [0x23],
                [0x2E, 0, 0, 1], [0x2E, 0xFF, 0x3D, 1]],
          log := [PortEv.open_port true, PortEv.usb_close, PortEv.open_port true,
                  PortEv.usb_close, PortEv.open_port true] }) := by
  refine ⟨?_, by decide⟩
  intro fuel host charSigned probe buf0 lit lock_type lock read_lock a w log
  simp [ec2_erase_flash, write_port]

/-- C26: on a serial probe in 2-wire mode `ec2_erase_flash` does not leave the
session alone. When the value of `EC3` is 1 the erase command is bracketed by
two disconnect/reconnect pairs although the probe is an EC2, and the
disconnects take the USB path (command 0x21); when it is 0 nothing is
bracketed, for a USB probe either, and the field `dbg_adaptor` of the serial
session is EC3 after the call. -/
theorem erase_flash_c2_serial_probe :
    ec2_erase_flash 1 1 serialHost true c2TargetProbe [0, 0, 0, 0, 0, 0] (fun _ => 0)
        FLASH_LOCK_TYPE.FLT_SINGLE 0 0
        { mode := EC2_MODE.C2, dbg_adaptor := DBG_ADAPTOR.EC2, w := [],
          log := [PortEv.open_port true] } =
      some (Exec.ret ()
        { mode := EC2_MODE.C2, dbg_adaptor := DBG_ADAPTOR.EC2,
          w := [[0x21], [0x55], [0, 0, 0], [1, 3, 0], [6, 0, 0], [0x20], [0x22], [0x23],
                [0x2E, 0, 0, 1], [0x2E, 0xFF, 0x3D, 1],
                [0x3C, 0, 0, 0],
                [0x21], [0x55], [0, 0, 0], [1, 3, 0], [6, 0, 0], [0x20], [0x22], [0x23],
                [0x2E, 0, 0, 1], [0x2E, 0xFF, 0x3D, 1]],
          log := [PortEv.open_port true, PortEv.usb_close, PortEv.open_port true,
                  PortEv.usb_close, PortEv.open_port true] }) ∧
    ec2_erase_flash 0 1 serialHost true c2TargetProbe [0, 0, 0, 0, 0, 0] (fun _ => 0)
        FLASH_LOCK_TYPE.FLT_SINGLE 0 0
        { mode := EC2_MODE.C2, dbg_adaptor := DBG_ADAPTOR.EC2, w := [],
          log := [PortEv.open_port true] } =
      some (Exec.ret ()
        { mode := EC2_MODE.C2, dbg_adaptor := DBG_ADAPTOR.EC3, w := [[0x3C, 0, 0, 0]],
          log := [PortEv.open_port true] }) ∧
    ec2_erase_flash 0 1 { usbName := true, usbForm := true, open_port := fun _ => true } true
        c2TargetProbe [0, 0, 0, 0, 0, 0] (fun _ => 0) FLASH_LOCK_TYPE.FLT_SINGLE 0 0
        { mode := EC2_MODE.C2, dbg_adaptor := DBG_ADAPTOR.EC3, w := [],
          log := [PortEv.open_port true] } =
      some (Exec.ret ()
        { mode := EC2_MODE.C2, dbg_adaptor := DBG_ADAPTOR.EC3, w := [[0x3C, 0, 0, 0]],
          log := [PortEv.open_port true] }) := by
  refine ⟨by decide, by decide, by decide⟩

/-- C28: `ec2_connect` in AUTO mode reports TRUE after a failed JTAG
reconnection. On a serial probe whose 2-wire device id reads FF FF the session
is closed and `ec2_connect` runs again with JTAG selected; that second run
returns FALSE when the probe no longer answers the handshake and when the port
no longer opens, and the first run returns TRUE all the same. It also returns
TRUE when the handshake is answered and no JTAG query is. -/
theorem connect_auto_reports_success :
    device_id true EC2_MODE.C2 (noTargetProbe false)
        [[0x55], [0, 0, 0], [1, 3, 0], [6, 0, 0], [0x20]] [0, 0, 0, 0, 0, 0] =
      (0xFFFF, [[0x55], [0, 0, 0], [1, 3, 0], [6, 0, 0], [0x20], [0x22]]) ∧
    ec2_connect 1 serialHost true (noTargetProbe false) [0, 0, 0, 0, 0, 0]
        { mode := EC2_MODE.JTAG, dbg_adaptor := DBG_ADAPTOR.EC2,
          w := [[0x55], [0, 0, 0], [1, 3, 0], [6, 0, 0], [0x20], [0x22]],
          log := [PortEv.open_port true, PortEv.close_port] } =
      some (Exec.ret false
        { mode := EC2_MODE.JTAG, dbg_adaptor := DBG_ADAPTOR.EC2,
          w := [[0x55], [0, 0, 0], [1, 3, 0], [6, 0, 0], [0x20], [0x22], [0x55]],
          log := [PortEv.open_port true, PortEv.close_port, PortEv.open_port true] }) ∧
    ec2_connect 2 serialHost true (noTargetProbe false) [0, 0, 0, 0, 0, 0]
        (freshLink EC2_MODE.AUTO) =
      some (Exec.ret true
        { mode := EC2_MODE.JTAG, dbg_adaptor := DBG_ADAPTOR.EC2,
          w := [[0x55], [0, 0, 0], [1, 3, 0], [6, 0, 0], [0x20], [0x22], [0x55]],
          log := [PortEv.open_port true, PortEv.close_port, PortEv.open_port true] }) ∧
    ec2_connect 1 serialHostOnce true (noTargetProbe true) [0, 0, 0, 0, 0, 0]
        { mode := EC2_MODE.JTAG, dbg_adaptor := DBG_ADAPTOR.EC2,
          w := [[0x55], [0, 0, 0], [1, 3, 0], [6, 0, 0], [0x20], [0x22]],
          log := [PortEv.open_port true, PortEv.close_port] } =
      some (Exec.ret false
        { mode := EC2_MODE.JTAG, dbg_adaptor := DBG_ADAPTOR.EC2,
          w := [[0x55], [0, 0, 0], [1, 3, 0], [6, 0, 0], [0x20], [0x22]],
          log := [PortEv.open_port true, PortEv.close_port, PortEv.open_port false] }) ∧
    ec2_connect 2 serialHostOnce true (noTargetProbe true) [0, 0, 0, 0, 0, 0]
        (freshLink EC2_MODE.AUTO) =
      some (Exec.ret true
        { mode := EC2_MODE.JTAG, dbg_adaptor := DBG_ADAPTOR.EC2,
          w := [[0x55], [0, 0, 0], [1, 3, 0], [6, 0, 0], [0x20], [0x22]],
          log := [PortEv.open_port true, PortEv.close_port, PortEv.open_port false] }) ∧
    ec2_connect 2 serialHost true (noTargetProbe true) [0, 0, 0, 0, 0, 0]
        (freshLink EC2_MODE.AUTO) =
      some (Exec.ret true
        { mode := EC2_MODE.JTAG, dbg_adaptor := DBG_ADAPTOR.EC2,
          w := [[0x55], [0, 0, 0], [1, 3, 0], [6, 0, 0], [0x20], [0x22],
                [0x55], [0, 0, 0], [1, 3, 0], [6, 0, 0],
                [0x04], [0x1A, 6, 0, 0, 0, 0, 0, 0], [0x0B, 2, 2, 0], [0x14, 2, 0x10, 0],
                [0x16, 2, 1, 0x20], [0x14, 2, 0x10, 0], [0x16, 2, 0x81, 0x20],
                [0x14, 2, 0x10, 0], [0x16, 2, 0x81, 0x30], [0x15, 2, 8, 0], [0x16, 1, 0xE0],
                [0x0B, 2, 1, 0], [0x13, 0], [0x03, 2, 0, 0],
                [0x0B, 2, 2, 0], [0x0B, 2, 1, 0], [0x10, 0], [0x0C, 2, 0x80, 0x12]],
          log := [PortEv.open_port true, PortEv.close_port, PortEv.open_port true] }) := by
  refine ⟨by decide, by decide, by decide, by decide, by decide, by decide⟩

theorem c2cmd_low (reg a : Nat) (hr : reg < 256) :
    c2cmd reg (a &&& 0xff) = [0x29, reg, 0x01, a &&& 0xFF] := by
  unfold c2cmd
  rw [Nat.mod_eq_of_lt hr, MemRemap.land_FF, Nat.mod_mod]

theorem c2cmd_high (reg a : Nat) (hr : reg < 256) (ha : a < 65536) :
    c2cmd reg ((a >>> 8) ||| 0x80) = [0x29, reg, 0x01, (a >>> 8) ||| 0x80] := by
  unfold c2cmd
  have h1 : a >>> 8 < 2 ^ 8 := by
    rw [Nat.shiftRight_eq_div_pow]
    have : a / 2 ^ 8 = a / 256 := rfl
    omega
  have h2 : (a >>> 8) ||| 0x80 < 256 := Nat.or_lt_two_pow h1 (by decide)
  rw [Nat.mod_eq_of_lt hr, Nat.mod_eq_of_lt h2]

theorem write_bp_c2_slot_eq (probe : Probe) (obj : EC2DRV) (w : Wire) (i : Nat) (hi : i < 4)
    (h : obj.bpaddr i < 65536) :
    write_bp_c2_slot probe obj w i =
      w ++ (if isBPSet obj i then
        [[0x29, [0x85, 0xAB, 0xCE, 0xD2].getD i 0, 0x01, obj.bpaddr i &&& 0xFF],
         [0x29, [0x85, 0xAB, 0xCE, 0xD2].getD i 0 + 1, 0x01, (obj.bpaddr i >>> 8) ||| 0x80]]
        else []) := by
  have hr : bpregloc i < 255 := by
    unfold bpregloc
    interval_cases i <;> decide
  have hb : bpregloc i = [0x85, 0xAB, 0xCE, 0xD2].getD i 0 := rfl
  unfold write_bp_c2_slot
  by_cases hs : isBPSet obj i
  · simp only [hs, if_true, trx_snd]
    rw [c2cmd_low _ _ (by omega), c2cmd_high _ _ (by omega) h, hb]
    simp
  · simp [hs]

/-- C32: in 2-wire mode, for every table whose addresses are 16-bit values,
`write_breakpoints_c2` sends the four clears 29 86 01 00, 29 AC 01 00,
29 CF 01 00, 29 D3 01 00 and then, for each active slot i in ascending order,
29 R_i 01 (addr_i & 0xFF) and 29 (R_i + 1) 01 ((addr_i >> 8) | 0x80) with
R = [0x85, 0xAB, 0xCE, 0xD2]: 4 + 2 * (number of active slots) commands,
whatever the probe replies. -/
theorem write_breakpoints_c2_sequence (probe : Probe) (obj : EC2DRV) (w : Wire)
    (h : ∀ i, i < 4 → obj.bpaddr i < 65536) :
    write_breakpoints_c2 probe obj w =
      w ++ [[0x29, 0x86, 0x01, 0x00], [0x29, 0xAC, 0x01, 0x00], [0x29, 0xCF, 0x01, 0x00],
            [0x29, 0xD3, 0x01, 0x00]] ++
        (((List.range 4).filter (isBPSet obj)).map fun i =>
          [[0x29, [0x85, 0xAB, 0xCE, 0xD2].getD i 0, 0x01, obj.bpaddr i &&& 0xFF],
           [0x29, [0x85, 0xAB, 0xCE, 0xD2].getD i 0 + 1, 0x01,
             (obj.bpaddr i >>> 8) ||| 0x80]]).flatten ∧
    (write_breakpoints_c2 probe obj w).length =
      w.length + (4 + 2 * ((List.range 4).filter (isBPSet obj)).length) := by
  have e : write_breakpoints_c2 probe obj w =
      w ++ [[0x29, 0x86, 0x01, 0x00], [0x29, 0xAC, 0x01, 0x00], [0x29, 0xCF, 0x01, 0x00],
            [0x29, 0xD3, 0x01, 0x00]] ++
        (((List.range 4).filter (isBPSet obj)).map fun i =>
          [[0x29, [0x85, 0xAB, 0xCE, 0xD2].getD i 0, 0x01, obj.bpaddr i &&& 0xFF],
           [0x29, [0x85, 0xAB, 0xCE, 0xD2].getD i 0 + 1, 0x01,
             (obj.bpaddr i >>> 8) ||| 0x80]]).flatten := by
    unfold write_breakpoints_c2
    have hr : List.range 4 = [0, 1, 2, 3] := rfl
    simp only [hr, List.foldl_cons, List.foldl_nil, trx_snd]
    rw [write_bp_c2_slot_eq _ _ _ 0 (by decide) (h 0 (by decide)),
      write_bp_c2_slot_eq _ _ _ 1 (by decide) (h 1 (by decide)),
      write_bp_c2_slot_eq _ _ _ 2 (by decide) (h 2 (by decide)),
      write_bp_c2_slot_eq _ _ _ 3 (by decide) (h 3 (by decide))]
    cases h0 : isBPSet obj 0 <;> cases h1 : isBPSet obj 1 <;> cases h2 : isBPSet obj 2 <;>
      cases h3 : isBPSet obj 3 <;> simp [List.filter, h0, h1, h2, h3]
  refine ⟨e, ?_⟩
  rw [e]
  simp only [List.length_append, List.length_flatten, List.map_map, List.length_cons,
    List.length_nil]
  have : (List.map (List.length ∘ fun i =>
      [[0x29, [0x85, 0xAB, 0xCE, 0xD2].getD i 0, 0x01, obj.bpaddr i &&& 0xFF],
       [0x29, [0x85, 0xAB, 0xCE, 0xD2].getD i 0 + 1, 0x01, (obj.bpaddr i >>> 8) ||| 0x80]])
      (List.filter (isBPSet obj) (List.range 4))).sum =
      2 * (List.filter (isBPSet obj) (List.range 4)).length := by
    generalize List.filter (isBPSet obj) (List.range 4) = l
    induction l with
    | nil => rfl
    | cons a l ih =>
      simp only [List.map_cons, List.sum_cons, List.length_cons, ih, Function.comp,
        List.length_nil]
      omega
  rw [this]
  omega

theorem write_breakpoints_c2_sequence_witness :
    write_breakpoints_c2 silentProbe
        { mode := EC2_MODE.C2, bpaddr := fun i => 0x1234 + i, bp_flags := 0x05 } [] =
      [] ++ [[0x29, 0x86, 0x01, 0x00], [0x29, 0xAC, 0x01, 0x00], [0x29, 0xCF, 0x01, 0x00],
            [0x29, 0xD3, 0x01, 0x00]] ++
        (((List.range 4).filter
          (isBPSet { mode := EC2_MODE.C2, bpaddr := fun i => 0x1234 + i, bp_flags := 0x05 })).map
          fun i =>
          [[0x29, [0x85, 0xAB, 0xCE, 0xD2].getD i 0, 0x01, (0x1234 + i) &&& 0xFF],
           [0x29, [0x85, 0xAB, 0xCE, 0xD2].getD i 0 + 1, 0x01,
             ((0x1234 + i) >>> 8) ||| 0x80]]).flatten :=
  (write_breakpoints_c2_sequence silentProbe
    { mode := EC2_MODE.C2, bpaddr := fun i => 0x1234 + i, bp_flags := 0x05 } []
    (fun i hi => by show 0x1234 + i < 65536; omega)).1

theorem lor_bytes (a b : Nat) (ha : a < 256) :
    (b <<< 8) ||| a = a + 256 * b ∧ a ||| (b * 256) = a + 256 * b := by
  have e : b <<< 8 = 256 * b := by
    rw [Nat.shiftLeft_eq, Nat.mul_comm]
  have h : 256 * b + a = 256 * b ||| a := Nat.mul_add_lt_is_or (show a < 2 ^ 8 from ha) b
  refine ⟨?_, ?_⟩
  · rw [e, ← h]; omega
  · rw [Nat.lor_comm, Nat.mul_comm, ← h]; omega

theorem step_value_nonneg (charSigned : Bool) (a b : Nat) (ha : a < 256) (hb : b < 256)
    (hs : charSigned = true → a < 128 ∧ b < 128) :
    toU16 (Int.lor (toChar charSigned a) (toChar charSigned b * 256)) = ((a + 256 * b : Nat) : Int) := by
  have ea : toChar charSigned (a : Int) = (a : Int) := by
    unfold toChar
    split_ifs with h
    · have := hs h.1; omega
    · omega
  have eb : toChar charSigned (b : Int) = (b : Int) := by
    unfold toChar
    split_ifs with h
    · have := hs h.1; omega
    · omega
  rw [ea, eb]
  have e : Int.lor (a : Int) ((b : Int) * 256) = ((a ||| (b * 256) : Nat) : Int) := by
    have : (b : Int) * 256 = ((b * 256 : Nat) : Int) := by push_cast; rfl
    rw [this]
    rfl
  rw [e, (lor_bytes a b ha).2]
  unfold toU16
  omega

theorem read_pc_jtag_reply (w : Wire) (buf0 : Nat × Nat) (a b : Nat) (ha : a < 256)
    (hb : b < 256) :
    ec2_read_pc EC2_MODE.JTAG (fun _ => some [a, b]) w buf0 =
      (a + 256 * b, w ++ [[0x02, 0x02, 0x20, 0x02]]) := by
  unfold ec2_read_pc
  simp only [write_port, read_port]
  simp only [List.length_cons, List.length_nil, Nat.reduceAdd, le_refl, if_true, List.take,
    (lor_bytes a b ha).1]
  congr 1
  omega

theorem step_jtag_reply (charSigned : Bool) (w : Wire) (buf0 : Nat × Nat) (a b : Nat) :
    ec2_step charSigned EC2_MODE.JTAG (fun _ => some [a, b]) w buf0 =
      (toU16 (Int.lor (toChar charSigned a) (toChar charSigned b * 256)),
        w ++ [[0x09, 0x00], [0x13, 0x00], [0x02, 0x02, 0x20, 0x02]]) := by
  unfold ec2_step
  simp [trx_snd, write_port, read_port]

/-- C36: in JTAG mode `ec2_step` and `ec2_read_pc` decode the two reply bytes
differently. `ec2_step` keeps them in a `char` buffer, so where `char` is
signed a first byte from 0x80 on is sign-extended and the result has the high
byte 0xFF: for the reply 80 12 it returns 0xFF80 and `ec2_read_pc` 0x1280, for
FF 00 it returns 0xFFFF and `ec2_read_pc` 0x00FF. The two agree, on
b0 + 256 * b1, where `char` is unsigned and for bytes below 0x80. -/
theorem step_pc_sign_extension :
    (ec2_step true EC2_MODE.JTAG (fun _ => some [0x80, 0x12]) [] (0, 0)).1 = 0xFF80 ∧
    (ec2_read_pc EC2_MODE.JTAG (fun _ => some [0x80, 0x12]) [] (0, 0)).1 = 0x1280 ∧
    (ec2_step true EC2_MODE.JTAG (fun _ => some [0xFF, 0x00]) [] (0, 0)).1 = 0xFFFF ∧
    (ec2_read_pc EC2_MODE.JTAG (fun _ => some [0xFF, 0x00]) [] (0, 0)).1 = 0x00FF ∧
    (∀ (w : Wire) (buf0 : Nat × Nat) (b0 b1 : Nat),
      (ec2_step false EC2_MODE.JTAG (fun _ => some [b0 % 256, b1 % 256]) w buf0).1 =
        ((b0 % 256 + 256 * (b1 % 256) : Nat) : Int) ∧
      (ec2_read_pc EC2_MODE.JTAG (fun _ => some [b0 % 256, b1 % 256]) w buf0).1 =
        b0 % 256 + 256 * (b1 % 256)) ∧
    (∀ (w : Wire) (buf0 : Nat × Nat) (b0 b1 : Nat),
      (ec2_step true EC2_MODE.JTAG (fun _ => some [b0 % 128, b1 % 128]) w buf0).1 =
        ((b0 % 128 + 256 * (b1 % 128) : Nat) : Int) ∧
      (ec2_read_pc EC2_MODE.JTAG (fun _ => some [b0 % 128, b1 % 128]) w buf0).1 =
        b0 % 128 + 256 * (b1 % 128)) := by
  have l1 : Nat.ldiff 127 4608 = 127 := by norm_num [Nat.ldiff, Nat.bitwise]
  have l2 : Nat.ldiff 0 0 = 0 := by norm_num [Nat.ldiff, Nat.bitwise]
  have h1 : Int.lor (-128) 4608 = -128 := by
    show Int.negSucc (Nat.ldiff 127 4608) = -128
    rw [l1]; rfl
  have h2 : Int.lor (-1) 0 = -1 := by
    show Int.negSucc (Nat.ldiff 0 0) = -1
    rw [l2]; rfl
  refine ⟨?_, ?_, ?_, ?_, ?_, ?_⟩
  · rw [step_jtag_reply]
    simp [toChar, toU16, h1]
  · rw [read_pc_jtag_reply _ _ _ _ (by decide) (by decide)]
  · rw [step_jtag_reply]
    simp [toChar, toU16, h2]
  · rw [read_pc_jtag_reply _ _ _ _ (by decide) (by decide)]
  · intro w buf0 b0 b1
    rw [step_jtag_reply, read_pc_jtag_reply _ _ _ _ (Nat.mod_lt _ (by decide))
      (Nat.mod_lt _ (by decide))]
    exact ⟨step_value_nonneg false _ _ (Nat.mod_lt _ (by decide)) (Nat.mod_lt _ (by decide))
      (fun h => by cases h), rfl⟩
  · intro w buf0 b0 b1
    have a0 : b0 % 128 < 128 := Nat.mod_lt _ (by decide)
    have a1 : b1 % 128 < 128 := Nat.mod_lt _ (by decide)
    rw [step_jtag_reply, read_pc_jtag_reply _ _ _ _ (by omega) (by omega)]
    exact ⟨step_value_nonneg true _ _ (by omega) (by omega) (fun _ => ⟨a0, a1⟩), rfl⟩

theorem storeAt_length (d : List Nat) (p : Nat) (s : List Nat) (h : p + s.length ≤ d.length) :
    (storeAt d p s).length = d.length := by
  unfold storeAt
  simp only [List.length_append, List.length_take, List.length_drop]
  omega

theorem storeAt_get (d : List Nat) (p : Nat) (s : List Nat) (h : p + s.length ≤ d.length)
    (x : Nat) :
    (storeAt d p s)[x]? =
      if x < p then d[x]? else if x < p + s.length then s[x - p]? else d[x]? := by
  unfold storeAt
  have hp : (d.take p).length = p := by
    rw [List.length_take]; omega
  by_cases h1 : x < p
  · rw [if_pos h1, List.append_assoc, List.getElem?_append_left (by omega),
      List.getElem?_take_of_lt h1]
  · rw [if_neg h1, List.append_assoc, List.getElem?_append_right (by omega), hp]
    by_cases h2 : x < p + s.length
    · rw [if_pos h2, List.getElem?_append_left (by omega)]
    · rw [if_neg h2, List.getElem?_append_right (by omega), List.getElem?_drop]
      congr 1
      omega

theorem rx_bytes_length (ec3 : Bool) (g : Nat → Nat) (reply : Option (List Nat)) (len : Nat) :
    (rx_bytes ec3 g reply len).length = if ec3 then len else min len (reply.getD []).length := by
  unfold rx_bytes
  cases ec3 <;> simp [List.length_take]

theorem rx_bytes_get (ec3 : Bool) (g : Nat → Nat) (reply : Option (List Nat)) (len j : Nat)
    (hj : j < len) :
    (rx_bytes ec3 g reply len)[j]? =
      if j < (reply.getD []).length then (reply.getD [])[j]?
      else if ec3 then some (g j) else none := by
  unfold rx_bytes
  generalize reply.getD [] = l
  by_cases h1 : j < l.length
  · rw [if_pos h1]
    cases ec3
    · simp [List.getElem?_take_of_lt hj]
    · simp only [if_true]
      rw [List.getElem?_append_left (by rw [List.length_take]; omega),
        List.getElem?_take_of_lt hj]
  · rw [if_neg h1]
    have hlen : (l.take len).length = l.length := by
      rw [List.length_take]; omega
    cases ec3
    · simp only [Bool.false_eq_true, if_false]
      rw [List.getElem?_take_of_lt hj]
      exact List.getElem?_eq_none (by omega)
    · simp only [if_true]
      rw [List.getElem?_append_right (by omega), hlen, List.getElem?_map,
        List.getElem?_range (by omega)]
      simp only [Option.map_some']
      congr 2
      omega

theorem read_ram_sfr_fold (ec3 : Bool) (heap : Heap) (probe : Probe) (hdr : List Nat)
    (blk start_addr len : Nat) (buf : List Nat) (w : Wire) (hb : 0 < blk)
    (hL : len ≤ buf.length) (m : Nat) (hm : m ≤ (len + blk - 1) / blk) :
    ((List.range m).foldl (read_ram_sfr_block ec3 heap probe hdr blk start_addr len)
        (buf, w)).2 =
        w ++ (List.range m).map
          (fun k => hdr ++ [(start_addr + blk * k) % 256, min blk (len - blk * k)]) ∧
    ((List.range m).foldl (read_ram_sfr_block ec3 heap probe hdr blk start_addr len)
        (buf, w)).1.length = buf.length ∧
    (∀ x, blk * m ≤ x →
      ((List.range m).foldl (read_ram_sfr_block ec3 heap probe hdr blk start_addr len)
        (buf, w)).1[x]? = buf[x]?) ∧
    (∀ k, k < m → ∀ j, j < min blk (len - blk * k) →
      ((List.range m).foldl (read_ram_sfr_block ec3 heap probe hdr blk start_addr len)
          (buf, w)).1[blk * k + j]? =
        if j < (rx_bytes ec3
            (heap (w ++ (List.range (k + 1)).map
              (fun k => hdr ++ [(start_addr + blk * k) % 256, min blk (len - blk * k)])))
            (probe (w ++ (List.range (k + 1)).map
              (fun k => hdr ++ [(start_addr + blk * k) % 256, min blk (len - blk * k)])))
            (min blk (len - blk * k))).length then
          (rx_bytes ec3
            (heap (w ++ (List.range (k + 1)).map
              (fun k => hdr ++ [(start_addr + blk * k) % 256, min blk (len - blk * k)])))
            (probe (w ++ (List.range (k + 1)).map
              (fun k => hdr ++ [(start_addr + blk * k) % 256, min blk (len - blk * k)])))
            (min blk (len - blk * k)))[j]?
        else buf[blk * k + j]?) := by
  induction m with
  | zero => simp
  | succ m ih =>
    have hlt : blk * m < len := by
      have h1 : m < (len + blk - 1) / blk := by omega
      have h2 : (m + 1) * blk ≤ len + blk - 1 := (Nat.le_div_iff_mul_le hb).mp (by omega)
      have h3 : (m + 1) * blk = blk * m + blk := by ring
      omega
    obtain ⟨i1, i2, i3, i4⟩ := ih (by omega)
    rw [List.range_succ, List.foldl_append, List.foldl_cons, List.foldl_nil]
    generalize hst : (List.range m).foldl
      (read_ram_sfr_block ec3 heap probe hdr blk start_addr len) (buf, w) = st at i1 i2 i3 i4
    have hn : (if len - blk * m ≥ blk then blk else len - blk * m) = min blk (len - blk * m) := by
      split_ifs with h <;> omega
    have hw : st.2 ++ [hdr ++ [(start_addr + blk * m) % 256, min blk (len - blk * m)]] =
        w ++ (List.range (m + 1)).map
          (fun k => hdr ++ [(start_addr + blk * k) % 256, min blk (len - blk * k)]) := by
      rw [i1, List.range_succ, List.map_append, List.append_assoc]
      rfl
    unfold read_ram_sfr_block read_port_buf
    simp only [hn, write_port, hw]
    have hmul : blk * (m + 1) = blk * m + blk := by ring
    generalize hrx : rx_bytes ec3
      (heap (w ++ (List.range (m + 1)).map
        (fun k => hdr ++ [(start_addr + blk * k) % 256, min blk (len - blk * k)])))
      (probe (w ++ (List.range (m + 1)).map
        (fun k => hdr ++ [(start_addr + blk * k) % 256, min blk (len - blk * k)])))
      (min blk (len - blk * m)) = rx0
    have hlen : rx0.length ≤ min blk (len - blk * m) := by
      rw [← hrx, rx_bytes_length]
      split_ifs <;> omega
    have hfit : blk * m + rx0.length ≤ st.1.length := by
      rw [i2]; omega
    refine ⟨by simp [List.range_succ], ?_, ?_, ?_⟩
    · rw [storeAt_length _ _ _ hfit, i2]
    · intro x hx
      rw [storeAt_get _ _ _ hfit, if_neg (by omega), if_neg (by omega)]
      exact i3 x (by omega)
    · intro k hk j hj
      rw [storeAt_get _ _ _ hfit]
      by_cases hkm : k = m
      · subst hkm
        rw [hrx, if_neg (by omega)]
        by_cases hjr : j < rx0.length
        · rw [if_pos (by omega), if_pos hjr]
          congr 1
          omega
        · rw [if_neg (by omega), if_neg hjr]
          exact i3 _ (by omega)
      · have hk2 : k < m := by omega
        have : blk * k + blk ≤ blk * m := by
          have : blk * (k + 1) ≤ blk * m := Nat.mul_le_mul_left blk (by omega)
          have e : blk * (k + 1) = blk * k + blk := by ring
          omega
        rw [if_pos (by omega)]
        exact i4 k hk2 j hj

theorem init_buffer (buf : List Nat) (len : Nat) (hL : len ≤ buf.length) :
    (storeAt buf 0 (List.replicate len 0xff)).length = buf.length :=
  storeAt_length buf 0 _ (by simp [hL])

theorem init_buffer_get (buf : List Nat) (len x : Nat) (hL : len ≤ buf.length) (hx : x < len) :
    (storeAt buf 0 (List.replicate len 0xff))[x]? = some 0xff := by
  rw [storeAt_get _ _ _ (by simp [hL]), if_neg (by omega), if_pos (by simp [hx])]
  simp [hx]

theorem read_ram_sfr_reqs (hdr : List Nat) (blk start_addr len : Nat) (hb : 0 < blk)
    (h : start_addr + len ≤ 0x100) (m : Nat) (hm : m ≤ (len + blk - 1) / blk) :
    (List.range m).map
        (fun k => hdr ++ [(start_addr + blk * k) % 256, min blk (len - blk * k)]) =
      (List.range m).map (fun k => hdr ++ [start_addr + blk * k, min blk (len - blk * k)]) := by
  apply List.map_congr_left
  intro k hk
  rw [List.mem_range] at hk
  have h1 : k + 1 ≤ (len + blk - 1) / blk := by omega
  have h2 : (k + 1) * blk ≤ len + blk - 1 := (Nat.le_div_iff_mul_le hb).mp h1
  have h3 : (k + 1) * blk = blk * k + blk := by ring
  rw [Nat.mod_eq_of_lt (by omega)]

/-- C34: for `start_addr + len - 1 <= 0xFF`, `ec2_read_ram_sfr` sends
`ceil(len / B)` block requests, request k with address `start_addr + k*B` and
length `min(B, len - k*B) >= 1`, where B is 12 in JTAG mode and in 2-wire mode
on the serial probe and 59 in 2-wire mode on the USB probe. The requests are in
ascending order, every offset below `len` lies in exactly one block and no
request is sent when `len = 0`. At the end `buf[k*B + j]`, for `j` below the
length of request k, is byte `j` of the reply to request k when the reply has
such a byte, whatever the probe replies; where the reply is short or does not
come, it is 0xFF on the serial probe and what the receive buffer held there on
the USB probe. -/
theorem read_ram_sfr_blocks (mode : EC2_MODE) (ec3 : Bool) (heap : Heap) (probe : Probe)
    (w : Wire) (buf : List Nat) (start_addr len : Nat) (sfr : Bool) (B : Nat) (hdr : List Nat)
    (hm : (mode = EC2_MODE.JTAG ∧ B = 12 ∧ hdr = [if sfr then 0x02 else 0x06, 0x02]) ∨
      (mode = EC2_MODE.C2 ∧ ec3 = false ∧ B = 12 ∧ hdr = [if sfr then 0x28 else 0x2A]) ∨
      (mode = EC2_MODE.C2 ∧ ec3 = true ∧ B = 59 ∧ hdr = [if sfr then 0x28 else 0x2A]))
    (h : start_addr + len ≤ 0x100) (hL : len ≤ buf.length) :
    ∃ r,
      ec2_read_ram_sfr mode ec3 heap probe w buf start_addr len sfr =
        Outcome.ret r (w ++ (List.range ((len + B - 1) / B)).map
          (fun k => hdr ++ [start_addr + B * k, min B (len - B * k)])) ∧
      r.length = buf.length ∧
      (∀ k, k < (len + B - 1) / B →
        1 ≤ min B (len - B * k) ∧ B * k + min B (len - B * k) ≤ len ∧
          start_addr + B * k + min B (len - B * k) ≤ 0x100) ∧
      (∀ x, x < len →
        ∃ k, k < (len + B - 1) / B ∧ B * k ≤ x ∧ x < B * k + min B (len - B * k) ∧
          ∀ k2, B * k2 ≤ x → x < B * k2 + min B (len - B * k2) → k2 = k) ∧
      (len = 0 → (len + B - 1) / B = 0) ∧
      (∀ k, k < (len + B - 1) / B → ∀ j, j < min B (len - B * k) →
        r[B * k + j]? =
          some (((probe (w ++ (List.range (k + 1)).map
              (fun k => hdr ++ [start_addr + B * k, min B (len - B * k)]))).getD [])[j]?.getD
            (if ec3 then
              heap (w ++ (List.range (k + 1)).map
                (fun k => hdr ++ [start_addr + B * k, min B (len - B * k)])) j
            else 0xff))) := by
  have hB : 0 < B := by
    rcases hm with ⟨_, h2, _⟩ | ⟨_, _, h2, _⟩ | ⟨_, _, h2, _⟩ <;> omega
  have hfold := read_ram_sfr_fold ec3 heap probe hdr B start_addr len
    (storeAt buf 0 (List.replicate len 0xff)) w hB
    (by rw [init_buffer buf len hL]; exact hL) ((len + B - 1) / B) (le_refl _)
  obtain ⟨f1, f2, -, f4⟩ := hfold
  rw [read_ram_sfr_reqs hdr B start_addr len hB h _ (le_refl _)] at f1
  have hrun : ec2_read_ram_sfr mode ec3 heap probe w buf start_addr len sfr =
      Outcome.ret
        ((List.range ((len + B - 1) / B)).foldl
          (read_ram_sfr_block ec3 heap probe hdr B start_addr len)
          (storeAt buf 0 (List.replicate len 0xff), w)).1
        ((List.range ((len + B - 1) / B)).foldl
          (read_ram_sfr_block ec3 heap probe hdr B start_addr len)
          (storeAt buf 0 (List.replicate len 0xff), w)).2 := by
    unfold ec2_read_ram_sfr
    rw [if_pos h]
    rcases hm with ⟨rfl, rfl, rfl⟩ | ⟨rfl, rfl, rfl, rfl⟩ | ⟨rfl, rfl, rfl, rfl⟩ <;> rfl
  have hcov : ∀ k, k < (len + B - 1) / B →
      1 ≤ min B (len - B * k) ∧ B * k + min B (len - B * k) ≤ len ∧
        start_addr + B * k + min B (len - B * k) ≤ 0x100 := by
    intro k hk
    rcases hm with ⟨_, rfl, _⟩ | ⟨_, _, rfl, _⟩ | ⟨_, _, rfl, _⟩ <;> omega
  refine ⟨_, by rw [hrun, f1], by rw [f2, init_buffer buf len hL], hcov, ?_, ?_, ?_⟩
  · intro x hx
    refine ⟨x / B, ?_⟩
    rcases hm with ⟨_, rfl, _⟩ | ⟨_, _, rfl, _⟩ | ⟨_, _, rfl, _⟩ <;>
      exact ⟨by omega, by omega, by omega, fun k2 h1 h2 => by omega⟩
  · intro h0
    rcases hm with ⟨_, rfl, _⟩ | ⟨_, _, rfl, _⟩ | ⟨_, _, rfl, _⟩ <;> omega
  · intro k hk j hj
    have hq := f4 k hk j hj
    rw [read_ram_sfr_reqs hdr B start_addr len hB h _ (by omega)] at hq
    rw [hq, rx_bytes_length, rx_bytes_get _ _ _ _ _ hj,
      init_buffer_get buf len _ hL (by have := (hcov k hk).2.1; omega)]
    generalize (probe (w ++ (List.range (k + 1)).map
      (fun k => hdr ++ [start_addr + B * k, min B (len - B * k)]))).getD [] = l
    by_cases hl : j < l.length
    · have hc : j < (if ec3 = true then min B (len - B * k)
          else min (min B (len - B * k)) l.length) := by
        split_ifs <;> omega
      rw [if_pos hc, if_pos hl, List.getElem?_eq_getElem hl]
      rfl
    · rw [if_neg hl, List.getElem?_eq_none (by omega)]
      cases ec3
      · rw [if_neg (by simp only [Bool.false_eq_true, if_false]; omega)]
        rfl
      · simp only [if_true]
        rw [if_pos hj]
        rfl

theorem read_ram_sfr_blocks_witness :
    ∃ r,
      ec2_read_ram_sfr EC2_MODE.C2 false (fun _ _ => 0) ackProbe [] (List.replicate 30 0) 0x20 30
          false =
        Outcome.ret r [[0x2A, 0x20, 12], [0x2A, 0x2C, 12], [0x2A, 0x38, 6]] ∧
      r.length = 30 ∧ r[0]? = some 0x0D ∧ r[1]? = some 0xff ∧ r[12]? = some 0x0D ∧
        r[24]? = some 0x0D ∧ r[29]? = some 0xff :=
  let ⟨r, h1, h2, _, _, _, h6⟩ := read_ram_sfr_blocks EC2_MODE.C2 false (fun _ _ => 0) ackProbe []
    (List.replicate 30 0) 0x20 30 false 12 [0x2A] (Or.inr (Or.inl ⟨rfl, rfl, rfl, rfl⟩))
    (by decide) (by decide)
  ⟨r, h1, h2, h6 0 (by decide) 0 (by decide), h6 0 (by decide) 1 (by decide),
    h6 1 (by decide) 0 (by decide), h6 2 (by decide) 0 (by decide),
    h6 2 (by decide) 5 (by decide)⟩

/-- The buffer `ec2_read_ram_sfr` leaves when every request is answered by the
single byte 0x0D on the serial probe: the byte is at the start of each of the
three blocks, the rest holds the 0xFF of the initial fill. -/
theorem read_ram_sfr_short_replies :
    ec2_read_ram_sfr EC2_MODE.C2 false (fun _ _ => 0) ackProbe [] (List.replicate 30 0) 0x20 30
        false =
      Outcome.ret
        ([0x0D] ++ List.replicate 11 0xff ++ [0x0D] ++ List.replicate 11 0xff ++ [0x0D] ++
          List.replicate 5 0xff)
        [[0x2A, 0x20, 12], [0x2A, 0x2C, 12], [0x2A, 0x38, 6]] := by
  decide

/-- C37: `ec2_read_ram` stores beyond the `len` bytes asked for. With
`start_addr = 0` and `len = 1` the block read fills `buf[0]`, and the copy of
the three special bytes then overwrites `buf[0]`, `buf[1]` and `buf[2]`, in
2-wire and in JTAG mode; with `start_addr = 1` and `len = 0` it overwrites
`buf[0]` and `buf[1]`. The memory after the buffer held AA BB CC DD before. -/
theorem read_ram_writes_past_len (heap : Heap) :
    ec2_read_ram EC2_MODE.C2 false heap ramProbe [] [0xAA, 0xBB, 0xCC, 0xDD] 0 1 [0, 0, 0, 0] =
      Outcome.ret [0x21, 0x22, 0x23, 0xDD] [[0x2A, 0x00, 0x01], [0x28, 0x24, 0x02],
        [0x28, 0x26, 0x02]] ∧
    ec2_read_ram EC2_MODE.JTAG false heap ramProbe [] [0xAA, 0xBB, 0xCC, 0xDD] 0 1 [0, 0, 0, 0] =
      Outcome.ret [0x21, 0x22, 0x23, 0xDD] [[0x06, 0x02, 0x00, 0x01], [0x02, 0x02, 0x24, 0x02],
        [0x02, 0x02, 0x26, 0x02]] ∧
    ec2_read_ram EC2_MODE.C2 false heap ramProbe [] [0xAA, 0xBB, 0xCC, 0xDD] 1 0 [0, 0, 0, 0] =
      Outcome.ret [0x22, 0x23, 0xCC, 0xDD] [[0x28, 0x24, 0x02], [0x28, 0x26, 0x02]] := by
  refine ⟨rfl, rfl, rfl⟩

theorem foldl_trx (probe : Probe) (f : Nat → List Nat) (rx : List Nat) (n : Nat) (w : Wire) :
    (List.range n).foldl (fun w i => (trx probe w (f i) rx).2) w = w ++ (List.range n).map f := by
  induction n with
  | zero => simp
  | succ n ih =>
    rw [List.range_succ, List.foldl_append, ih]
    simp [trx_snd]

theorem unit_two (rx : List Nat) (h : rx.length ≤ 2) :
    ∃ p q, storeAt [0xff, 0xff] 0 rx = [p, q] := by
  match rx, h with
  | [], _ => exact ⟨0xff, 0xff, rfl⟩
  | [p], _ => exact ⟨p, 0xff, rfl⟩
  | [p, q], _ => exact ⟨p, q, rfl⟩

theorem rx_bytes_length_le (ec3 : Bool) (g : Nat → Nat) (reply : Option (List Nat))
    (len : Nat) : (rx_bytes ec3 g reply len).length ≤ len := by
  rw [rx_bytes_length]
  split_ifs <;> omega

theorem read_ram_c2_unit (ec3 : Bool) (heap : Heap) (probe : Probe) (w : Wire)
    (tmp0 rtmp0 : List Nat) (a : Nat) (h3 : 3 ≤ a) (ha : a ≤ 0xFE) (ht : tmp0.length = 2) :
    ec2_read_ram EC2_MODE.C2 ec3 heap probe w tmp0 a 2 rtmp0 =
      Outcome.ret
        (storeAt [0xff, 0xff] 0
          (rx_bytes ec3 (heap (w ++ [[0x2A, a, 0x02]])) (probe (w ++ [[0x2A, a, 0x02]])) 2))
        (w ++ [[0x2A, a, 0x02], [0x28, 0x24, 0x02], [0x28, 0x26, 0x02]]) := by
  obtain ⟨x, y, rfl⟩ : ∃ x y, tmp0 = [x, y] := by
    match tmp0, ht with
    | [x, y], _ => exact ⟨x, y, rfl⟩
  have hr : List.range 1 = [0] := rfl
  have hmod : a % 256 = a := Nat.mod_eq_of_lt (by omega)
  have hfill : storeAt [x, y] 0 [0xff, 0xff] = [0xff, 0xff] := rfl
  have hsfr : ec2_read_ram_sfr EC2_MODE.C2 ec3 heap probe w [x, y] a 2 false =
      Outcome.ret
        (storeAt [0xff, 0xff] 0
          (rx_bytes ec3 (heap (w ++ [[0x2A, a, 0x02]])) (probe (w ++ [[0x2A, a, 0x02]])) 2))
        (w ++ [[0x2A, a, 0x02]]) := by
    cases ec3 <;>
      simp [ec2_read_ram_sfr, show a + 2 ≤ 256 by omega, hr, read_ram_sfr_block, read_port_buf,
        write_port, hmod, hfill]
  unfold ec2_read_ram
  simp only [hsfr, write_port, if_neg (show ¬ a < 3 by omega)]
  simp

theorem write_ram_c2_pair (fuel : Nat) (ec3 : Bool) (heap : Heap) (probe : Probe) (w : Wire)
    (b : Nat → Nat) (a : Nat) (tmp0 rtmp0 : List Nat) (h3 : 3 ≤ a) (ha : a ≤ 0xFF) :
    ec2_write_ram (fuel + 1) EC2_MODE.C2 ec3 heap probe w b a 2 tmp0 rtmp0 =
      some (Outcome.ret true (w ++ [[0x2b, a, 0x02, b 0, b 1]])) := by
  have hs : min 2 (3 - a) = 0 := by omega
  have hr : List.range 1 = [0] := rfl
  have hmod : a % 256 = a := Nat.mod_eq_of_lt (by omega)
  unfold ec2_write_ram
  rw [if_pos ha]
  simp [hs, hr, write_ram_c2_step, trx_snd, hmod]

theorem write_ram_c2_pairs (ec3 : Bool) (heap : Heap) (probe : Probe) (buf : Nat → Nat)
    (start_addr len : Nat) (tmp0 rtmp0 : List Nat)
    (wr : Wire → List Nat → Nat → Option (Outcome Bool)) (s : Nat)
    (w : Wire) (hb : start_addr + len ≤ 0x100) (m : Nat) (hm : m ≤ (len - s) / 2) :
    (List.range m).foldl
        (fun st j =>
          write_ram_c2_step ec3 heap probe buf start_addr len tmp0 rtmp0 wr st (s + 2 * j))
        (some (Outcome.ret () w)) =
      some (Outcome.ret () (w ++ (List.range m).map fun j =>
        [0x2b, start_addr + s + 2 * j, 0x02, buf (s + 2 * j), buf (s + 2 * j + 1)])) := by
  induction m with
  | zero => simp
  | succ m ih =>
    rw [List.range_succ, List.foldl_append, ih (by omega)]
    have h2 : len - (s + 2 * m) ≥ 2 := by omega
    have hmod : (start_addr + (s + 2 * m)) % 256 = start_addr + s + 2 * m := by
      rw [Nat.mod_eq_of_lt (by omega)]; omega
    simp [write_ram_c2_step, h2, trx_snd, hmod]

theorem write_ram_c2_last (fuel : Nat) (ec3 : Bool) (heap : Heap) (probe : Probe) (w : Wire)
    (buf : Nat → Nat) (start_addr len i : Nat) (tmp0 rtmp0 : List Nat)
    (hlt : ¬ len - i ≥ 2) (h3 : 3 ≤ start_addr + i) (hle : start_addr + i ≤ 0xFF)
    (ht : tmp0.length = 2) :
    write_ram_c2_step ec3 heap probe buf start_addr len tmp0 rtmp0
        (fun w2 b a =>
          ec2_write_ram (fuel + 1) EC2_MODE.C2 ec3 heap probe w2 (fun k => b.getD k 0) a 2 tmp0
            rtmp0)
        (some (Outcome.ret () w)) i =
      some (Outcome.ret ()
        (w ++ [[0x2A, if start_addr + i = 0xFF then 0xFE else start_addr + i, 0x02],
          [0x28, 0x24, 0x02], [0x28, 0x26, 0x02],
          if start_addr + i = 0xFF then
            [0x2b, 0xFE, 0x02,
              (storeAt [0xff, 0xff] 0
                (rx_bytes ec3 (heap (w ++ [[0x2A, 0xFE, 0x02]])) (probe (w ++ [[0x2A, 0xFE, 0x02]]))
                  2)).getD 0 0,
              buf i]
          else
            [0x2b, start_addr + i, 0x02, buf i,
              (storeAt [0xff, 0xff] 0
                (rx_bytes ec3 (heap (w ++ [[0x2A, start_addr + i, 0x02]]))
                  (probe (w ++ [[0x2A, start_addr + i, 0x02]])) 2)).getD 1 0]])) := by
  unfold write_ram_c2_step
  simp only [hlt, if_false]
  by_cases hff : start_addr + i = 0xFF
  · simp only [hff, if_true]
    rw [read_ram_c2_unit ec3 heap probe _ tmp0 rtmp0 (0xFF - 1) (by decide) (by decide) ht]
    simp only
    rw [write_ram_c2_pair fuel ec3 heap probe _ _ (0xFF - 1) tmp0 rtmp0 (by decide) (by decide)]
    have e254 : (0xFF : Nat) - 1 = 0xFE := rfl
    simp only [e254]
    have hl := rx_bytes_length_le ec3 (heap (w ++ [[0x2A, 0xFE, 0x02]]))
      (probe (w ++ [[0x2A, 0xFE, 0x02]])) 2
    generalize rx_bytes ec3 (heap (w ++ [[0x2A, 0xFE, 0x02]]))
      (probe (w ++ [[0x2A, 0xFE, 0x02]])) 2 = rx at hl
    obtain ⟨p, q, hpq⟩ := unit_two rx hl
    rw [hpq]
    simp [storeAt]
  · simp only [hff, if_false]
    rw [read_ram_c2_unit ec3 heap probe _ tmp0 rtmp0 _ h3 (by omega) ht]
    simp only
    rw [write_ram_c2_pair fuel ec3 heap probe _ _ _ tmp0 rtmp0 h3 (by omega)]
    have hl := rx_bytes_length_le ec3 (heap (w ++ [[0x2A, start_addr + i, 0x02]]))
      (probe (w ++ [[0x2A, start_addr + i, 0x02]])) 2
    generalize rx_bytes ec3 (heap (w ++ [[0x2A, start_addr + i, 0x02]]))
      (probe (w ++ [[0x2A, start_addr + i, 0x02]])) 2 = rx at hl
    obtain ⟨p, q, hpq⟩ := unit_two rx hl
    rw [hpq]
    simp [storeAt]

/-- C33: for `start_addr` in 0..0xFF and `start_addr + len <= 0x100`,
`ec2_write_ram` in 2-wire mode returns TRUE after sending exactly the commands
of `write_ram_c2_expected`, whatever the probe replies: a register write 29
(0x24 + address) 01 value for each byte at address 0, 1 or 2, pair writes 2B
address 02 b0 b1, and for a single last byte the read of its two-byte unit and
the write of both bytes with that byte replaced, the other being what the read
left in the unit. Every command 2B has an address of at least 3 and the length
byte 2. -/
theorem write_ram_c2_commands (fuel : Nat) (ec3 : Bool) (heap : Heap) (probe : Probe)
    (w : Wire) (buf : Nat → Nat) (start_addr len : Nat) (tmp0 rtmp0 : List Nat)
    (hs : start_addr ≤ 0xFF) (hb : start_addr + len ≤ 0x100) (ht : tmp0.length = 2) :
    ec2_write_ram (fuel + 2) EC2_MODE.C2 ec3 heap probe w buf start_addr len tmp0 rtmp0 =
      some (Outcome.ret true
        (w ++ write_ram_c2_expected ec3 heap probe w buf start_addr len)) ∧
    (∀ i, i < len → start_addr + i < 3 →
      [0x29, 0x24 + (start_addr + i), 0x01, buf i] ∈
        write_ram_c2_expected ec3 heap probe w buf start_addr len) ∧
    (∀ c, c ∈ write_ram_c2_expected ec3 heap probe w buf start_addr len →
      c.head? = some 0x2b →
      ∃ a d0 d1, c = [0x2b, a, 0x02, d0, d1] ∧ 3 ≤ a ∧ a + 2 ≤ 0x100) := by
  refine ⟨?_, ?_, ?_⟩
  · unfold ec2_write_ram
    rw [if_pos hs]
    simp only
    rw [foldl_trx]
    have hspec : (List.range (min len (3 - start_addr))).map
          (fun i => [0x29, (0x24 + start_addr + i) % 256, 0x01, buf i]) =
        (List.range (min len (3 - start_addr))).map
          (fun i => [0x29, 0x24 + start_addr + i, 0x01, buf i]) := by
      apply List.map_congr_left
      intro i hi
      rw [List.mem_range] at hi
      rw [Nat.mod_eq_of_lt (by omega)]
    rw [hspec]
    by_cases hodd : (len - min len (3 - start_addr)) % 2 = 1
    · have hn : (len - min len (3 - start_addr) + 1) / 2 =
          (len - min len (3 - start_addr)) / 2 + 1 := by omega
      rw [hn, List.range_succ, List.foldl_append,
        write_ram_c2_pairs ec3 heap probe buf start_addr len tmp0 rtmp0 _ _ _ hb _ (le_refl _)]
      have hi : min len (3 - start_addr) + 2 * ((len - min len (3 - start_addr)) / 2) =
          len - 1 := by omega
      have hlt : ¬ (len - (len - 1) ≥ 2) := by omega
      have e1 : start_addr + (len - 1) = start_addr + len - 1 := by omega
      simp only [List.foldl_cons, List.foldl_nil, hi]
      rw [write_ram_c2_last fuel ec3 heap probe _ buf start_addr len (len - 1) tmp0 rtmp0 hlt
        (by omega) (by omega) ht]
      simp only [write_ram_c2_expected, hodd, if_true, e1]
      by_cases hff : start_addr + len - 1 = 0xFF
      · simp [hff, List.append_assoc]
      · simp [hff, List.append_assoc]
    · have hn : (len - min len (3 - start_addr) + 1) / 2 =
          (len - min len (3 - start_addr)) / 2 := by omega
      rw [hn, write_ram_c2_pairs ec3 heap probe buf start_addr len tmp0 rtmp0 _ _ _ hb _
        (le_refl _)]
      simp [write_ram_c2_expected, hodd]
  · intro i hi h3
    unfold write_ram_c2_expected
    simp only [List.mem_append, List.mem_map, List.mem_range]
    exact Or.inl (Or.inl ⟨i, by omega, by rw [Nat.add_assoc]⟩)
  · intro c hc hh
    unfold write_ram_c2_expected at hc
    simp only [List.mem_append, List.mem_map, List.mem_range] at hc
    rcases hc with (⟨i, _, rfl⟩ | ⟨j, hj, rfl⟩) | hc
    · simp at hh
    · exact ⟨_, _, _, rfl, by omega, by omega⟩
    · split_ifs at hc with hodd hff
      · simp only [List.mem_cons, List.mem_singleton, List.not_mem_nil, or_false] at hc
        rcases hc with rfl | rfl | rfl | rfl
        · simp at hh
        · simp at hh
        · simp at hh
        · exact ⟨_, _, _, rfl, by decide, by decide⟩
      · simp only [List.mem_cons, List.mem_singleton, List.not_mem_nil, or_false] at hc
        rcases hc with rfl | rfl | rfl | rfl
        · simp at hh
        · simp at hh
        · simp at hh
        · exact ⟨_, _, _, rfl, by omega, by omega⟩
      · simp at hc

theorem write_ram_c2_commands_witness :
    ec2_write_ram (0 + 2) EC2_MODE.C2 false (fun _ _ => 0) ackProbe [] (fun _ => 0x77) 0xFF 1
        [0, 0] [0, 0, 0, 0] =
      some (Outcome.ret true
        ([] ++ write_ram_c2_expected false (fun _ _ => 0) ackProbe [] (fun _ => 0x77) 0xFF 1)) ∧
    write_ram_c2_expected false (fun _ _ => 0) ackProbe [] (fun _ => 0x77) 0xFF 1 =
      [[0x2A, 0xFE, 0x02], [0x28, 0x24, 0x02], [0x28, 0x26, 0x02],
       [0x2b, 0xFE, 0x02, 0x0D, 0x77]] :=
  ⟨(write_ram_c2_commands 0 false (fun _ _ => 0) ackProbe [] (fun _ => 0x77) 0xFF 1 [0, 0]
    [0, 0, 0, 0] (by decide) (by decide) rfl).1, by decide⟩

/-- The commands `ec2_write_ram` sends in 2-wire mode for five bytes from
address 1, on the serial probe with every command answered by the single byte
0x0D: two register writes, one pair write, and for the last byte at 5 the read
of the unit 5, 6, of which one byte arrives, and the write of the new byte with
the 0xFF that the fill left for address 6. -/
theorem write_ram_c2_five_bytes :
    ec2_write_ram 2 EC2_MODE.C2 false (fun _ _ => 0) ackProbe [] (fun i => 0xA0 + i) 1 5 [0, 0]
        [0, 0, 0, 0] =
      some (Outcome.ret true
        [[0x29, 0x25, 0x01, 0xA0], [0x29, 0x26, 0x01, 0xA1], [0x2b, 0x03, 0x02, 0xA2, 0xA3],
         [0x2A, 0x05, 0x02], [0x28, 0x24, 0x02], [0x28, 0x26, 0x02],
         [0x2b, 0x05, 0x02, 0xA4, 0xff]]) := by
  decide

theorem emif_write_loop_never (charSigned : Bool) (probe : Probe) (ec3 : Bool) (buf : Nat → Nat)
    (len : Int) (h : 65536 ≤ len) (fuel addr cnt : Nat) (ok : Bool) (w : Wire)
    (hc : cnt < 65536) :
    emif_write_loop charSigned probe ec3 buf len fuel addr cnt ok w = none := by
  induction fuel generalizing addr cnt ok w with
  | zero => rfl
  | succ n ih =>
    unfold emif_write_loop
    split
    · exact ih _ _ _ _ (Nat.mod_lt _ (by decide))
    · omega

theorem emif_read_loop_never (probe : Probe) (ec3 : Bool) (len : Int) (h : 65536 ≤ len)
    (fuel addr cnt : Nat) (buf : List Nat) (w : Wire) (hc : cnt < 65536) :
    emif_read_loop probe ec3 len fuel addr cnt buf w = none := by
  induction fuel generalizing addr cnt buf w with
  | zero => rfl
  | succ n ih =>
    unfold emif_read_loop
    split
    · exact ih _ _ _ _ (Nat.mod_lt _ (by decide))
    · omega

theorem emif_write_loop_fuel (charSigned : Bool) (probe : Probe) (ec3 : Bool) (buf : Nat → Nat)
    (len : Int) (h1 : len ≤ 0xFFFF) (fuel addr cnt : Nat) (ok : Bool) (w : Wire)
    (hc : (cnt : Int) ≤ len) :
    (emif_write_loop charSigned probe ec3 buf len fuel addr cnt ok w).isSome = true ↔
      ((len - cnt).toNat + (if ec3 then 60 else 12) - 1) / (if ec3 then 60 else 12) < fuel := by
  induction fuel generalizing addr cnt ok w with
  | zero => simp [emif_write_loop]
  | succ n ih =>
    unfold emif_write_loop
    split
    · rename_i hlt
      cases ec3
      · simp only [Bool.false_eq_true, if_false] at ih ⊢
        rw [ih _ _ _ _ (by split_ifs <;> omega)]
        split_ifs <;> omega
      · simp only [if_true] at ih ⊢
        rw [ih _ _ _ _ (by split_ifs <;> omega)]
        split_ifs <;> omega
    · rename_i hlt
      have : (len - cnt).toNat = 0 := by omega
      rw [this]
      cases ec3 <;> simp

theorem emif_read_loop_fuel (probe : Probe) (ec3 : Bool) (len : Int) (h1 : len ≤ 0xFFFF)
    (fuel addr cnt : Nat) (buf : List Nat) (w : Wire) (hc : (cnt : Int) ≤ len) :
    ((emif_read_loop probe ec3 len fuel addr cnt buf w).isSome = true ↔
      ((len - cnt).toNat + (if ec3 then 60 else 12) - 1) / (if ec3 then 60 else 12) < fuel) ∧
    (∀ r, emif_read_loop probe ec3 len fuel addr cnt buf w = some r →
      r.2.length =
        w.length + ((len - cnt).toNat + (if ec3 then 60 else 12) - 1) / (if ec3 then 60 else 12)) := by
  induction fuel generalizing addr cnt buf w with
  | zero => simp [emif_read_loop]
  | succ n ih =>
    unfold emif_read_loop
    split
    · rename_i hlt
      cases ec3
      · simp only [Bool.false_eq_true, if_false] at ih ⊢
        obtain ⟨i1, i2⟩ := ih
          ((addr + (if len - cnt > ((0x0C : Nat) : Int) then 0x0C
            else ((len - cnt) % 65536).toNat)) % 65536)
          ((cnt + (if len - cnt > ((0x0C : Nat) : Int) then 0x0C
            else ((len - cnt) % 65536).toNat)) % 65536)
          (match read_port (probe (write_port w [0x3e, addr &&& 0xff, (addr &&& 0xff00) >>> 8,
              (if len - cnt > ((0x0C : Nat) : Int) then 0x0C
                else ((len - cnt) % 65536).toNat) % 256]))
              (if len - cnt > ((0x0C : Nat) : Int) then 0x0C
                else ((len - cnt) % 65536).toNat) with
            | some rx => storeAt buf cnt rx
            | none => buf)
          (write_port w [0x3e, addr &&& 0xff, (addr &&& 0xff00) >>> 8,
              (if len - cnt > ((0x0C : Nat) : Int) then 0x0C
                else ((len - cnt) % 65536).toNat) % 256])
          (by split_ifs <;> omega)
        refine ⟨?_, ?_⟩
        · rw [i1]
          split_ifs <;> omega
        · intro r hr
          rw [i2 r hr]
          simp only [write_port, List.length_append, List.length_cons, List.length_nil]
          split_ifs <;> omega
      · simp only [if_true] at ih ⊢
        obtain ⟨i1, i2⟩ := ih
          ((addr + (if len - cnt > ((0x3C : Nat) : Int) then 0x3C
            else ((len - cnt) % 65536).toNat)) % 65536)
          ((cnt + (if len - cnt > ((0x3C : Nat) : Int) then 0x3C
            else ((len - cnt) % 65536).toNat)) % 65536)
          (match read_port (probe (write_port w [0x3e, addr &&& 0xff, (addr &&& 0xff00) >>> 8,
              (if len - cnt > ((0x3C : Nat) : Int) then 0x3C
                else ((len - cnt) % 65536).toNat) % 256]))
              (if len - cnt > ((0x3C : Nat) : Int) then 0x3C
                else ((len - cnt) % 65536).toNat) with
            | some rx => storeAt buf cnt rx
            | none => buf)
          (write_port w [0x3e, addr &&& 0xff, (addr &&& 0xff00) >>> 8,
              (if len - cnt > ((0x3C : Nat) : Int) then 0x3C
                else ((len - cnt) % 65536).toNat) % 256])
          (by split_ifs <;> omega)
        refine ⟨?_, ?_⟩
        · rw [i1]
          split_ifs <;> omega
        · intro r hr
          rw [i2 r hr]
          simp only [write_port, List.length_append, List.length_cons, List.length_nil]
          split_ifs <;> omega
    · rename_i hlt
      have : (len - cnt).toNat = 0 := by omega
      rw [this]
      refine ⟨by cases ec3 <;> simp, ?_⟩
      intro r hr
      cases hr
      cases ec3 <;> simp

/-- C39 (counterexample): with `start_addr = 0` and `len = 0x10000`, on a
serial probe that answers every command, the block loops of
`ec2_write_xdata_c2_emif` and `ec2_read_xdata_c2_emif` never end: the 16-bit
counter `cnt` stays below `len` for ever, so no amount of fuel gives a
result. -/
theorem emif_loops_never_end_at_64k :
    (∀ fuel, ec2_write_xdata_c2_emif true ackProbe false [] (fun _ => 0x55) 0 0x10000 fuel =
      none) ∧
    (∀ fuel, ec2_read_xdata_c2_emif ackProbe false [] (List.replicate 0x10000 0) 0 0x10000 fuel =
      none) :=
  ⟨fun fuel => emif_write_loop_never true ackProbe false (fun _ => 0x55) 0x10000 (by decide)
      fuel _ 0 true [] (by decide),
    fun fuel => emif_read_loop_never ackProbe false 0x10000 (by decide) fuel _ 0
      (List.replicate 0x10000 0) [] (by decide)⟩

/-- C39 (amended): for `len` in 0..0xFFFF the block loops of
`ec2_write_xdata_c2_emif` and `ec2_read_xdata_c2_emif` end after exactly
`ceil(len / M)` passes, M being 12 on the serial and 60 on the USB probe: the
functions return with any fuel above that number and with no fuel up to it, and
the read has then sent that many requests. -/
theorem emif_loops_terminate (charSigned : Bool) (probe : Probe) (ec3 : Bool) (w : Wire)
    (buf : Nat → Nat) (rbuf : List Nat) (start_addr len : Int) (h0 : 0 ≤ len)
    (h1 : len ≤ 0xFFFF) :
    (∀ fuel,
      (ec2_write_xdata_c2_emif charSigned probe ec3 w buf start_addr len fuel).isSome = true ↔
        (len.toNat + (if ec3 then 60 else 12) - 1) / (if ec3 then 60 else 12) < fuel) ∧
    (∀ fuel,
      (ec2_read_xdata_c2_emif probe ec3 w rbuf start_addr len fuel).isSome = true ↔
        (len.toNat + (if ec3 then 60 else 12) - 1) / (if ec3 then 60 else 12) < fuel) ∧
    (∀ fuel r, ec2_read_xdata_c2_emif probe ec3 w rbuf start_addr len fuel = some r →
      r.2.length =
        w.length + (len.toNat + (if ec3 then 60 else 12) - 1) / (if ec3 then 60 else 12)) := by
  have e : (len - ((0 : Nat) : Int)).toNat = len.toNat := by simp
  refine ⟨fun fuel => ?_, fun fuel => ?_, fun fuel r hr => ?_⟩
  · have h := emif_write_loop_fuel charSigned probe ec3 buf len h1 fuel
      (start_addr % 65536).toNat 0 true w (by simpa using h0)
    rw [e] at h
    exact h
  · have h := (emif_read_loop_fuel probe ec3 len h1 fuel (start_addr % 65536).toNat 0 rbuf w
      (by simpa using h0)).1
    rw [e] at h
    exact h
  · have h := (emif_read_loop_fuel probe ec3 len h1 fuel (start_addr % 65536).toNat 0 rbuf w
      (by simpa using h0)).2 r hr
    rw [e] at h
    exact h

theorem emif_loops_terminate_witness :
    (ec2_write_xdata_c2_emif true ackProbe false [] (fun _ => 0x55) 0x100 30 4).isSome = true ∧
    (ec2_read_xdata_c2_emif ackProbe false [] (List.replicate 30 0) 0x100 30 3).isSome ≠ true :=
  ⟨((emif_loops_terminate true ackProbe false [] (fun _ => 0x55) (List.replicate 30 0) 0x100 30
      (by decide) (by decide)).1 4).mpr (by decide),
   fun h => absurd (((emif_loops_terminate true ackProbe false [] (fun _ => 0x55)
      (List.replicate 30 0) 0x100 30 (by decide) (by decide)).2.1 3).mp h) (by decide)⟩

theorem chunkInSector_iff (a n : Nat) : chunkInSector (a, n) ↔ a / 512 = (a + n - 1) / 512 := by
  unfold chunkInSector
  simp only [Nat.shiftRight_eq_div_pow]

theorem jtag_while_spec (probe : Probe) (buf : Nat → Nat) (E q base : Nat) (fuel : Nat)
    (st : JtagWrite) (h1 : 512 * q ≤ st.addr) (h2 : E ≤ 512 * q + 512) (h3 : st.addr < E)
    (h4 : E ≤ 65535) (hc : ∀ c, c ∈ st.chunks → chunkInSector c ∧ 1 ≤ c.2)
    (hsum : (st.chunks.map Prod.snd).sum + base = st.addr) (hofs : st.ofs + base = st.addr) :
    ((E - st.addr) / 12 < fuel →
      (write_flash_jtag_while probe buf E fuel st).isSome = true) ∧
    (∀ st1, write_flash_jtag_while probe buf E fuel st = some st1 →
      512 * q ≤ st1.addr ∧ st1.addr < E ∧ E - st1.addr ≤ 12 ∧
        (∀ c, c ∈ st1.chunks → chunkInSector c ∧ 1 ≤ c.2) ∧
        (st1.chunks.map Prod.snd).sum + base = st1.addr ∧ st1.ofs + base = st1.addr) := by
  induction fuel generalizing st with
  | zero =>
    refine ⟨fun h => by omega, fun st1 h => ?_⟩
    simp [write_flash_jtag_while] at h
  | succ n ih =>
    unfold write_flash_jtag_while
    by_cases hgt : (E : Int) - st.addr > 0x0c
    · simp only [hgt, if_true]
      have hmod : (st.addr + 0x0c) % 65536 = st.addr + 12 := by omega
      rw [hmod]
      have := ih
        { addr := st.addr + 12, ofs := st.ofs + 0x0c,
          w := (trx probe st.w ([0x12, 0x02, 0x0C, 0x00] ++
            (List.range 0x0c).map fun j => buf (st.ofs + j)) [0x0d]).2,
          chunks := st.chunks ++ [(st.addr, 0x0c)] }
        (by simp only; omega) (by simp only; omega)
        (by
          intro c hcm
          simp only [List.mem_append, List.mem_singleton] at hcm
          rcases hcm with hcm | rfl
          · exact hc c hcm
          · refine ⟨?_, by show 1 ≤ 12; omega⟩
            rw [chunkInSector_iff]
            omega)
        (by simp only [List.map_append, List.sum_append, List.map_cons, List.map_nil,
              List.sum_cons, List.sum_nil]; omega)
        (by simp only; omega)
      simp only at this
      refine ⟨fun h => this.1 (by omega), this.2⟩
    · simp only [hgt, if_false]
      refine ⟨fun _ => rfl, fun st1 h => ?_⟩
      cases h
      exact ⟨h1, h3, by omega, hc, hsum, hofs⟩

theorem jtag_while_exit (probe : Probe) (buf : Nat → Nat) (E : Nat) (fuel : Nat)
    (st : JtagWrite) (h : ¬ ((E : Int) - st.addr > 0x0c)) :
    write_flash_jtag_while probe buf E (fuel + 1) st = some st := by
  unfold write_flash_jtag_while
  simp only [h, if_false]

theorem toChar_small (charSigned : Bool) (v : Int) (h0 : 0 ≤ v) (h1 : v < 128) :
    toChar charSigned v = v := by
  unfold toChar
  split_ifs with h
  · omega
  · omega

theorem jtag_sector_spec (charSigned : Bool) (probe : Probe) (buf : Nat → Nat)
    (start_addr len first_sector sector_cnt : Int) (fuel : Nat) (st : JtagWrite) (i : Nat)
    (E q base : Nat)
    (hE : (if (i : Int) = sector_cnt - 1 then ((start_addr + len) % 65536).toNat
      else ((first_sector * 512 + ((i : Int) + 1) * 0x200) % 65536).toNat) = E)
    (h1 : 512 * q ≤ st.addr) (h2 : E ≤ 512 * q + 512) (h3 : st.addr < E) (h4 : E ≤ 65535)
    (hg : JtagGood base st) :
    (43 ≤ fuel →
      (write_flash_jtag_sector charSigned probe buf start_addr len first_sector sector_cnt fuel
        st i).isSome = true) ∧
    (∀ r, write_flash_jtag_sector charSigned probe buf start_addr len first_sector sector_cnt
        fuel st i = some r →
      ∃ st2, r = JtagRun.ok st2 ∧ st2.addr = E ∧ JtagGood base st2) := by
  obtain ⟨g1, g2, g3⟩ := hg
  unfold write_flash_jtag_sector
  simp only [hE]
  generalize hw9 : set_flash_addr_jtag probe _ _ = w9
  have hsp := jtag_while_spec probe buf E q base fuel { st with w := w9 } h1 h2 h3 h4 g1 g2 g3
  cases hwh : write_flash_jtag_while probe buf E fuel { st with w := w9 } with
  | none =>
    simp only
    refine ⟨fun hf => ?_, fun r hr => by cases hr⟩
    have := hsp.1 (by simp only; omega)
    rw [hwh] at this
    cases this
  | some st1 =>
    simp only
    obtain ⟨s1, s2, s3, s4, s5, s6⟩ := hsp.2 st1 hwh
    have hn : toChar charSigned ((E : Int) - st1.addr) = (E : Int) - st1.addr :=
      toChar_small _ _ (by omega) (by omega)
    rw [hn]
    rw [if_pos (by omega), if_neg (by omega)]
    refine ⟨fun _ => rfl, fun r hr => ?_⟩
    cases hr
    have ht : ((E : Int) - st1.addr).toNat = E - st1.addr := by omega
    refine ⟨_, rfl, ?_, ?_, ?_, ?_⟩
    · simp only [ht]
      omega
    · intro c hc
      simp only [List.mem_append, List.mem_singleton] at hc
      rcases hc with hc | rfl
      · exact s4 c hc
      · rw [ht]
        refine ⟨?_, by show 1 ≤ E - st1.addr; omega⟩
        rw [chunkInSector_iff]
        omega
    · simp only [List.map_append, List.sum_append, List.map_cons, List.map_nil,
        List.sum_cons, List.sum_nil, ht]
      omega
    · simp only [ht]
      omega

theorem jtag_sector_wrap (charSigned : Bool) (probe : Probe) (buf : Nat → Nat)
    (start_addr len first_sector sector_cnt : Int) (fuel : Nat) (st : JtagWrite) (i : Nat)
    (hE : (if (i : Int) = sector_cnt - 1 then ((start_addr + len) % 65536).toNat
      else ((first_sector * 512 + ((i : Int) + 1) * 0x200) % 65536).toNat) = 0)
    (h1 : 65024 ≤ st.addr) (h2 : st.addr < 65536)
    (hg : ∀ c, c ∈ st.chunks → chunkInSector c ∧ 1 ≤ c.2) :
    ∀ st2, write_flash_jtag_sector charSigned probe buf start_addr len first_sector sector_cnt
        fuel st i = some (JtagRun.ok st2) →
      ∀ c, c ∈ st2.chunks → chunkInSector c ∧ 1 ≤ c.2 := by
  intro st2 hr
  cases fuel with
  | zero =>
    unfold write_flash_jtag_sector at hr
    simp [write_flash_jtag_while] at hr
  | succ n =>
    unfold write_flash_jtag_sector at hr
    simp only [hE] at hr
    rw [jtag_while_exit probe buf 0 n _ (by simp only; omega)] at hr
    simp only at hr
    split_ifs at hr with hp hq
    · cases hr
    · simp only [Option.some.injEq, JtagRun.ok.injEq] at hr
      subst hr
      intro c hc
      simp only [List.mem_append, List.mem_singleton] at hc
      rcases hc with hc | rfl
      · exact hg c hc
      · have hv : toChar charSigned (((0 : Nat) : Int) - st.addr) =
            256 - ((st.addr : Int) % 256) := by
          unfold toChar at hp hq ⊢
          split_ifs at hp hq ⊢ <;> omega
        rw [hv] at hp hq ⊢
        have ht : (256 - ((st.addr : Int) % 256)).toNat = 256 - st.addr % 256 := by omega
        rw [ht]
        refine ⟨?_, by show 1 ≤ 256 - st.addr % 256; omega⟩
        rw [chunkInSector_iff]
        omega
    · simp only [Option.some.injEq, JtagRun.ok.injEq] at hr
      subst hr
      exact hg

theorem write_flash_jtag_sectors_cons (charSigned : Bool) (probe : Probe) (buf : Nat → Nat)
    (start_addr len first_sector sector_cnt : Int) (fuel : Nat) (i : Nat) (rest : List Nat)
    (st : JtagWrite) :
    write_flash_jtag_sectors charSigned probe buf start_addr len first_sector sector_cnt fuel
        (i :: rest) st =
      match write_flash_jtag_sector charSigned probe buf start_addr len first_sector sector_cnt
          fuel st i with
      | some (JtagRun.ok st1) =>
        write_flash_jtag_sectors charSigned probe buf start_addr len first_sector sector_cnt
          fuel rest st1
      | r => r := rfl

theorem jtag_sectors_spec (charSigned : Bool) (probe : Probe) (buf : Nat → Nat)
    (start len : Nat) (hl : 1 ≤ len) (hb : start + len ≤ 65536) (fuel : Nat) (m k : Nat)
    (hk : k + m = (start + len - 1) / 512 - start / 512 + 1) (st : JtagWrite)
    (haddr : st.addr = if k = 0 then start else 512 * (start / 512 + k))
    (hg : JtagGood start st) :
    (∀ st2,
      write_flash_jtag_sectors charSigned probe buf (start : Int) (len : Int)
          ((start / 512 : Nat) : Int) (((start + len - 1) / 512 - start / 512 + 1 : Nat) : Int)
          fuel (List.range' k m) st = some (JtagRun.ok st2) →
        ∀ c, c ∈ st2.chunks → chunkInSector c ∧ 1 ≤ c.2) ∧
    (start + len ≤ 65535 → 43 ≤ fuel →
      ∃ st2,
        write_flash_jtag_sectors charSigned probe buf (start : Int) (len : Int)
            ((start / 512 : Nat) : Int) (((start + len - 1) / 512 - start / 512 + 1 : Nat) : Int)
            fuel (List.range' k m) st = some (JtagRun.ok st2) ∧
          JtagGood start st2 ∧ (0 < m → st2.addr = start + len)) := by
  induction m generalizing k st with
  | zero =>
    refine ⟨fun st2 h => ?_, fun _ _ => ⟨st, rfl, hg, fun h => absurd h (Nat.lt_irrefl 0)⟩⟩
    simp only [List.range'_zero, write_flash_jtag_sectors, Option.some.injEq,
      JtagRun.ok.injEq] at h
    subst h
    exact hg.1
  | succ m ih =>
    rw [List.range'_succ, write_flash_jtag_sectors_cons]
    have hst : st.addr = if k = 0 then start else 512 * (start / 512 + k) := haddr
    have hst1 : 512 * (start / 512 + k) ≤ st.addr := by
      rw [hst]; split_ifs with h0
      · subst h0; omega
      · omega
    by_cases hlast : m = 0
    · subst hlast
      by_cases hw : start + len ≤ 65535
      · have hE : (if ((k : Nat) : Int) =
              (((start + len - 1) / 512 - start / 512 + 1 : Nat) : Int) - 1
            then (((start : Int) + (len : Int)) % 65536).toNat
            else ((((start / 512 : Nat) : Int) * 512 + ((k : Int) + 1) * 0x200) % 65536).toNat) =
            start + len := by
          rw [if_pos (by omega)]; omega
        have hlt : st.addr < start + len := by
          rw [hst]; split_ifs with h0 <;> omega
        obtain ⟨sp1, sp2⟩ := jtag_sector_spec charSigned probe buf (start : Int) (len : Int)
          ((start / 512 : Nat) : Int)
          (((start + len - 1) / 512 - start / 512 + 1 : Nat) : Int) fuel st k (start + len)
          (start / 512 + k) start hE hst1 (by omega) hlt hw hg
        refine ⟨fun st2 h => ?_, fun _ hf => ?_⟩
        · cases hsec : write_flash_jtag_sector charSigned probe buf (start : Int) (len : Int)
              ((start / 512 : Nat) : Int)
              (((start + len - 1) / 512 - start / 512 + 1 : Nat) : Int) fuel st k with
          | none => rw [hsec] at h; cases h
          | some r =>
            obtain ⟨st3, rfl, -, g3⟩ := sp2 r hsec
            rw [hsec] at h
            simp only [List.range'_zero, write_flash_jtag_sectors, Option.some.injEq,
              JtagRun.ok.injEq] at h
            subst h
            exact g3.1
        · have hsome := sp1 hf
          cases hsec : write_flash_jtag_sector charSigned probe buf (start : Int) (len : Int)
              ((start / 512 : Nat) : Int)
              (((start + len - 1) / 512 - start / 512 + 1 : Nat) : Int) fuel st k with
          | none => rw [hsec] at hsome; cases hsome
          | some r =>
            obtain ⟨st3, rfl, a3, g3⟩ := sp2 r hsec
            exact ⟨st3, rfl, g3, fun _ => a3⟩
      · have hE : (if ((k : Nat) : Int) =
              (((start + len - 1) / 512 - start / 512 + 1 : Nat) : Int) - 1
            then (((start : Int) + (len : Int)) % 65536).toNat
            else ((((start / 512 : Nat) : Int) * 512 + ((k : Int) + 1) * 0x200) % 65536).toNat) =
            0 := by
          rw [if_pos (by omega)]; omega
        refine ⟨fun st2 h => ?_, fun h => absurd h hw⟩
        cases hsec : write_flash_jtag_sector charSigned probe buf (start : Int) (len : Int)
            ((start / 512 : Nat) : Int)
            (((start + len - 1) / 512 - start / 512 + 1 : Nat) : Int) fuel st k with
        | none => rw [hsec] at h; cases h
        | some r =>
          rw [hsec] at h
          cases r with
          | overflow s => cases h
          | ok st3 =>
            simp only [List.range'_zero, write_flash_jtag_sectors, Option.some.injEq,
              JtagRun.ok.injEq] at h
            subst h
            exact jtag_sector_wrap charSigned probe buf _ _ _ _ fuel st k hE (by omega)
              (by rw [hst]; split_ifs <;> omega) hg.1 st3 hsec
    · have hE : (if ((k : Nat) : Int) =
            (((start + len - 1) / 512 - start / 512 + 1 : Nat) : Int) - 1
          then (((start : Int) + (len : Int)) % 65536).toNat
          else ((((start / 512 : Nat) : Int) * 512 + ((k : Int) + 1) * 0x200) % 65536).toNat) =
          512 * (start / 512 + (k + 1)) := by
        rw [if_neg (by omega)]; omega
      have hlt : st.addr < 512 * (start / 512 + (k + 1)) := by
        rw [hst]; split_ifs with h0 <;> omega
      obtain ⟨sp1, sp2⟩ := jtag_sector_spec charSigned probe buf (start : Int) (len : Int)
        ((start / 512 : Nat) : Int)
        (((start + len - 1) / 512 - start / 512 + 1 : Nat) : Int) fuel st k
        (512 * (start / 512 + (k + 1))) (start / 512 + k) start hE hst1 (by omega) hlt
        (by omega) hg
      refine ⟨fun st2 h => ?_, fun hw hf => ?_⟩
      · cases hsec : write_flash_jtag_sector charSigned probe buf (start : Int) (len : Int)
            ((start / 512 : Nat) : Int)
            (((start + len - 1) / 512 - start / 512 + 1 : Nat) : Int) fuel st k with
        | none => rw [hsec] at h; cases h
        | some r =>
          obtain ⟨st3, rfl, a3, g3⟩ := sp2 r hsec
          rw [hsec] at h
          exact (ih (k + 1) (by omega) st3 (by rw [a3, if_neg (by omega)]) g3).1 st2 h
      · have hsome := sp1 hf
        cases hsec : write_flash_jtag_sector charSigned probe buf (start : Int) (len : Int)
            ((start / 512 : Nat) : Int)
            (((start + len - 1) / 512 - start / 512 + 1 : Nat) : Int) fuel st k with
        | none => rw [hsec] at hsome; cases hsome
        | some r =>
          obtain ⟨st3, rfl, a3, g3⟩ := sp2 r hsec
          obtain ⟨st4, e4, g4, a4⟩ :=
            (ih (k + 1) (by omega) st3 (by rw [a3, if_neg (by omega)]) g3).2 hw hf
          exact ⟨st4, e4, g4, fun _ => a4 (by omega)⟩

/-- C35 (counterexample): in 2-wire mode a raw flash write of 8 bytes at 0x1FC
is sent as one command 2F FC 01 08 with the data for 0x1FC..0x203, which lie on
both sides of the sector boundary 0x200. -/
theorem flash_c2_chunk_crosses_sector :
    ec2_write_flash_c2 ackProbe [] (fun i => i) 0x1FC 8 =
      (true, [[0x2f, 0xFC, 0x01, 0x08, 0, 1, 2, 3, 4, 5, 6, 7]]) ∧
    ¬ chunkInSector (0x1FC, 8) := by
  decide

/-- C35 (amended): for `len >= 1` and `start_addr + len <= 0x10000`, whenever
`ec2_write_flash_jtag` returns, every data command it sent carries at least one
byte and bytes of one 512-byte sector only; for `start_addr + len <= 0xFFFF` it
does return and has sent `len` bytes. In 2-wire mode chunk k carries the
`min(8, len - 8k) >= 1` bytes from `start_addr + 8k` on, which lie in one
sector exactly when the chunk does not reach past the end of the sector of its
first byte: always when `start_addr` is a multiple of 8. -/
theorem flash_write_chunks (charSigned : Bool) (probe : Probe) (w : Wire) (buf : Nat → Nat)
    (start_addr len : Nat) (hl : 1 ≤ len) (hb : start_addr + len ≤ 0x10000) :
    (∀ fuel st,
      ec2_write_flash_jtag charSigned probe w buf (start_addr : Int) (len : Int) fuel =
        some (JtagRun.ok st) →
      ∀ c, c ∈ st.chunks → chunkInSector c ∧ 1 ≤ c.2) ∧
    (start_addr + len ≤ 0xFFFF → ∀ fuel, 43 ≤ fuel →
      ∃ st,
        ec2_write_flash_jtag charSigned probe w buf (start_addr : Int) (len : Int) fuel =
          some (JtagRun.ok st) ∧
        (st.chunks.map Prod.snd).sum = len ∧
        ∀ c, c ∈ st.chunks → chunkInSector c ∧ 1 ≤ c.2) ∧
    (∀ k, k < (len + 7) / 8 →
      (flash_c2_chunk buf start_addr len k).take 4 =
          [0x2f, (start_addr + 8 * k) % 256, (start_addr + 8 * k) / 256 % 256,
            min 8 (len - 8 * k)] ∧
        1 ≤ min 8 (len - 8 * k) ∧
        (chunkInSector (start_addr + 8 * k, min 8 (len - 8 * k)) ↔
          (start_addr + 8 * k) % 512 + min 8 (len - 8 * k) ≤ 512)) ∧
    (start_addr % 8 = 0 → ∀ k, k < (len + 7) / 8 →
      chunkInSector (start_addr + 8 * k, min 8 (len - 8 * k))) := by
  have e1 : ((start_addr : Int) >>> (9 : Nat)) = ((start_addr / 512 : Nat) : Int) := by
    rw [shiftRight9]; omega
  have e2 : (((start_addr : Int) + (len : Int) - 1) >>> (9 : Nat)) -
      ((start_addr / 512 : Nat) : Int) + 1 =
      (((start_addr + len - 1) / 512 - start_addr / 512 + 1 : Nat) : Int) := by
    rw [shiftRight9]; omega
  have e3 : ((start_addr : Int) % 65536).toNat = start_addr := by omega
  have e4 : ¬ ((((start_addr + len - 1) / 512 - start_addr / 512 + 1 : Nat) : Int) > 0xFFFF) := by
    omega
  have hsp := fun fuel w4 => jtag_sectors_spec charSigned probe buf start_addr len hl hb fuel
    ((start_addr + len - 1) / 512 - start_addr / 512 + 1) 0 (by omega)
    { addr := start_addr, ofs := 0, w := w4, chunks := [] } rfl
    (by
      unfold JtagGood
      refine ⟨?_, ?_, ?_⟩
      · intro c hc
        cases hc
      · simp
      · simp)
  refine ⟨?_, ?_, ?_, ?_⟩
  · intro fuel st h
    unfold ec2_write_flash_jtag at h
    simp only [e1, e2, e3, e4, if_false, Int.toNat_ofNat, List.range_eq_range'] at h
    generalize (trx probe _ [0x0B, 0x02, 0x04, 0x00] [0x0D]).2 = w4 at h
    cases hs : write_flash_jtag_sectors charSigned probe buf (start_addr : Int) (len : Int)
        ((start_addr / 512 : Nat) : Int)
        (((start_addr + len - 1) / 512 - start_addr / 512 + 1 : Nat) : Int) fuel
        (List.range' 0 ((start_addr + len - 1) / 512 - start_addr / 512 + 1))
        { addr := start_addr, ofs := 0, w := w4, chunks := [] } with
    | none => rw [hs] at h; cases h
    | some r0 =>
      rw [hs] at h
      cases r0 with
      | overflow s => cases h
      | ok st0 =>
        simp only [Option.some.injEq, JtagRun.ok.injEq] at h
        subst h
        exact (hsp fuel w4).1 st0 hs
  · intro hw fuel hf
    unfold ec2_write_flash_jtag
    simp only [e1, e2, e3, e4, if_false, Int.toNat_ofNat, List.range_eq_range']
    generalize (trx probe _ [0x0B, 0x02, 0x04, 0x00] [0x0D]).2 = w4
    obtain ⟨st2, es, g2, a2⟩ := (hsp fuel w4).2 hw hf
    rw [es]
    refine ⟨_, rfl, ?_, g2.1⟩
    have := g2.2.1
    have := a2 (by omega)
    simp only
    omega
  · intro k hk
    rw [flash_c2_chunk_eq, chunkInSector_iff]
    refine ⟨by simp, by omega, by omega⟩
  · intro h8 k hk
    rw [chunkInSector_iff]
    omega

theorem flash_write_chunks_witness :
    ∃ st,
      ec2_write_flash_jtag true ackProbe [] (fun i => i) ((0x1F0 : Nat) : Int) ((40 : Nat) : Int)
          43 = some (JtagRun.ok st) ∧
        (st.chunks.map Prod.snd).sum = 40 ∧
        ∀ c, c ∈ st.chunks → chunkInSector c ∧ 1 ≤ c.2 :=
  (flash_write_chunks true ackProbe [] (fun i => i) 0x1F0 40 (by decide) (by decide)).2.1
    (by decide) 43 (by decide)

/-- C20 (evaluation at the failing inputs): in JTAG mode the commands of
`ec2_write_flash_auto_erase` do not erase each sector once and all of them
before the first write command. For the two bytes A0 A1 at 0x1FF the sectors 0
and 0x200 are erased, and the raw write `ec2_write_flash_jtag` then sends the
erase sequence `0D 05 82 08 20 00 00`, `0D 05 84 10 lo hi 00`, `0F 01 A5` again
in front of the data of each sector: the command `0F 01 A5` goes out four times
for two sectors, the fourth time after the data command `12 02 01 00 A0`. For
two bytes at 0xFFFF the process stops at the `assert` of
`ec2_erase_flash_sector` on the sector address 0x10000, after the erase of
sector 0xFE00 and before any write. In 2-wire mode the same call at 0x1FF
sends one erase for each sector and then the write. -/
theorem auto_erase_jtag_erases_again :
    write_flash_auto_erase_wire true EC2_MODE.JTAG ackProbe [] (fun i => 0xA0 + i) 0x1FF 2 50 =
      (true, some (Outcome.ret ()
        [[0x02, 0x02, 0xB6, 0x01], [0x02, 0x02, 0xB2, 0x01], [0x03, 0x02, 0xB2, 0x04],
         [0x0B, 0x02, 0x04, 0x00], [0x0D, 0x05, 0x82, 0x08, 0x20, 0x00, 0x00],
         [0x0D, 0x05, 0x84, 0x10, 0x00, 0x00, 0x00], [0x0F, 0x01, 0xA5],
         [0x0B, 0x02, 0x01, 0x00], [0x03, 0x02, 0xB6, 0x80], [0x03, 0x02, 0xB2, 0x14],
         [0x02, 0x02, 0xB6, 0x01], [0x02, 0x02, 0xB2, 0x01], [0x03, 0x02, 0xB2, 0x04],
         [0x0B, 0x02, 0x04, 0x00], [0x0D, 0x05, 0x82, 0x08, 0x20, 0x00, 0x00],
         [0x0D, 0x05, 0x84, 0x10, 0x00, 0x02, 0x00], [0x0F, 0x01, 0xA5],
         [0x0B, 0x02, 0x01, 0x00], [0x03, 0x02, 0xB6, 0x80], [0x03, 0x02, 0xB2, 0x14],
         [0x02, 0x02, 0xB6, 0x01], [0x02, 0x02, 0xB2, 0x01], [0x03, 0x02, 0xB2, 0x04],
         [0x0B, 0x02, 0x04, 0x00],
         [0x0D, 0x05, 0x85, 0x08, 0x01, 0x00, 0x00], [0x0D, 0x05, 0x82, 0x08, 0x20, 0x00, 0x00],
         [0x0D, 0x05, 0x84, 0x10, 0xFF, 0x01, 0x00], [0x0F, 0x01, 0xA5],
         [0x0D, 0x05, 0x82, 0x08, 0x02, 0x00, 0x00], [0x0E, 0x00], [0x0E, 0x00],
         [0x0D, 0x05, 0x82, 0x08, 0x10, 0x00, 0x00], [0x0D, 0x05, 0x84, 0x10, 0xFF, 0x01, 0x00],
         [0x12, 0x02, 0x01, 0x00, 0xA0],
         [0x0D, 0x05, 0x85, 0x08, 0x01, 0x00, 0x00], [0x0D, 0x05, 0x82, 0x08, 0x20, 0x00, 0x00],
         [0x0D, 0x05, 0x84, 0x10, 0x00, 0x02, 0x00], [0x0F, 0x01, 0xA5],
         [0x0D, 0x05, 0x82, 0x08, 0x02, 0x00, 0x00], [0x0E, 0x00], [0x0E, 0x00],
         [0x0D, 0x05, 0x82, 0x08, 0x10, 0x00, 0x00], [0x0D, 0x05, 0x84, 0x10, 0x00, 0x02, 0x00],
         [0x12, 0x02, 0x01, 0x00, 0xA1],
         [0x0D, 0x05, 0x82, 0x08, 0x00, 0x00, 0x00], [0x0B, 0x02, 0x01, 0x00],
         [0x03, 0x02, 0xB6, 0x80], [0x03, 0x02, 0xB2, 0x14]])) ∧
    (sent (write_flash_auto_erase_wire true EC2_MODE.JTAG ackProbe [] (fun i => 0xA0 + i)
      0x1FF 2 50).2).count [0x0F, 0x01, 0xA5] = 4 ∧
    write_flash_auto_erase_wire true EC2_MODE.JTAG ackProbe [] (fun i => 0xA0 + i) 0xFFFF 2 50 =
      (true, some (Outcome.abort
        [[0x02, 0x02, 0xB6, 0x01], [0x02, 0x02, 0xB2, 0x01], [0x03, 0x02, 0xB2, 0x04],
         [0x0B, 0x02, 0x04, 0x00], [0x0D, 0x05, 0x82, 0x08, 0x20, 0x00, 0x00],
         [0x0D, 0x05, 0x84, 0x10, 0x00, 0xFE, 0x00], [0x0F, 0x01, 0xA5],
         [0x0B, 0x02, 0x01, 0x00], [0x03, 0x02, 0xB6, 0x80], [0x03, 0x02, 0xB2, 0x14]])) ∧
    write_flash_auto_erase_wire true EC2_MODE.C2 ackProbe [] (fun i => 0xA0 + i) 0x1FF 2 50 =
      (true, some (Outcome.ret ()
        [[0x30, 0x00], [0x30, 0x01], [0x2f, 0xFF, 0x01, 0x02, 0xA0, 0xA1]])) := by
  refine ⟨by decide, by decide, by decide, by decide⟩

theorem read_flash_jtag_fold (ec3 : Bool) (heap : Heap) (probe : Probe) (start_addr : Int)
    (len : Nat) (m : Nat) (st : List Nat × Wire) :
    ((List.range m).foldl (read_flash_jtag_block ec3 heap probe start_addr len) st).2 =
      st.2 ++ ((List.range m).map fun (k : Nat) =>
        [read_flash_acmd (start_addr + (12 * k : Nat)),
          [0x11, 0x02, min 12 (len - 12 * k), 0x00]]).flatten := by
  induction m with
  | zero => simp
  | succ m ih =>
    rw [List.range_succ, List.foldl_append, List.map_append, List.flatten_append,
      ← List.append_assoc, ← ih]
    have hn : (if len - 12 * m ≥ 12 then 12 else len - 12 * m) = min 12 (len - 12 * m) := by
      split_ifs with h <;> omega
    simp [read_flash_jtag_block, trx_snd, write_port, hn]

theorem read_flash_jtag_wire (ec3 : Bool) (heap : Heap) (probe : Probe) (w : Wire)
    (buf : List Nat) (start_addr : Int) (len : Nat) (h : start_addr < 0x10000) :
    (ec2_read_flash EC2_MODE.JTAG ec3 heap probe w buf start_addr len).2 =
      w ++ read_flash_jtag_cmds start_addr len := by
  have hs : ¬ (start_addr ≥ 0x10000 ∧ start_addr ≤ 0x1007f) := by omega
  unfold ec2_read_flash read_flash_jtag_cmds
  simp only [trx_snd, read_flash_jtag_fold, hs, decide_False, Bool.false_eq_true, if_false]
  simp

theorem foldl_skip {σ : Type} (c : Nat → Bool) (f : σ → Nat → σ) (l : List Nat) (s : σ)
    (h : ∀ i, i ∈ l → c i = false) :
    l.foldl (fun s (i : Nat) => if c i then f s i else s) s = s := by
  induction l generalizing s with
  | nil => rfl
  | cons i l ih =>
    rw [List.foldl_cons, h i (List.mem_cons_self i l)]
    exact ih s fun j hj => h j (List.mem_cons_of_mem i hj)

theorem jtag_while_wire (probe : Probe) (buf : Nat → Nat) (E : Nat) (fuel : Nat) :
    ∀ st st1, write_flash_jtag_while probe buf E fuel st = some st1 →
      ∃ wr, st1.w = st.w ++ wr := by
  induction fuel with
  | zero =>
    intro st st1 h
    cases h
  | succ n ih =>
    intro st st1 h
    unfold write_flash_jtag_while at h
    split_ifs at h with hc
    · obtain ⟨wr, hw⟩ := ih _ _ h
      simp only [trx_snd, List.append_assoc] at hw
      exact ⟨_, hw⟩
    · cases h
      exact ⟨[], by simp⟩

theorem set_flash_addr_append (probe : Probe) (w : Wire) (addr : Int) :
    set_flash_addr_jtag probe w addr = w ++ set_flash_addr_jtag probe [] addr := by
  unfold set_flash_addr_jtag
  rw [trx_snd, trx_snd]
  rfl

theorem jtag_sector_wire (charSigned : Bool) (probe : Probe) (buf : Nat → Nat)
    (start_addr len first_sector sector_cnt : Int) (fuel : Nat) (st st1 : JtagWrite) (i : Nat)
    (h : write_flash_jtag_sector charSigned probe buf start_addr len first_sector sector_cnt
      fuel st i = some (JtagRun.ok st1)) :
    ∃ wr, st1.w = st.w ++ [[0x0d, 0x05, 0x85, 0x08, 0x01, 0x00, 0x00],
        [0x0d, 0x05, 0x82, 0x08, 0x20, 0x00, 0x00]] ++ set_flash_addr_jtag probe [] st.addr ++
      [[0x0f, 0x01, 0xa5]] ++ wr := by
  unfold write_flash_jtag_sector at h
  simp only [trx_snd] at h
  rw [set_flash_addr_append probe (_ ++ [[0x0d, 0x05, 0x82, 0x08, 0x20, 0x00, 0x00]]),
    set_flash_addr_append probe (_ ++ [[0x0d, 0x05, 0x82, 0x08, 0x10, 0x00, 0x00]])] at h
  have key : st.w ++ [[0x0d, 0x05, 0x85, 0x08, 0x01, 0x00, 0x00],
      [0x0d, 0x05, 0x82, 0x08, 0x20, 0x00, 0x00]] ++ set_flash_addr_jtag probe [] st.addr ++
      [[0x0f, 0x01, 0xa5]] <+: st1.w := by
    split at h
    · cases h
    · rename_i st2 hw
      obtain ⟨wr, hwr⟩ := jtag_while_wire probe buf _ fuel _ _ hw
      simp only at hwr
      split_ifs at h <;> cases h <;>
        simp [trx_snd, hwr, List.append_assoc, List.prefix_append_right_inj]
  obtain ⟨t, ht⟩ := key
  exact ⟨t, ht.symm⟩

theorem jtag_sectors_wire (charSigned : Bool) (probe : Probe) (buf : Nat → Nat)
    (start_addr len first_sector sector_cnt : Int) (fuel : Nat) (l : List Nat) :
    ∀ st st2, write_flash_jtag_sectors charSigned probe buf start_addr len first_sector
        sector_cnt fuel l st = some (JtagRun.ok st2) → ∃ wr, st2.w = st.w ++ wr := by
  induction l with
  | nil =>
    intro st st2 h
    simp only [write_flash_jtag_sectors, Option.some.injEq, JtagRun.ok.injEq] at h
    subst h
    exact ⟨[], by simp⟩
  | cons i rest ih =>
    intro st st2 h
    rw [write_flash_jtag_sectors_cons] at h
    cases hs : write_flash_jtag_sector charSigned probe buf start_addr len first_sector
        sector_cnt fuel st i with
    | none => rw [hs] at h; cases h
    | some r =>
      rw [hs] at h
      cases r with
      | overflow s => cases h
      | ok st1 =>
        obtain ⟨wr1, h1⟩ := jtag_sector_wire charSigned probe buf start_addr len first_sector
          sector_cnt fuel st st1 i hs
        obtain ⟨wr2, h2⟩ := ih st1 st2 h
        exact ⟨_, by rw [h2, h1]; simp only [List.append_assoc]; rfl⟩

theorem jtag_sectors_first_wire (charSigned : Bool) (probe : Probe) (buf : Nat → Nat)
    (start_addr len first_sector sector_cnt : Int) (fuel : Nat) (i : Nat) (rest : List Nat)
    (st st2 : JtagWrite)
    (h : write_flash_jtag_sectors charSigned probe buf start_addr len first_sector sector_cnt
      fuel (i :: rest) st = some (JtagRun.ok st2)) :
    ∃ wr, st2.w = st.w ++ [[0x0d, 0x05, 0x85, 0x08, 0x01, 0x00, 0x00],
        [0x0d, 0x05, 0x82, 0x08, 0x20, 0x00, 0x00]] ++ set_flash_addr_jtag probe [] st.addr ++
      [[0x0f, 0x01, 0xa5]] ++ wr := by
  rw [write_flash_jtag_sectors_cons] at h
  cases hs : write_flash_jtag_sector charSigned probe buf start_addr len first_sector
      sector_cnt fuel st i with
  | none => rw [hs] at h; cases h
  | some r =>
    rw [hs] at h
    cases r with
    | overflow s => cases h
    | ok st1 =>
      obtain ⟨wr1, h1⟩ := jtag_sector_wire charSigned probe buf start_addr len first_sector
        sector_cnt fuel st st1 i hs
      obtain ⟨wr2, h2⟩ := jtag_sectors_wire charSigned probe buf start_addr len first_sector
        sector_cnt fuel rest st1 st2 h
      exact ⟨wr1 ++ wr2, by rw [h2, h1]; simp only [List.append_assoc]⟩

/-- A raw JTAG write of `len >= 1` bytes that ends below 0xFFFF returns, and
what it sends begins with the four commands of the flash preamble and, for the
first sector, the commands `0D 05 85 08 01 00 00`, `0D 05 82 08 20 00 00`, the
load of the address and `0F 01 A5`: the sequence by which
`ec2_erase_flash_sector` erases the sector of that address. -/
theorem write_flash_jtag_wire (charSigned : Bool) (probe : Probe) (w : Wire)
    (buf : Nat → Nat) (start_addr len fuel : Nat) (h1 : 1 ≤ len)
    (hb : start_addr + len ≤ 0xFFFF) (hf : 43 ≤ fuel) :
    ∃ st wr,
      ec2_write_flash_jtag charSigned probe w buf (start_addr : Int) (len : Int) fuel =
          some (JtagRun.ok st) ∧
        st.w = w ++ [[0x02, 0x02, 0xB6, 0x01], [0x02, 0x02, 0xB2, 0x01],
          [0x03, 0x02, 0xB2, 0x04], [0x0B, 0x02, 0x04, 0x00],
          [0x0d, 0x05, 0x85, 0x08, 0x01, 0x00, 0x00],
          [0x0d, 0x05, 0x82, 0x08, 0x20, 0x00, 0x00]] ++
          set_flash_addr_jtag probe [] start_addr ++ [[0x0f, 0x01, 0xa5]] ++ wr := by
  have e1 : ((start_addr : Int) >>> (9 : Nat)) = ((start_addr / 512 : Nat) : Int) := by
    rw [shiftRight9]; omega
  have e2 : (((start_addr : Int) + (len : Int) - 1) >>> (9 : Nat)) -
      ((start_addr / 512 : Nat) : Int) + 1 =
      (((start_addr + len - 1) / 512 - start_addr / 512 + 1 : Nat) : Int) := by
    rw [shiftRight9]; omega
  have e3 : ((start_addr : Int) % 65536).toNat = start_addr := by omega
  have e4 : ¬ ((((start_addr + len - 1) / 512 - start_addr / 512 + 1 : Nat) : Int) > 0xFFFF) := by
    omega
  have e5 : (start_addr + len - 1) / 512 - start_addr / 512 + 1 =
      ((start_addr + len - 1) / 512 - start_addr / 512) + 1 := rfl
  obtain ⟨st2, es, -, -⟩ := (jtag_sectors_spec charSigned probe buf start_addr len h1
    (by omega) fuel ((start_addr + len - 1) / 512 - start_addr / 512 + 1) 0 (by omega)
    { addr := start_addr, ofs := 0,
      w := w ++ [[0x02, 0x02, 0xB6, 0x01], [0x02, 0x02, 0xB2, 0x01], [0x03, 0x02, 0xB2, 0x04],
        [0x0B, 0x02, 0x04, 0x00]], chunks := [] } rfl
    (by
      unfold JtagGood
      refine ⟨?_, ?_, ?_⟩
      · intro c hc
        cases hc
      · simp
      · simp)).2 hb hf
  have es2 := es
  rw [e5, List.range'_succ] at es2
  obtain ⟨wr, hwr⟩ := jtag_sectors_first_wire charSigned probe buf _ _ _ _ fuel 0 _ _ st2 es2
  unfold ec2_write_flash_jtag
  simp only [e1, e2, e3, e4, if_false, Int.toNat_ofNat, List.range_eq_range', trx_snd,
    List.append_assoc, List.cons_append, List.nil_append, List.singleton_append]
  rw [es]
  refine ⟨_, wr ++ [[0x0d, 0x05, 0x82, 0x08, 0x00, 0x00, 0x00], [0x0b, 0x02, 0x01, 0x00],
    [0x03, 0x02, 0xB6, 0x80], [0x03, 0x02, 0xB2, 0x14]], rfl, ?_⟩
  simp only [hwr, List.append_assoc, List.cons_append, List.nil_append,
    List.singleton_append]

/-- A raw JTAG write of `cnt` whole sectors from sector `q`: the address loaded
for the first erase is the base of sector `q`. -/
theorem write_flash_jtag_erases (charSigned : Bool) (probe : Probe) (w : Wire)
    (buf : Nat → Nat) (q cnt fuel : Nat) (h1 : 1 ≤ cnt) (hq : q + cnt ≤ 127) (hf : 43 ≤ fuel) :
    ∃ st wr,
      ec2_write_flash_jtag charSigned probe w buf ((512 * q : Nat) : Int)
          ((512 * cnt : Nat) : Int) fuel = some (JtagRun.ok st) ∧
        st.w = w ++ [[0x02, 0x02, 0xB6, 0x01], [0x02, 0x02, 0xB2, 0x01],
          [0x03, 0x02, 0xB2, 0x04], [0x0B, 0x02, 0x04, 0x00],
          [0x0d, 0x05, 0x85, 0x08, 0x01, 0x00, 0x00], [0x0d, 0x05, 0x82, 0x08, 0x20, 0x00, 0x00],
          [0x0D, 0x05, 0x84, 0x10, 0x00, 2 * q, 0x00], [0x0f, 0x01, 0xa5]] ++ wr := by
  obtain ⟨st, wr, h2, h3⟩ := write_flash_jtag_wire charSigned probe w buf (512 * q) (512 * cnt)
    fuel (by omega) (by omega) hf
  refine ⟨st, wr, h2, ?_⟩
  rw [h3, set_flash_addr_sector probe [] q (by omega)]
  simp only [List.append_assoc, List.cons_append, List.nil_append, List.singleton_append]

theorem erase_fold_jtag (probe : Probe) (w : Wire) (start_addr : Nat) (n : Nat)
    (h : start_addr / 512 + n ≤ 128) :
    (List.range n).foldl
        (fun s (i : Nat) =>
          erase_sector_step EC2_MODE.JTAG probe s (((start_addr : Int) / 512 + (i : Int)) * 512))
        (some (Outcome.ret () w)) =
      some (Outcome.ret () (w ++ ((List.range n).map fun (i : Nat) =>
        [[0x02, 0x02, 0xB6, 0x01], [0x02, 0x02, 0xB2, 0x01], [0x03, 0x02, 0xB2, 0x04],
          [0x0B, 0x02, 0x04, 0x00], [0x0D, 0x05, 0x82, 0x08, 0x20, 0x00, 0x00],
          [0x0D, 0x05, 0x84, 0x10, 0x00, 2 * (start_addr / 512 + i), 0x00],
          [0x0F, 0x01, 0xA5], [0x0B, 0x02, 0x01, 0x00], [0x03, 0x02, 0xB6, 0x80],
          [0x03, 0x02, 0xB2, 0x14]]).flatten)) := by
  induction n with
  | zero => simp
  | succ n ih =>
    rw [List.range_succ, List.foldl_append, ih (by omega), List.foldl_cons, List.foldl_nil]
    unfold erase_sector_step
    simp only
    rw [erase_sector_jtag probe _ _ (by omega) (by omega)]
    have e : ((((start_addr : Int) / 512 + (n : Int)) * 512) / 512).toNat =
        start_addr / 512 + n := by
      omega
    rw [e]
    simp

theorem erase_fold_c2 (probe : Probe) (w : Wire) (start_addr : Nat) (n : Nat)
    (h : start_addr / 512 + n ≤ 128) :
    (List.range n).foldl
        (fun s (i : Nat) =>
          erase_sector_step EC2_MODE.C2 probe s (((start_addr : Int) / 512 + (i : Int)) * 512))
        (some (Outcome.ret () w)) =
      some (Outcome.ret () (w ++ (List.range n).map fun (i : Nat) =>
        [0x30, start_addr / 512 + i])) := by
  induction n with
  | zero => simp
  | succ n ih =>
    rw [List.range_succ, List.foldl_append, ih (by omega), List.foldl_cons, List.foldl_nil]
    unfold erase_sector_step
    simp only
    rw [erase_sector_c2 probe _ _ (by omega) (by omega)]
    have e : ((((start_addr : Int) / 512 + (n : Int)) * 512) / 512).toNat =
        start_addr / 512 + n := by
      omega
    rw [e]
    simp

/-- In JTAG mode, for every range of at least one byte that ends below 0xFFFF,
`ec2_write_flash_auto_erase` returns TRUE after sending the ten commands of
`ec2_erase_flash_sector` for each spanned sector, in ascending order, and then
the raw write, which begins with the flash preamble, `0D 05 85 08 01 00 00` and
once more the erase sequence `0D 05 82 08 20 00 00`, address, `0F 01 A5`. -/
theorem auto_erase_jtag_wire (charSigned : Bool) (probe : Probe) (w : Wire) (buf : Nat → Nat)
    (start_addr len fuel : Nat) (hl : 1 ≤ len) (hb : start_addr + len ≤ 0xFFFF)
    (hf : 43 ≤ fuel) :
    ∃ wr,
      write_flash_auto_erase_wire charSigned EC2_MODE.JTAG probe w buf start_addr len fuel =
        (true, some (Outcome.ret ()
          (w ++ ((List.range ((start_addr + len - 1) / 512 - start_addr / 512 + 1)).map
              fun (i : Nat) =>
                [[0x02, 0x02, 0xB6, 0x01], [0x02, 0x02, 0xB2, 0x01], [0x03, 0x02, 0xB2, 0x04],
                  [0x0B, 0x02, 0x04, 0x00], [0x0D, 0x05, 0x82, 0x08, 0x20, 0x00, 0x00],
                  [0x0D, 0x05, 0x84, 0x10, 0x00, 2 * (start_addr / 512 + i), 0x00],
                  [0x0F, 0x01, 0xA5], [0x0B, 0x02, 0x01, 0x00], [0x03, 0x02, 0xB6, 0x80],
                  [0x03, 0x02, 0xB2, 0x14]]).flatten ++
            [[0x02, 0x02, 0xB6, 0x01], [0x02, 0x02, 0xB2, 0x01], [0x03, 0x02, 0xB2, 0x04],
              [0x0B, 0x02, 0x04, 0x00], [0x0d, 0x05, 0x85, 0x08, 0x01, 0x00, 0x00],
              [0x0d, 0x05, 0x82, 0x08, 0x20, 0x00, 0x00]] ++
            set_flash_addr_jtag probe [] start_addr ++ [[0x0f, 0x01, 0xa5]] ++ wr))) := by
  have hC : (((start_addr : Int) + (len : Int) - 1) / 512 - (start_addr : Int) / 512 + 1).toNat =
      (start_addr + len - 1) / 512 - start_addr / 512 + 1 := by
    omega
  obtain ⟨st, wr, hw1, hw2⟩ := write_flash_jtag_wire charSigned probe
    (w ++ ((List.range ((start_addr + len - 1) / 512 - start_addr / 512 + 1)).map
      fun (i : Nat) =>
        [[0x02, 0x02, 0xB6, 0x01], [0x02, 0x02, 0xB2, 0x01], [0x03, 0x02, 0xB2, 0x04],
          [0x0B, 0x02, 0x04, 0x00], [0x0D, 0x05, 0x82, 0x08, 0x20, 0x00, 0x00],
          [0x0D, 0x05, 0x84, 0x10, 0x00, 2 * (start_addr / 512 + i), 0x00],
          [0x0F, 0x01, 0xA5], [0x0B, 0x02, 0x01, 0x00], [0x03, 0x02, 0xB6, 0x80],
          [0x03, 0x02, 0xB2, 0x14]]).flatten)
    buf start_addr len fuel hl hb hf
  refine ⟨wr, ?_⟩
  unfold write_flash_auto_erase_wire ec2_write_flash_auto_erase
  simp only [shiftRight9, hC]
  rw [erase_fold_jtag probe w start_addr _ (by omega)]
  unfold write_flash_step ec2_write_flash
  simp only [hw1, hw2]

/-- In 2-wire mode, for every range of at least one byte inside the 64 KiB,
`ec2_write_flash_auto_erase` returns TRUE after sending one erase command
`30 sector` for each spanned sector, in ascending order, followed by what the
raw write `ec2_write_flash_c2` sends, which holds no erase. -/
theorem auto_erase_c2_wire (charSigned : Bool) (probe : Probe) (w : Wire) (buf : Nat → Nat)
    (start_addr len fuel : Nat) (hl : 1 ≤ len) (hb : start_addr + len ≤ 0x10000) :
    write_flash_auto_erase_wire charSigned EC2_MODE.C2 probe w buf start_addr len fuel =
      (true, some (Outcome.ret ()
        (ec2_write_flash_c2 probe
          (w ++ (List.range ((start_addr + len - 1) / 512 - start_addr / 512 + 1)).map
            fun (i : Nat) => [0x30, start_addr / 512 + i])
          buf start_addr len).2)) := by
  have hC : (((start_addr : Int) + (len : Int) - 1) / 512 - (start_addr : Int) / 512 + 1).toNat =
      (start_addr + len - 1) / 512 - start_addr / 512 + 1 := by
    omega
  unfold write_flash_auto_erase_wire ec2_write_flash_auto_erase
  simp only [shiftRight9, hC]
  rw [erase_fold_c2 probe w start_addr _ (by omega)]
  unfold write_flash_step ec2_write_flash
  simp only [Int.toNat_ofNat]

/-- C21: in JTAG mode `ec2_write_flash_auto_keep` sends an erase although every
sector it spans reads back as 0xFF throughout. When each of the bytes read into
`tbuf` is 0xFF the function calls no `ec2_erase_flash_sector`: the commands of
the flash read are followed at once by those of the raw write
`ec2_write_flash_jtag`, which begin with the flash preamble and, for the first
sector, `0D 05 85 08 01 00 00` and the erase sequence `0D 05 82 08 20 00 00`,
`0D 05 84 10 00 hi 00`, `0F 01 A5` for that sector. The call returns TRUE. -/
theorem auto_keep_jtag_erases_blank (charSigned ec3 : Bool) (heap : Heap) (probe : Probe)
    (w : Wire) (tbuf0 : List Nat) (buf : Nat → Nat) (start_addr len fuel : Nat)
    (hl : 1 ≤ len) (hb : start_addr + len ≤ 0xFE00) (hf : 43 ≤ fuel)
    (hblank : ∀ k, k < 512 * ((start_addr + len - 1) / 512 - start_addr / 512 + 1) →
      (ec2_read_flash EC2_MODE.JTAG ec3 heap probe w tbuf0
        ((512 * (start_addr / 512) : Nat) : Int)
        (512 * ((start_addr + len - 1) / 512 - start_addr / 512 + 1))).1.getD k 0 % 256 =
          0xFF) :
    ∃ wr,
      write_flash_auto_keep_wire charSigned EC2_MODE.JTAG ec3 heap probe w tbuf0 buf start_addr
          len fuel =
        (true, some (Outcome.ret ()
          (w ++ read_flash_jtag_cmds ((512 * (start_addr / 512) : Nat) : Int)
              (512 * ((start_addr + len - 1) / 512 - start_addr / 512 + 1)) ++
            [[0x02, 0x02, 0xB6, 0x01], [0x02, 0x02, 0xB2, 0x01], [0x03, 0x02, 0xB2, 0x04],
             [0x0B, 0x02, 0x04, 0x00], [0x0d, 0x05, 0x85, 0x08, 0x01, 0x00, 0x00],
             [0x0d, 0x05, 0x82, 0x08, 0x20, 0x00, 0x00],
             [0x0D, 0x05, 0x84, 0x10, 0x00, 2 * (start_addr / 512), 0x00],
             [0x0f, 0x01, 0xa5]] ++ wr))) := by
  have hA : (start_addr : Int) / 512 * 512 = ((512 * (start_addr / 512) : Nat) : Int) := by
    omega
  have hC : ((start_addr : Int) + (len : Int) - 1) / 512 - (start_addr : Int) / 512 + 1 =
      (((start_addr + len - 1) / 512 - start_addr / 512 + 1 : Nat) : Int) := by
    omega
  have hN : ((((start_addr + len - 1) / 512 - start_addr / 512 + 1 : Nat) : Int)) * 0x200 =
      ((512 * ((start_addr + len - 1) / 512 - start_addr / 512 + 1) : Nat) : Int) := by
    omega
  have hrd : read_flash_step EC2_MODE.JTAG ec3 heap probe tbuf0 (some (Outcome.ret () w))
      ((512 * (start_addr / 512) : Nat) : Int)
      ((512 * ((start_addr + len - 1) / 512 - start_addr / 512 + 1) : Nat) : Int) =
      (some (Outcome.ret ()
        (w ++ read_flash_jtag_cmds ((512 * (start_addr / 512) : Nat) : Int)
          (512 * ((start_addr + len - 1) / 512 - start_addr / 512 + 1)))),
        fun k => (ec2_read_flash EC2_MODE.JTAG ec3 heap probe w tbuf0
          ((512 * (start_addr / 512) : Nat) : Int)
          (512 * ((start_addr + len - 1) / 512 - start_addr / 512 + 1))).1.getD k 0) := by
    unfold read_flash_step
    simp only
    rw [if_pos (by omega), Int.toNat_ofNat, read_flash_jtag_wire _ _ _ _ _ _ _ (by omega)]
  obtain ⟨st, wr, hw1, hw2⟩ := write_flash_jtag_erases charSigned probe
    (w ++ read_flash_jtag_cmds ((512 * (start_addr / 512) : Nat) : Int)
      (512 * ((start_addr + len - 1) / 512 - start_addr / 512 + 1)))
    (fun k =>
      if (start_addr : Int) - ((512 * (start_addr / 512) : Nat) : Int) ≤ k ∧
          (k : Int) < (start_addr : Int) - ((512 * (start_addr / 512) : Nat) : Int) + len then
        buf ((k : Int) - ((start_addr : Int) - ((512 * (start_addr / 512) : Nat) : Int))).toNat
      else (ec2_read_flash EC2_MODE.JTAG ec3 heap probe w tbuf0
        ((512 * (start_addr / 512) : Nat) : Int)
        (512 * ((start_addr + len - 1) / 512 - start_addr / 512 + 1))).1.getD k 0)
    (start_addr / 512) ((start_addr + len - 1) / 512 - start_addr / 512 + 1) fuel
    (by omega) (by omega) hf
  refine ⟨wr, ?_⟩
  unfold write_flash_auto_keep_wire ec2_write_flash_auto_keep
  simp only [shiftRight9, hA, hC, hN, Int.toNat_ofNat, hrd]
  rw [foldl_skip]
  · unfold write_flash_step ec2_write_flash
    simp only [hw1, hw2]
  · intro i hi
    rw [List.mem_range] at hi
    rw [List.any_eq_false]
    intro j hj
    rw [List.mem_range] at hj
    have := hblank (i * 0x200 + j) (by omega)
    simp only [bne_iff_ne, ne_eq, Decidable.not_not]
    exact this

theorem read_flash_jtag_blank_fold (heap : Heap) (probe : Probe) (start_addr : Int) (len : Nat)
    (hp : ∀ v n, probe (v ++ [[0x11, 0x02, n, 0x00]]) = some (List.replicate n 0xff))
    (m : Nat) (hm : m ≤ (len + 11) / 12) (st : List Nat × Wire) (hL : len ≤ st.1.length)
    (h : ∀ k, k < len → st.1[k]? = some 0xff) :
    ((List.range m).foldl (read_flash_jtag_block false heap probe start_addr len) st).1.length =
        st.1.length ∧
      ∀ k, k < len →
        ((List.range m).foldl (read_flash_jtag_block false heap probe start_addr len)
          st).1[k]? = some 0xff := by
  induction m with
  | zero => exact ⟨rfl, h⟩
  | succ m ih =>
    obtain ⟨i1, i2⟩ := ih (by omega)
    rw [List.range_succ, List.foldl_append, List.foldl_cons, List.foldl_nil]
    generalize (List.range m).foldl (read_flash_jtag_block false heap probe start_addr len)
      st = s1 at i1 i2
    have hn : (if len - 12 * m ≥ 12 then 12 else len - 12 * m) = min 12 (len - 12 * m) := by
      split_ifs with h <;> omega
    have hrx : rx_bytes false
        (heap (s1.2 ++ [read_flash_acmd (start_addr + (12 * m : Nat))] ++
          [[0x11, 0x02, min 12 (len - 12 * m), 0x00]]))
        (probe (s1.2 ++ [read_flash_acmd (start_addr + (12 * m : Nat))] ++
          [[0x11, 0x02, min 12 (len - 12 * m), 0x00]]))
        (min 12 (len - 12 * m)) = List.replicate (min 12 (len - 12 * m)) 0xff := by
      rw [hp]
      simp [rx_bytes]
    have hfit : 12 * m + (List.replicate (min 12 (len - 12 * m)) 0xff).length ≤ s1.1.length := by
      rw [List.length_replicate, i1]
      omega
    have hstep : (read_flash_jtag_block false heap probe start_addr len s1 m).1 =
        storeAt s1.1 (12 * m) (List.replicate (min 12 (len - 12 * m)) 0xff) := by
      unfold read_flash_jtag_block read_port_buf
      simp only [hn, trx_snd, write_port]
      rw [hrx]
    rw [hstep]
    refine ⟨by rw [storeAt_length _ _ _ hfit, i1], fun k hk => ?_⟩
    rw [storeAt_get _ _ _ hfit]
    split_ifs with c1 c2
    · exact i2 k hk
    · rw [List.length_replicate] at c2
      rw [List.getElem?_replicate]
      simp only [ite_eq_left_iff, not_lt]
      intro hc
      omega
    · exact i2 k hk

/-- On the serial adaptor, when every read command `11 02 n 00` is answered by
`n` bytes 0xFF, all `len` bytes `ec2_read_flash` reads in JTAG mode are 0xFF. -/
theorem read_flash_jtag_blank (heap : Heap) (probe : Probe) (w : Wire) (buf : List Nat)
    (start_addr : Int) (len : Nat)
    (hp : ∀ v n, probe (v ++ [[0x11, 0x02, n, 0x00]]) = some (List.replicate n 0xff))
    (hL : len ≤ buf.length) (k : Nat) (hk : k < len) :
    (ec2_read_flash EC2_MODE.JTAG false heap probe w buf start_addr len).1.getD k 0 % 256 =
      0xFF := by
  unfold ec2_read_flash
  simp only
  rw [List.getD_eq_getElem?_getD,
    (read_flash_jtag_blank_fold heap probe _ len hp _ (le_refl _) _
      (by rw [init_buffer buf len hL]; exact hL)
      (fun j hj => init_buffer_get buf len j hL hj)).2 k hk]
  rfl

theorem blankFlashProbe_read (v : Wire) (n : Nat) :
    blankFlashProbe (v ++ [[0x11, 0x02, n, 0x00]]) = some (List.replicate n 0xff) := by
  unfold blankFlashProbe
  rw [List.getLast?_append]
  rfl

theorem auto_keep_jtag_erases_blank_witness :
    (∀ k, k < 512 →
      (ec2_read_flash EC2_MODE.JTAG false (fun _ _ => 0) blankFlashProbe []
        (List.replicate 512 0) 0 512).1.getD k 0 % 256 = 0xFF) ∧
    ∃ wr,
      write_flash_auto_keep_wire true EC2_MODE.JTAG false (fun _ _ => 0) blankFlashProbe []
          (List.replicate 512 0) (fun _ => 0x55) 0 1 50 =
        (true, some (Outcome.ret ()
          ([] ++ read_flash_jtag_cmds 0 512 ++
            [[0x02, 0x02, 0xB6, 0x01], [0x02, 0x02, 0xB2, 0x01], [0x03, 0x02, 0xB2, 0x04],
             [0x0B, 0x02, 0x04, 0x00], [0x0d, 0x05, 0x85, 0x08, 0x01, 0x00, 0x00],
             [0x0d, 0x05, 0x82, 0x08, 0x20, 0x00, 0x00],
             [0x0D, 0x05, 0x84, 0x10, 0x00, 0x00, 0x00],
             [0x0f, 0x01, 0xa5]] ++ wr))) :=
  ⟨fun k hk => read_flash_jtag_blank (fun _ _ => 0) blankFlashProbe [] (List.replicate 512 0) 0
      512 blankFlashProbe_read
      (le_of_eq (List.length_replicate 512 0).symm) k hk,
    auto_keep_jtag_erases_blank true false (fun _ _ => 0) blankFlashProbe []
      (List.replicate 512 0) (fun _ => 0x55) 0 1 50 (by decide) (by decide) (by decide)
      (fun k hk => read_flash_jtag_blank (fun _ _ => 0) blankFlashProbe [] (List.replicate 512 0)
        0 512 blankFlashProbe_read
      (le_of_eq (List.length_replicate 512 0).symm) k hk)⟩

/-- In 2-wire mode the same call of `ec2_write_flash_auto_keep`, one byte 0x55
at address 0 of a blank flash, sends the 43 reads `2E lo hi n` and the 64 writes
`2F lo hi 08 data` and no erase command `30`. -/
theorem auto_keep_c2_blank_no_erase :
    write_flash_auto_keep_wire true EC2_MODE.C2 false (fun _ _ => 0) blankFlashProbe []
        (List.replicate 512 0) (fun _ => 0x55) 0 1 50 =
      (true, some (Outcome.ret ()
        (((List.range 43).map fun k =>
            [0x2E, (12 * k) % 256, (12 * k) / 256, if k < 42 then 12 else 8]) ++
         [[0x2f, 0x00, 0x00, 0x08, 0x55] ++ List.replicate 7 0xFF] ++
         ((List.range 63).map fun k =>
            [0x2f, (8 * (k + 1)) % 256, (8 * (k + 1)) / 256, 0x08] ++
              List.replicate 8 0xFF)))) := by
  set_option maxRecDepth 200000 in
  decide

end EC2

namespace Target

theorem cache_get_none_iff (c : SFR_PAGE_LIST) (p : Nat) :
    cache_get_sfr_page c p = none ↔ p ∉ c.map (·.page) := by
  induction c with
  | nil => simp [cache_get_sfr_page]
  | cons e rest ih =>
    unfold cache_get_sfr_page
    by_cases h : e.page = p
    · simp [h]
    · simp only [if_neg h, Option.map_eq_none', ih, List.map_cons, List.mem_cons, not_or]
      exact ⟨fun h1 => ⟨fun h2 => h h2.symm, h1⟩, fun h1 => h1.2⟩

theorem cache_get_append (c : SFR_PAGE_LIST) (e : SFR_CACHE_PAGE) (p i : Nat)
    (h : cache_get_sfr_page c p = some i) : cache_get_sfr_page (c ++ [e]) p = some i := by
  induction c generalizing i with
  | nil => simp [cache_get_sfr_page] at h
  | cons a rest ih =>
    rw [List.cons_append]
    unfold cache_get_sfr_page at h ⊢
    by_cases hp : a.page = p
    · rw [if_pos hp] at h ⊢
      exact h
    · rw [if_neg hp] at h ⊢
      cases hr : cache_get_sfr_page rest p with
      | none => simp [hr] at h
      | some j =>
        rw [hr] at h
        rw [ih j hr]
        exact h

theorem cache_get_append_self (c : SFR_PAGE_LIST) (e : SFR_CACHE_PAGE) :
    cache_get_sfr_page (c ++ [e]) e.page ≠ none := by
  rw [Ne, cache_get_none_iff]
  simp

theorem setBuf_pages (c : SFR_PAGE_LIST) (i : Nat) (b : Nat → Nat) :
    (setBuf c i b).map (·.page) = c.map (·.page) := by
  induction c generalizing i with
  | nil => rfl
  | cons e rest ih =>
    cases i with
    | zero => rfl
    | succ n =>
      show e.page :: (setBuf rest n b).map (·.page) = e.page :: rest.map (·.page)
      rw [ih]

theorem cache_get_setBuf (c : SFR_PAGE_LIST) (i : Nat) (b : Nat → Nat) (p : Nat) :
    cache_get_sfr_page (setBuf c i b) p = cache_get_sfr_page c p := by
  induction c generalizing i with
  | nil => rfl
  | cons e rest ih =>
    cases i with
    | zero => rfl
    | succ n =>
      show cache_get_sfr_page (e :: setBuf rest n b) p = cache_get_sfr_page (e :: rest) p
      unfold cache_get_sfr_page
      rw [ih]

theorem cache_get_lt (c : SFR_PAGE_LIST) (p i : Nat) (h : cache_get_sfr_page c p = some i) :
    i < c.length := by
  induction c generalizing i with
  | nil => simp [cache_get_sfr_page] at h
  | cons a rest ih =>
    unfold cache_get_sfr_page at h
    by_cases hp : a.page = p
    · rw [if_pos hp] at h
      cases h
      simp
    · rw [if_neg hp] at h
      cases hr : cache_get_sfr_page rest p with
      | none => simp [hr] at h
      | some j =>
        rw [hr] at h
        cases h
        have := ih j hr
        simp only [List.length_cons]
        omega

theorem bufAt_setBuf_same (c : SFR_PAGE_LIST) (i : Nat) (b : Nat → Nat) (h : i < c.length) :
    bufAt (setBuf c i b) i = b := by
  induction c generalizing i with
  | nil => simp at h
  | cons e rest ih =>
    cases i with
    | zero => rfl
    | succ n =>
      have hn : n < rest.length := by simpa using h
      have := ih n hn
      unfold bufAt at this ⊢
      show (match (e :: setBuf rest n b).get? (n + 1) with
        | some e => e.buf
        | none => fun _ => 0) = b
      rw [List.get?_cons_succ]
      exact this

theorem bufAt_setBuf_other (c : SFR_PAGE_LIST) (i j : Nat) (b : Nat → Nat) (h : j ≠ i) :
    bufAt (setBuf c i b) j = bufAt c j := by
  induction c generalizing i j with
  | nil => rfl
  | cons e rest ih =>
    cases i with
    | zero =>
      cases j with
      | zero => exact absurd rfl h
      | succ m => rfl
    | succ n =>
      cases j with
      | zero => rfl
      | succ m =>
        have hm : m ≠ n := fun e => h (by rw [e])
        have := ih n m hm
        unfold bufAt at this ⊢
        show (match (e :: setBuf rest n b).get? (m + 1) with
          | some e => e.buf
          | none => fun _ => 0) = match (e :: rest).get? (m + 1) with
          | some e => e.buf
          | none => fun _ => 0
        rw [List.get?_cons_succ, List.get?_cons_succ]
        exact this

theorem copyOut_copyIn (dst : Nat → Nat) (off : Int) (buf : List Nat) (h0 : 0 ≤ off) :
    copyOut (copyIn dst off buf buf.length) off buf.length = buf := by
  apply List.ext_getElem
  · simp [copyOut]
  · intro n h1 h2
    simp only [copyOut, List.getElem_map, List.getElem_range, copyIn]
    have hn : n < buf.length := h2
    have e1 : ((off + (n : Int)).toNat : Int) = off + n := Int.toNat_of_nonneg (by omega)
    rw [if_pos (by rw [e1]; constructor <;> omega)]
    have e2 : (((off + (n : Int)).toNat : Int) - off).toNat = n := by
      rw [e1]; simp
    rw [e2, List.getD_eq_getElem _ _ hn]

theorem copyIn_outside (dst : Nat → Nat) (off : Int) (buf : List Nat) (len pos : Nat)
    (h : (pos : Int) < off ∨ off + len ≤ pos) : copyIn dst off buf len pos = dst pos := by
  unfold copyIn
  rw [if_neg (by omega)]

theorem read_hit (hw : Hardware) (t : target) (addr p len i : Nat)
    (h : cache_get_sfr_page t.mCacheSfrPages p = some i) :
    read_sfr_cache hw t addr p len =
      (t, if inPage ((addr : Int) - 0x80) len then
          some (copyOut (bufAt t.mCacheSfrPages i) ((addr : Int) - 0x80) len)
        else none) := by
  unfold read_sfr_cache
  rw [h]

theorem read_miss (hw : Hardware) (t : target) (addr p len : Nat)
    (h : cache_get_sfr_page t.mCacheSfrPages p = none) :
    (read_sfr_cache hw t addr p len).1 =
      { mCacheSfrPages := t.mCacheSfrPages ++
          [{ page := p, buf := hw (t.reads ++ [(0x80, p, 128)]) }],
        reads := t.reads ++ [(0x80, p, 128)] } := by
  unfold read_sfr_cache
  rw [h]

/-- C18: if page p is cached and the range lies in 0x80..0xFF, then
`write_sfr(addr, p, len, buf)` succeeds and the following
`read_sfr_cache(addr, p, len, out)` gives `out` equal to `buf` without reading
from the target and without changing the cache; the write leaves the page
numbers, every other entry and every byte of the entry outside the written
range as they were, and makes no target read either. -/
theorem write_then_read_cached (hw : Hardware) (t : target) (addr p len i : Nat)
    (buf : List Nat) (hc : cache_get_sfr_page t.mCacheSfrPages p = some i)
    (ha : 0x80 ≤ addr) (hl : addr + len ≤ 0x100) (hb : buf.length = len) :
    ∃ t1, write_sfr t addr p len buf = some t1 ∧
      read_sfr_cache hw t1 addr p len = (t1, some buf) ∧
      t1.reads = t.reads ∧
      t1.mCacheSfrPages.map (·.page) = t.mCacheSfrPages.map (·.page) ∧
      (∀ j, j ≠ i → bufAt t1.mCacheSfrPages j = bufAt t.mCacheSfrPages j) ∧
      (∀ pos, (pos + 0x80 < addr ∨ addr + len ≤ pos + 0x80) →
        bufAt t1.mCacheSfrPages i pos = bufAt t.mCacheSfrPages i pos) := by
  have hin : inPage ((addr : Int) - 0x80) len := Or.inr ⟨by omega, by omega⟩
  have hlt := cache_get_lt _ _ _ hc
  let b := copyIn (bufAt t.mCacheSfrPages i) ((addr : Int) - 0x80) buf len
  refine ⟨{ t with mCacheSfrPages := setBuf t.mCacheSfrPages i b }, ?_, ?_, rfl, ?_, ?_, ?_⟩
  · unfold write_sfr
    rw [hc]
    simp only [if_pos hin]
  · rw [read_hit hw _ addr p len i (by rw [cache_get_setBuf]; exact hc), if_pos hin]
    congr 2
    show copyOut (bufAt (setBuf t.mCacheSfrPages i _) i) _ len = buf
    rw [bufAt_setBuf_same _ _ _ hlt]
    subst hb
    exact copyOut_copyIn _ _ _ (by omega)
  · exact setBuf_pages _ _ _
  · intro j hj
    exact bufAt_setBuf_other _ _ _ _ hj
  · intro pos hp
    show bufAt (setBuf t.mCacheSfrPages i _) i pos = _
    rw [bufAt_setBuf_same _ _ _ hlt]
    exact copyIn_outside _ _ _ _ _ (by omega)

theorem write_then_read_cached_witness :
    (cache_get_sfr_page [{ page := 2, buf := fun _ => 0 }] 2 = some 0 ∧ 0x80 ≤ 0x90 ∧
        0x90 + 2 ≤ 0x100 ∧ [7, 8].length = 2) ∧
      ∃ t1, write_sfr { mCacheSfrPages := [{ page := 2, buf := fun _ => 0 }], reads := [] }
          0x90 2 2 [7, 8] = some t1 ∧
        read_sfr_cache (fun _ _ => 0) t1 0x90 2 2 = (t1, some [7, 8]) ∧
        t1.reads = [] ∧
        t1.mCacheSfrPages.map (·.page) = [2] ∧
        (∀ j, j ≠ 0 → bufAt t1.mCacheSfrPages j =
          bufAt [{ page := 2, buf := fun _ => 0 }] j) ∧
        (∀ pos, (pos + 0x80 < 0x90 ∨ 0x90 + 2 ≤ pos + 0x80) →
          bufAt t1.mCacheSfrPages 0 pos = bufAt [{ page := 2, buf := fun _ => 0 }] 0 pos) :=
  ⟨⟨by decide, by decide, by decide, rfl⟩,
   write_then_read_cached (fun _ _ => 0)
     { mCacheSfrPages := [{ page := 2, buf := fun _ => 0 }], reads := [] } 0x90 2 2 0 [7, 8]
     (by decide) (by decide) (by decide) rfl⟩

theorem cache_get_append_new (c : SFR_PAGE_LIST) (p : Nat) (b : Nat → Nat)
    (h : cache_get_sfr_page c p = none) :
    cache_get_sfr_page (c ++ [{ page := p, buf := b }]) p = some c.length := by
  induction c with
  | nil => simp [cache_get_sfr_page]
  | cons a rest ih =>
    rw [List.cons_append]
    unfold cache_get_sfr_page at h ⊢
    by_cases hp : a.page = p
    · rw [if_pos hp] at h
      cases h
    · rw [if_neg hp] at h ⊢
      have hr : cache_get_sfr_page rest p = none := by
        cases hr : cache_get_sfr_page rest p with
        | none => rfl
        | some j => simp [hr] at h
      rw [ih hr]
      rfl

theorem step_keeps (hw : Hardware) (t t1 : target) (op : CacheOp) (p i : Nat)
    (hs : stepCache hw t op = some t1) (h : cache_get_sfr_page t.mCacheSfrPages p = some i) :
    cache_get_sfr_page t1.mCacheSfrPages p = some i := by
  cases op with
  | read addr q len =>
    simp only [stepCache, Option.some.injEq] at hs
    subst hs
    cases hq : cache_get_sfr_page t.mCacheSfrPages q with
    | none =>
      rw [read_miss hw t addr q len hq]
      exact cache_get_append _ _ _ _ h
    | some j =>
      rw [read_hit hw t addr q len j hq]
      exact h
  | write addr q len buf =>
    simp only [stepCache] at hs
    unfold write_sfr at hs
    cases hq : cache_get_sfr_page t.mCacheSfrPages q with
    | none =>
      rw [hq] at hs
      cases hs
      exact h
    | some j =>
      rw [hq] at hs
      simp only at hs
      split at hs
      · cases hs
        show cache_get_sfr_page (setBuf t.mCacheSfrPages j _) p = some i
        rw [cache_get_setBuf]
        exact h
      · cases hs

theorem step_nodup (hw : Hardware) (t t1 : target) (op : CacheOp)
    (hs : stepCache hw t op = some t1) (h : NoDupPages t) : NoDupPages t1 := by
  unfold NoDupPages at h ⊢
  cases op with
  | read addr q len =>
    simp only [stepCache, Option.some.injEq] at hs
    subst hs
    cases hq : cache_get_sfr_page t.mCacheSfrPages q with
    | none =>
      rw [read_miss hw t addr q len hq]
      simp only [List.map_append, List.map_cons, List.map_nil]
      rw [List.nodup_append]
      refine ⟨h, by simp, ?_⟩
      intro a ha hb
      rw [List.mem_singleton] at hb
      subst hb
      exact (cache_get_none_iff _ _).mp hq ha
    | some j =>
      rw [read_hit hw t addr q len j hq]
      exact h
  | write addr q len buf =>
    simp only [stepCache] at hs
    unfold write_sfr at hs
    cases hq : cache_get_sfr_page t.mCacheSfrPages q with
    | none =>
      rw [hq] at hs
      cases hs
      exact h
    | some j =>
      rw [hq] at hs
      simp only at hs
      split at hs
      · cases hs
        show ((setBuf t.mCacheSfrPages j _).map (·.page)).Nodup
        rw [setBuf_pages]
        exact h
      · cases hs

theorem run_keeps (hw : Hardware) (ops : List CacheOp) (t t1 : target) (p i : Nat)
    (hs : runCache hw t ops = some t1) (h : cache_get_sfr_page t.mCacheSfrPages p = some i) :
    cache_get_sfr_page t1.mCacheSfrPages p = some i := by
  induction ops generalizing t with
  | nil =>
    simp only [runCache, Option.some.injEq] at hs
    subst hs
    exact h
  | cons op rest ih =>
    unfold runCache at hs
    cases hst : stepCache hw t op with
    | none => rw [hst] at hs; cases hs
    | some t2 =>
      rw [hst] at hs
      exact ih t2 hs (step_keeps hw t t2 op p i hst h)

theorem run_nodup (hw : Hardware) (ops : List CacheOp) (t t1 : target)
    (hs : runCache hw t ops = some t1) (h : NoDupPages t) : NoDupPages t1 := by
  induction ops generalizing t with
  | nil =>
    simp only [runCache, Option.some.injEq] at hs
    subst hs
    exact h
  | cons op rest ih =>
    unfold runCache at hs
    cases hst : stepCache hw t op with
    | none => rw [hst] at hs; cases hs
    | some t2 =>
      rw [hst] at hs
      exact ih t2 hs (step_nodup hw t t2 op hst h)

/-- C19: a `read_sfr_cache` of a page that is not cached makes exactly one
target read, of 128 bytes at 0x80 of that page, and appends one entry for it;
once a page is cached it stays cached at the same position through every
sequence of cache-aware reads and writes, and a read of it then makes no target
read and returns bytes of that entry; such sequences never create two entries
for one page; after `invalidate_cache` the cache is empty and a read of any
page is a miss again. -/
theorem cache_miss_once_then_hits (hw : Hardware) (t : target) (addr p len : Nat) :
    (cache_get_sfr_page t.mCacheSfrPages p = none →
      (read_sfr_cache hw t addr p len).1 =
          { mCacheSfrPages := t.mCacheSfrPages ++
              [{ page := p, buf := hw (t.reads ++ [(0x80, p, 128)]) }],
            reads := t.reads ++ [(0x80, p, 128)] } ∧
        cache_get_sfr_page (read_sfr_cache hw t addr p len).1.mCacheSfrPages p =
          some t.mCacheSfrPages.length) ∧
    (∀ i ops t1, cache_get_sfr_page t.mCacheSfrPages p = some i →
      runCache hw t ops = some t1 →
      cache_get_sfr_page t1.mCacheSfrPages p = some i ∧
        read_sfr_cache hw t1 addr p len =
          (t1, if inPage ((addr : Int) - 0x80) len then
              some (copyOut (bufAt t1.mCacheSfrPages i) ((addr : Int) - 0x80) len)
            else none)) ∧
    (NoDupPages t → ∀ ops t1, runCache hw t ops = some t1 → NoDupPages t1) ∧
    ((invalidate_cache t).mCacheSfrPages = [] ∧ NoDupPages (invalidate_cache t) ∧
      ∀ a q l, (read_sfr_cache hw (invalidate_cache t) a q l).1.reads =
        t.reads ++ [(0x80, q, 128)]) := by
  refine ⟨fun h => ⟨read_miss hw t addr p len h, ?_⟩, ?_, fun h ops t1 hs => run_nodup hw ops t t1 hs h,
    rfl, ?_, fun a q l => ?_⟩
  · rw [read_miss hw t addr p len h]
    exact cache_get_append_new _ _ _ h
  · intro i ops t1 h hs
    have hk := run_keeps hw ops t t1 p i hs h
    exact ⟨hk, read_hit hw t1 addr p len i hk⟩
  · unfold NoDupPages invalidate_cache
    simp
  · rw [read_miss hw (invalidate_cache t) a q l rfl]
    rfl

theorem cache_miss_once_then_hits_witness :
    (cache_get_sfr_page ({ mCacheSfrPages := [], reads := [] } : target).mCacheSfrPages 3 = none ∧
      NoDupPages { mCacheSfrPages := [], reads := [] }) ∧
    (read_sfr_cache (fun _ _ => 0x5A) { mCacheSfrPages := [], reads := [] } 0x81 3 2).1.reads =
      [(0x80, 3, 128)] ∧
    NoDupPages (read_sfr_cache (fun _ _ => 0x5A) { mCacheSfrPages := [], reads := [] }
      0x81 3 2).1 :=
  have h := cache_miss_once_then_hits (fun _ _ => 0x5A) { mCacheSfrPages := [], reads := [] }
    0x81 3 2
  have hn : NoDupPages { mCacheSfrPages := [], reads := [] } := by
    unfold NoDupPages; simp
  ⟨⟨rfl, hn⟩, by rw [(h.1 rfl).1]; rfl, h.2.2.1 hn [CacheOp.read 0x81 3 2] _ rfl⟩

theorem inPage_iff_positions (off : Int) (len : Nat) :
    inPage off len ↔ ∀ p, p ∈ memcpyPositions off len → 0 ≤ p ∧ p < 128 := by
  unfold inPage memcpyPositions
  simp only [List.mem_map, List.mem_range]
  constructor
  · rintro (h | h) p ⟨k, hk, rfl⟩
    · omega
    · omega
  · intro h
    by_cases h0 : len = 0
    · exact Or.inl h0
    · have h1 := h off ⟨0, by omega, by simp⟩
      have h2 := h (off + ((len - 1 : Nat) : Int)) ⟨len - 1, by omega, rfl⟩
      exact Or.inr ⟨h1.1, by omega⟩

/-- C38: `target::write_sfr` and `target::read_sfr_cache` copy `len` bytes at
offset `addr - 0x80` of the 128-byte page buffer without any test, so the copy
stays inside the buffer only when `len = 0` or `0x80 <= addr` and
`addr + len <= 0x100`. With `addr = 0x10`, `len = 1` the position is -112, with
`addr = 0xFF`, `len = 2` the positions are 127 and 128: the write to a cached
page and the read, on a hit as on a miss, leave the buffer. -/
theorem sfr_cache_copy_leaves_buffer :
    (∀ (addr len : Nat),
      ((∀ p, p ∈ memcpyPositions ((addr : Int) - 0x80) len → 0 ≤ p ∧ p < 128) ↔
        (len = 0 ∨ (0x80 ≤ addr ∧ addr + len ≤ 0x100)))) ∧
    memcpyPositions (((0x10 : Nat) : Int) - 0x80) 1 = [-112] ∧
    memcpyPositions (((0xFF : Nat) : Int) - 0x80) 2 = [127, 128] ∧
    (write_sfr cachedPage0 0x10 0 1 [0x55]).isNone = true ∧
    (write_sfr cachedPage0 0xFF 0 2 [0x55, 0x66]).isNone = true ∧
    (read_sfr_cache (fun _ _ => 0) cachedPage0 0x10 0 1).2 = none ∧
    (read_sfr_cache (fun _ _ => 0) cachedPage0 0xFF 0 2).2 = none ∧
    (read_sfr_cache (fun _ _ => 0) { mCacheSfrPages := [], reads := [] } 0x10 0 1).2 = none := by
  refine ⟨?_, by decide, by decide, by decide, by decide, by decide, by decide, by decide⟩
  intro addr len
  rw [← inPage_iff_positions]
  unfold inPage
  omega

end Target
